import Mathlib

/-! # gvfs: sorted-list reconciliation and file-change event shaping

A shallow embedding of

* `src/hal/ghalvolumemonitor.c`: `diff_sorted_lists`, the volume ignore filter and
  the four update passes of the HAL volume monitor;
* `src/gio/gfilemonitor.c`: the rate limiter and the virtual changes-done hint of
  `g_file_monitor_emit_event`;
* `src/monitor/proxy/gproxyvolume.c`: `g_proxy_volume_update`.

A `GList` is a Lean `List`, a possibly-NULL pointer is an `Option`, signal emission
appends to an explicit list of events, and the clock value read by `get_time_msecs`
is an explicit argument.
-/

namespace Gvfs

/-! ## `diff_sorted_lists` (ghalvolumemonitor.c, 460-502) -/

section Diff

variable {α : Type}

/-- The two output lists of `diff_sorted_lists` (`*added`, `*removed`). -/
structure DiffResult (α : Type) where
  added : List α
  removed : List α
deriving DecidableEq, Repr

/-- The tail loops `while (list != NULL) { *out = g_list_prepend (*out, list->data); list = list->next; }`
of `diff_sorted_lists`: every element of `list` is prepended to `out`, in scan order. -/
def g_list_prepend_all : List α → List α → List α
  | out, [] => out
  | out, x :: list => g_list_prepend_all (x :: out) list

/-- The first `while` loop of `diff_sorted_lists` while `list1` stays at the node `a :: list1`:
it walks `list2`; `next` is the same loop with `list1` advanced to `list1->next`.
When `list2` runs out the first loop ends and the tail loop over `list1` runs. -/
def diff_sorted_lists_scan (compare : α → α → Int) (a : α) (list1 : List α)
    (next : List α → List α → List α → DiffResult α) :
    List α → List α → List α → DiffResult α
  | [], added, removed => ⟨added, g_list_prepend_all removed (a :: list1)⟩
  | b :: list2, added, removed =>
    if compare a b < 0 then
      next (b :: list2) added (a :: removed)
    else if compare a b > 0 then
      diff_sorted_lists_scan compare a list1 next list2 (b :: added) removed
    else
      next list2 added removed

/-- The loops of `diff_sorted_lists` from the cursors `list1`, `list2` with the current
accumulators `added`, `removed`. When `list1` is exhausted only the tail loop over
`list2` does anything. -/
def diff_sorted_lists_loop (compare : α → α → Int) :
    List α → List α → List α → List α → DiffResult α
  | [], list2, added, removed => ⟨g_list_prepend_all added list2, removed⟩
  | a :: list1, list2, added, removed =>
    diff_sorted_lists_scan compare a list1 (diff_sorted_lists_loop compare list1)
      list2 added removed

/-- `diff_sorted_lists (list1, list2, compare, &added, &removed)`: `*added = *removed = NULL`,
then the three loops. -/
def diff_sorted_lists (compare : α → α → Int) (list1 list2 : List α) : DiffResult α :=
  diff_sorted_lists_loop compare list1 list2 [] []

/-- A comparator in the sense of `GCompareFunc` that is a total (pre)order: the sign of
`compare b a` is the opposite of the sign of `compare a b`, and "not greater" is
transitive. Elements with `compare a b = 0` are the comparator's equal elements. -/
structure IsTotalOrderCompare (compare : α → α → Int) : Prop where
  swap : ∀ a b, compare a b < 0 ↔ 0 < compare b a
  le_trans : ∀ a b c, compare a b ≤ 0 → compare b c ≤ 0 → compare a c ≤ 0

/-- Strictly sorted under `compare`: every element compares below every later one. -/
def StrictlySorted (compare : α → α → Int) (l : List α) : Prop :=
  l.Pairwise (fun a b => compare a b < 0)

instance (compare : α → α → Int) (l : List α) : Decidable (StrictlySorted compare l) :=
  inferInstanceAs (Decidable (l.Pairwise (fun a b => compare a b < 0)))

/-- The number of pairs `(a, b)`, `a` from `old` and `b` from `new`, with `compare a b = 0`. -/
def common_pairs (compare : α → α → Int) (old new : List α) : Nat :=
  (old.map (fun a => new.countP (fun b => compare a b == 0))).sum

end Diff

/-! ## HAL device snapshots -/

/-- The sign of `strcmp` on the bytes after the common prefix, on the characters of the
two strings (UTF-8 keeps the order of code points). -/
def strcmp_chars : List Char → List Char → Int
  | [], [] => 0
  | [], _ :: _ => -1
  | _ :: _, [] => 1
  | a :: as, b :: bs => if a < b then -1 else if b < a then 1 else strcmp_chars as bs

/-- The C library `strcmp`, up to the magnitude of a non-zero result. -/
def strcmp (a b : String) : Int := strcmp_chars a.data b.data

/-- Modelled from the spec: a `HalDevice` snapshot (hal-device.c is not among the sources),
"opaque comparable identity (a string key, e.g. device UDI), plus a property bag
(string/bool typed key-value pairs)". -/
structure HalDevice where
  udi : String
  strings : List (String × String)
  bools : List (String × Bool)
deriving DecidableEq, Repr

/-- Modelled from the spec: `get_identity() -> Key` of a device snapshot (hal-device.c). -/
def hal_device_get_udi (d : HalDevice) : String := d.udi

/-- Modelled from the spec: `get_property(name) -> string|absent` (hal-device.c); an absent
property is the NULL pointer. -/
def hal_device_get_property_string (d : HalDevice) (key : String) : Option String :=
  d.strings.lookup key

/-- Modelled from the spec: `get_property(name) -> bool|absent` (hal-device.c); an absent
property reads as FALSE. -/
def hal_device_get_property_bool (d : HalDevice) (key : String) : Bool :=
  (d.bools.lookup key).getD false

/-- `hal_device_compare`: `strcmp` of the two UDIs. -/
def hal_device_compare (a b : HalDevice) : Int :=
  strcmp (hal_device_get_udi a) (hal_device_get_udi b)

/-- Modelled from the spec: a mount-table entry (`GUnixMountEntry`, gunixmounts.c is not among
the sources); the update pass reads its mount path only. -/
structure GUnixMountEntry where
  mount_path : String
  device_path : String
  filesystem_type : String
  is_read_only : Bool
deriving DecidableEq, Repr

/-- Modelled from the spec: `g_unix_mount_get_mount_path` (gunixmounts.c). -/
def g_unix_mount_get_mount_path (e : GUnixMountEntry) : String := e.mount_path

/-- `g_list_sort`: GLib's stable sort of a list under a `GCompareFunc`; a stable sort has
one result for a total preorder, here computed by insertion. -/
def g_list_sort {α : Type} (list : List α) (compare : α → α → Int) : List α :=
  list.insertionSort (fun a b => compare a b ≤ 0)

/-- `_should_volume_be_ignored`; `g_unix_is_mount_path_system_internal` (gunixmounts.c) is a
parameter. -/
def _should_volume_be_ignored (g_unix_is_mount_path_system_internal : Option String → Bool)
    (d : HalDevice) : Bool :=
  let volume_fsusage := hal_device_get_property_string d "volume.fsusage"
  let volume_ignore := hal_device_get_property_bool d "volume.ignore"
  match volume_fsusage with
  | none => false
  | some fsusage =>
    if volume_ignore then true
    else if strcmp fsusage "filesystem" ≠ 0 then true
    else if hal_device_get_property_bool d "volume.is_mounted" then
      if g_unix_is_mount_path_system_internal
          (hal_device_get_property_string d "volume.mount_point") then true
      else false
    else false

/-! ## Live entities and the monitor state

The entity objects live in ghaldrive.c, ghalvolume.c and ghalmount.c, which are not among
the sources. The update passes read an entity only through its `has_udi` /
`has_mount_path` predicates, so an entity is modelled by the identities those predicates
compare, and a Mount also by the key of the Volume it is associated with. The references
Volume → Mount, Volume → Drive and Drive → Volumes are not part of the state;
`g_hal_drive_disconnected` touches only those and has no counterpart here. -/

/-- Modelled from the spec: a Drive, "Identity = device key". -/
structure GHalDrive where
  udi : String
deriving DecidableEq, Repr

/-- Modelled from the spec: a Volume, "identity = device key", with the mount-point property
that a mount path is matched against. -/
structure GHalVolume where
  udi : String
  mount_path : Option String
deriving DecidableEq, Repr

/-- Modelled from the spec: a Mount, "identity = mount path (device-backed) or synthetic
(disc-backed)", a disc mount being keyed by the disc device's identity; "associated with
at most one Volume", held here by the Volume's key. -/
structure GHalMount where
  mount_path : Option String
  udi : Option String
  volume : Option String
deriving DecidableEq, Repr

/-- Modelled from the spec: `g_hal_drive_has_udi` (ghaldrive.c), identity comparison by key;
no drive has the absent key. -/
def g_hal_drive_has_udi (drive : GHalDrive) (udi : Option String) : Bool :=
  udi == some drive.udi

/-- Modelled from the spec: `g_hal_volume_has_udi` (ghalvolume.c). -/
def g_hal_volume_has_udi (volume : GHalVolume) (udi : Option String) : Bool :=
  udi == some volume.udi

/-- Modelled from the spec: `g_hal_volume_has_mount_path` (ghalvolume.c), "matching mount path
against volume mount-point property". -/
def g_hal_volume_has_mount_path (volume : GHalVolume) (mount_path : String) : Bool :=
  volume.mount_path == some mount_path

/-- Modelled from the spec: `g_hal_mount_has_mount_path` (ghalmount.c). -/
def g_hal_mount_has_mount_path (mount : GHalMount) (mount_path : String) : Bool :=
  mount.mount_path == some mount_path

/-- Modelled from the spec: `g_hal_mount_has_udi` (ghalmount.c). -/
def g_hal_mount_has_udi (mount : GHalMount) (udi : Option String) : Bool :=
  udi.isSome && mount.udi == udi

/-- The signals of the volume monitor emitted by the update passes. -/
inductive VolumeMonitorSignal where
  | drive_connected (drive : GHalDrive)
  | drive_disconnected (drive : GHalDrive)
  | volume_added (volume : GHalVolume)
  | volume_removed (volume : GHalVolume)
  | mount_added (mount : GHalMount)
  | mount_removed (mount : GHalMount)
deriving DecidableEq, Repr

/-- Modelled from the spec: `g_hal_mount_unmounted` (ghalmount.c), "mark it unmounted
(invalidate outward references, e.g. a Mount clears its Volume back-reference)". -/
def g_hal_mount_unmounted (mount : GHalMount) : GHalMount :=
  { mount with volume := none }

/-- Modelled from the spec: a Mount drops its association with the Volume of key `udi`. -/
def g_hal_mount_unset_volume (udi : String) (mount : GHalMount) : GHalMount :=
  if mount.volume = some udi then { mount with volume := none } else mount

/-- `struct _GHalVolumeMonitor`: the last snapshots and the five registries.
(`last_mountpoints` is never read or written by the update passes.) -/
structure GHalVolumeMonitor where
  last_optical_disc_devices : List HalDevice
  last_drive_devices : List HalDevice
  last_volume_devices : List HalDevice
  last_mounts : List GUnixMountEntry
  drives : List GHalDrive
  volumes : List GHalVolume
  mounts : List GHalMount
  disc_volumes : List GHalVolume
  disc_mounts : List GHalMount
deriving DecidableEq, Repr

/-- The monitor as `g_hal_volume_monitor_init` leaves it: every list NULL. -/
def g_hal_volume_monitor_init : GHalVolumeMonitor :=
  ⟨[], [], [], [], [], [], [], [], []⟩

/-- What the sources return during one update: `hal_pool_find_by_capability (pool, tag)`
and `g_unix_mounts_get`. -/
structure Snapshot where
  hal_pool_find_by_capability : String → List HalDevice
  g_unix_mounts_get : List GUnixMountEntry

/-- The collaborators of the update passes that live outside these sources: the mount-entry
comparator and the system-internal test (gunixmounts.c), the entity constructors
(each may return NULL) and GLib's URI escaping. -/
structure Collaborators where
  g_unix_mount_compare : GUnixMountEntry → GUnixMountEntry → Int
  g_unix_is_mount_path_system_internal : Option String → Bool
  g_uri_escape_string : Option String → String
  g_hal_drive_new : HalDevice → Option GHalDrive
  g_hal_volume_new : HalDevice → Option GHalDrive → Option GHalVolume
  g_hal_mount_new : GUnixMountEntry → Option GHalVolume → Option GHalMount
  g_hal_mount_new_for_hal_device :
    HalDevice → String → Option String → Option String → Bool → GHalVolume → Option GHalMount

/-- Modelled from the spec: `g_hal_volume_removed` (ghalvolume.c), "mark it disconnected
(invalidate outward references)": the Mounts associated with the removed Volume drop
their reference to it. -/
def g_hal_volume_removed (volume : GHalVolume) (monitor : GHalVolumeMonitor) :
    GHalVolumeMonitor :=
  { monitor with
    mounts := monitor.mounts.map (g_hal_mount_unset_volume volume.udi)
    disc_mounts := monitor.disc_mounts.map (g_hal_mount_unset_volume volume.udi) }

/-- `g_list_remove (list, data)`: removes the first node holding `data`. The passes call it
with the entity a `find_*` function has just returned, the first match of the list, so
removing the first equal value removes that node. -/
def g_list_remove {α : Type} [DecidableEq α] (list : List α) (data : α) : List α :=
  list.erase data

/-- `g_hal_volume_monitor_lookup_volume_for_mount_path`. -/
def g_hal_volume_monitor_lookup_volume_for_mount_path (monitor : GHalVolumeMonitor)
    (mount_path : String) : Option GHalVolume :=
  monitor.volumes.find? (fun volume => g_hal_volume_has_mount_path volume mount_path)

/-- `find_mount_by_mount_path`. -/
def find_mount_by_mount_path (monitor : GHalVolumeMonitor) (mount_path : String) :
    Option GHalMount :=
  monitor.mounts.find? (fun mount => g_hal_mount_has_mount_path mount mount_path)

/-- `find_volume_by_udi`. -/
def find_volume_by_udi (monitor : GHalVolumeMonitor) (udi : Option String) :
    Option GHalVolume :=
  monitor.volumes.find? (fun volume => g_hal_volume_has_udi volume udi)

/-- `find_drive_by_udi`. -/
def find_drive_by_udi (monitor : GHalVolumeMonitor) (udi : Option String) :
    Option GHalDrive :=
  monitor.drives.find? (fun drive => g_hal_drive_has_udi drive udi)

/-- `find_disc_mount_by_udi`. -/
def find_disc_mount_by_udi (monitor : GHalVolumeMonitor) (udi : Option String) :
    Option GHalMount :=
  monitor.disc_mounts.find? (fun mount => g_hal_mount_has_udi mount udi)

/-- `find_disc_volume_by_udi`. -/
def find_disc_volume_by_udi (monitor : GHalVolumeMonitor) (udi : Option String) :
    Option GHalVolume :=
  monitor.disc_volumes.find? (fun volume => g_hal_volume_has_udi volume udi)

/-- A monitor state together with the signals emitted so far, in emission order. -/
abbrev Emitting := GHalVolumeMonitor × List VolumeMonitorSignal

/-! ## The four update passes (ghalvolumemonitor.c, 643-971) -/

/-- The removal loop of `update_drives` over the diff's `removed` list. -/
def update_drives_removed : List HalDevice → Emitting → Emitting
  | [], st => st
  | d :: l, (monitor, signals) =>
    match find_drive_by_udi monitor (some (hal_device_get_udi d)) with
    | some drive =>
      update_drives_removed l
        ({ monitor with drives := g_list_remove monitor.drives drive },
          signals ++ [VolumeMonitorSignal.drive_disconnected drive])
    | none => update_drives_removed l (monitor, signals)

/-- The addition loop of `update_drives` over the diff's `added` list. -/
def update_drives_added (c : Collaborators) : List HalDevice → Emitting → Emitting
  | [], st => st
  | d :: l, (monitor, signals) =>
    match find_drive_by_udi monitor (some (hal_device_get_udi d)) with
    | none =>
      match c.g_hal_drive_new d with
      | some drive =>
        update_drives_added c l
          ({ monitor with drives := drive :: monitor.drives },
            signals ++ [VolumeMonitorSignal.drive_connected drive])
      | none => update_drives_added c l (monitor, signals)
    | some _ => update_drives_added c l (monitor, signals)

/-- `update_drives`. -/
def update_drives (c : Collaborators) (src : Snapshot) (st : Emitting) : Emitting :=
  let new_drive_devices := src.hal_pool_find_by_capability "storage"
  let new_drive_devices := g_list_sort new_drive_devices hal_device_compare
  let diff := diff_sorted_lists hal_device_compare st.1.last_drive_devices new_drive_devices
  let st := update_drives_removed diff.removed st
  let st := update_drives_added c diff.added st
  ({ st.1 with last_drive_devices := new_drive_devices }, st.2)

/-- The devices `update_volumes` keeps of the fetched ones: the ignore loop (707-718) deletes
every link whose device `_should_volume_be_ignored`, then the list is sorted. -/
def update_volumes_new_volume_devices (c : Collaborators) (src : Snapshot) : List HalDevice :=
  let new_volume_devices := src.hal_pool_find_by_capability "volume"
  let new_volume_devices := new_volume_devices.filter
    (fun d => !_should_volume_be_ignored c.g_unix_is_mount_path_system_internal d)
  g_list_sort new_volume_devices hal_device_compare

/-- The removal loop of `update_volumes`; `g_hal_volume_removed` runs before the Volume is
taken off the list. -/
def update_volumes_removed : List HalDevice → Emitting → Emitting
  | [], st => st
  | d :: l, (monitor, signals) =>
    match find_volume_by_udi monitor (some (hal_device_get_udi d)) with
    | some volume =>
      let monitor := g_hal_volume_removed volume monitor
      update_volumes_removed l
        ({ monitor with volumes := g_list_remove monitor.volumes volume },
          signals ++ [VolumeMonitorSignal.volume_removed volume])
    | none => update_volumes_removed l (monitor, signals)

/-- The addition loop of `update_volumes`. -/
def update_volumes_added (c : Collaborators) : List HalDevice → Emitting → Emitting
  | [], st => st
  | d :: l, (monitor, signals) =>
    match find_volume_by_udi monitor (some (hal_device_get_udi d)) with
    | none =>
      let drive := find_drive_by_udi monitor
        (hal_device_get_property_string d "block.storage_device")
      match c.g_hal_volume_new d drive with
      | some volume =>
        update_volumes_added c l
          ({ monitor with volumes := volume :: monitor.volumes },
            signals ++ [VolumeMonitorSignal.volume_added volume])
      | none => update_volumes_added c l (monitor, signals)
    | some _ => update_volumes_added c l (monitor, signals)

/-- `update_volumes`. -/
def update_volumes (c : Collaborators) (src : Snapshot) (st : Emitting) : Emitting :=
  let new_volume_devices := update_volumes_new_volume_devices c src
  let diff := diff_sorted_lists hal_device_compare st.1.last_volume_devices new_volume_devices
  let st := update_volumes_removed diff.removed st
  let st := update_volumes_added c diff.added st
  ({ st.1 with last_volume_devices := new_volume_devices }, st.2)

/-- The removal loop of `update_mounts`; the signal carries the Mount as
`g_hal_mount_unmounted` left it. -/
def update_mounts_removed : List GUnixMountEntry → Emitting → Emitting
  | [], st => st
  | mount_entry :: l, (monitor, signals) =>
    match find_mount_by_mount_path monitor (g_unix_mount_get_mount_path mount_entry) with
    | some mount =>
      update_mounts_removed l
        ({ monitor with mounts := g_list_remove monitor.mounts mount },
          signals ++ [VolumeMonitorSignal.mount_removed (g_hal_mount_unmounted mount)])
    | none => update_mounts_removed l (monitor, signals)

/-- The addition loop of `update_mounts`. -/
def update_mounts_added (c : Collaborators) : List GUnixMountEntry → Emitting → Emitting
  | [], st => st
  | mount_entry :: l, (monitor, signals) =>
    let mount_path := g_unix_mount_get_mount_path mount_entry
    let volume := g_hal_volume_monitor_lookup_volume_for_mount_path monitor mount_path
    match c.g_hal_mount_new mount_entry volume with
    | some mount =>
      update_mounts_added c l
        ({ monitor with mounts := mount :: monitor.mounts },
          signals ++ [VolumeMonitorSignal.mount_added mount])
    | none => update_mounts_added c l (monitor, signals)

/-- `update_mounts`. -/
def update_mounts (c : Collaborators) (src : Snapshot) (st : Emitting) : Emitting :=
  let new_mounts := src.g_unix_mounts_get
  let new_mounts := g_list_sort new_mounts c.g_unix_mount_compare
  let diff := diff_sorted_lists c.g_unix_mount_compare st.1.last_mounts new_mounts
  let st := update_mounts_removed diff.removed st
  let st := update_mounts_added c diff.added st
  ({ st.1 with last_mounts := new_mounts }, st.2)

/-- The devices `update_discs` keeps of the fetched ones: everything but discs that are
blank or have audio is deleted (844-855), then the list is sorted. -/
def update_discs_new_optical_disc_devices (src : Snapshot) : List HalDevice :=
  let new_optical_disc_devices := src.hal_pool_find_by_capability "volume.disc"
  let new_optical_disc_devices := new_optical_disc_devices.filter
    (fun d => hal_device_get_property_bool d "volume.disc.is_blank" ||
      hal_device_get_property_bool d "volume.disc.has_audio")
  g_list_sort new_optical_disc_devices hal_device_compare

/-- One round of the removal loop of `update_discs`, the disc mount's part (871-878). -/
def update_discs_removed_mount (udi : String) : Emitting → Emitting
  | (monitor, signals) =>
    match find_disc_mount_by_udi monitor (some udi) with
    | some mount =>
      ({ monitor with disc_mounts := g_list_remove monitor.disc_mounts mount },
        signals ++ [VolumeMonitorSignal.mount_removed (g_hal_mount_unmounted mount)])
    | none => (monitor, signals)

/-- One round of the removal loop of `update_discs`, the disc volume's part (880-887). -/
def update_discs_removed_volume (udi : String) : Emitting → Emitting
  | (monitor, signals) =>
    match find_disc_volume_by_udi monitor (some udi) with
    | some volume =>
      let monitor := g_hal_volume_removed volume monitor
      ({ monitor with disc_volumes := g_list_remove monitor.disc_volumes volume },
        signals ++ [VolumeMonitorSignal.volume_removed volume])
    | none => (monitor, signals)

/-- The removal loop of `update_discs`. -/
def update_discs_removed : List HalDevice → Emitting → Emitting
  | [], st => st
  | d :: l, st =>
    let udi := hal_device_get_udi d
    update_discs_removed l (update_discs_removed_volume udi (update_discs_removed_mount udi st))

/-- The mount `update_discs` constructs for an added disc `d` with its new `volume`
(904-948): a blank disc gets the root `burn:///`, an audio disc `cdda://<device>/`. -/
def update_discs_new_mount (c : Collaborators) (d : HalDevice) (volume : GHalVolume) :
    Option GHalMount :=
  if hal_device_get_property_bool d "volume.disc.is_blank" then
    c.g_hal_mount_new_for_hal_device d "burn:///" none none true volume
  else
    let encoded_device_file :=
      c.g_uri_escape_string (hal_device_get_property_string d "block.device")
    let uri := "cdda://" ++ encoded_device_file ++ "/"
    c.g_hal_mount_new_for_hal_device d uri (some "Audio Disc") (some "media-optical-audio")
      true volume

/-- The addition loop of `update_discs`. -/
def update_discs_added (c : Collaborators) : List HalDevice → Emitting → Emitting
  | [], st => st
  | d :: l, (monitor, signals) =>
    let drive_udi := hal_device_get_property_string d "block.storage_device"
    match find_drive_by_udi monitor drive_udi with
    | some drive =>
      match c.g_hal_volume_new d (some drive) with
      | some volume =>
        match update_discs_new_mount c d volume with
        | some mount =>
          update_discs_added c l
            ({ monitor with
                disc_volumes := volume :: monitor.disc_volumes,
                disc_mounts := mount :: monitor.disc_mounts },
              signals ++ [VolumeMonitorSignal.volume_added volume,
                VolumeMonitorSignal.mount_added mount])
        | none => update_discs_added c l (monitor, signals)
      | none => update_discs_added c l (monitor, signals)
    | none => update_discs_added c l (monitor, signals)

/-- `update_discs`. -/
def update_discs (c : Collaborators) (src : Snapshot) (st : Emitting) : Emitting :=
  let new_optical_disc_devices := update_discs_new_optical_disc_devices src
  let diff := diff_sorted_lists hal_device_compare st.1.last_optical_disc_devices
    new_optical_disc_devices
  let st := update_discs_removed diff.removed st
  let st := update_discs_added c diff.added st
  ({ st.1 with last_optical_disc_devices := new_optical_disc_devices }, st.2)

/-- `g_hal_volume_monitor_force_update`: the four passes in order; the result is the new
monitor state and the signals emitted by the call, in emission order. -/
def g_hal_volume_monitor_force_update (c : Collaborators) (src : Snapshot)
    (monitor : GHalVolumeMonitor) : Emitting :=
  update_discs c src (update_mounts c src (update_volumes c src (update_drives c src
    (monitor, []))))

/-! ## The file monitor (gfilemonitor.c) -/

/-- A `GFile` object, identified by its location. -/
structure GFile where
  uri : String
deriving DecidableEq, Repr

/-- Modelled from the spec: the event kinds of `GFileMonitorEvent` (the header is not among
the sources), "`changed`, `created`, `deleted`, `changes_done_hint`, `pre_delete`, `moved`,
`attribute_changed`, `unmounted`". -/
inductive GFileMonitorEvent where
  | CHANGED
  | CREATED
  | DELETED
  | CHANGES_DONE_HINT
  | PRE_DELETE
  | MOVED
  | ATTRIBUTE_CHANGED
  | UNMOUNTED
deriving DecidableEq, Repr

/-- One emission of the monitor's `changed` signal: `(file, other_file, event_type)`. -/
structure ChangedSignal where
  file : Option GFile
  other_file : Option GFile
  event_type : GFileMonitorEvent
deriving DecidableEq, Repr

/-- A timeout source attached to the GLib main loop: the clock value (msecs) at which it was
armed and its interval. The fields `send_delayed_change_timeout` (a source id, 0 when
unarmed) and `virtual_changes_done_timeout` (a `GSource *`, NULL when unarmed) hold one. -/
structure Timeout where
  armed_at : Nat
  interval : Nat
deriving DecidableEq, Repr

/-- The clock value at which the main loop dispatches the timeout. -/
def Timeout.due (t : Timeout) : Nat := t.armed_at + t.interval

/-- `struct _GFileMonitorPrivate`. -/
structure GFileMonitorPrivate where
  cancelled : Bool
  rate_limit_msec : Int
  last_sent_change_time : Nat
  last_sent_change_file : Option GFile
  send_delayed_change_timeout : Option Timeout
  virtual_changes_done_timeout : Option Timeout
  virtual_changes_done_file : Option GFile
deriving DecidableEq, Repr

/-- A monitor state and the signals an operation emitted, in emission order. -/
abbrev Shaped := GFileMonitorPrivate × List ChangedSignal

/-- `g_file_monitor_init`: zeroed private data, `rate_limit_msec = 800`. -/
def g_file_monitor_init : GFileMonitorPrivate :=
  { cancelled := false, rate_limit_msec := 800, last_sent_change_time := 0,
    last_sent_change_file := none, send_delayed_change_timeout := none,
    virtual_changes_done_timeout := none, virtual_changes_done_file := none }

/-- `g_file_monitor_set_rate_limit`. -/
def g_file_monitor_set_rate_limit (monitor : GFileMonitorPrivate) (limit_msecs : Int) :
    GFileMonitorPrivate :=
  { monitor with rate_limit_msec := limit_msecs }

/-- The value of a C `int` converted to `guint32`. -/
def to_guint32 (i : Int) : Nat := (i % 4294967296).toNat

/-- `time_difference`. -/
def time_difference (from_ to_ : Nat) : Nat :=
  if from_ > to_ then 0 else to_ - from_

/-- `update_last_sent_change`: afterwards `last_sent_change_file` is `file` (the old
reference is dropped when it is another object) and the time is `time_now`. -/
def update_last_sent_change (monitor : GFileMonitorPrivate) (file : Option GFile)
    (time_now : Nat) : GFileMonitorPrivate :=
  { monitor with last_sent_change_file := file, last_sent_change_time := time_now }

/-- `send_delayed_change_now`; `time_now` is what `get_time_msecs ()` returns. -/
def send_delayed_change_now (monitor : GFileMonitorPrivate) (time_now : Nat) : Shaped :=
  match monitor.send_delayed_change_timeout with
  | some _ =>
    ({ monitor with send_delayed_change_timeout := none, last_sent_change_time := time_now },
      [⟨monitor.last_sent_change_file, none, GFileMonitorEvent.CHANGED⟩])
  | none => (monitor, [])

/-- `delayed_changed_event_timeout`, the callback of the delayed-change timeout. -/
def delayed_changed_event_timeout (monitor : GFileMonitorPrivate) (time_now : Nat) : Shaped :=
  send_delayed_change_now monitor time_now

/-- `schedule_delayed_change`; `time_now` is the main loop's clock when `g_timeout_add`
is called. The `file` argument is not used by the function. -/
def schedule_delayed_change (monitor : GFileMonitorPrivate) (_file : GFile)
    (delay_msec : Nat) (time_now : Nat) : GFileMonitorPrivate :=
  match monitor.send_delayed_change_timeout with
  | none => { monitor with send_delayed_change_timeout := some ⟨time_now, delay_msec⟩ }
  | some _ => monitor

/-- `cancel_delayed_change`. -/
def cancel_delayed_change (monitor : GFileMonitorPrivate) : GFileMonitorPrivate :=
  { monitor with send_delayed_change_timeout := none }

/-- `send_virtual_changes_done_now`. -/
def send_virtual_changes_done_now (monitor : GFileMonitorPrivate) : Shaped :=
  match monitor.virtual_changes_done_timeout with
  | some _ =>
    ({ monitor with virtual_changes_done_timeout := none, virtual_changes_done_file := none },
      [⟨monitor.virtual_changes_done_file, none, GFileMonitorEvent.CHANGES_DONE_HINT⟩])
  | none => (monitor, [])

/-- `virtual_changes_done_timeout`, the callback of the quiescence timeout. -/
def virtual_changes_done_timeout (monitor : GFileMonitorPrivate) : Shaped :=
  send_virtual_changes_done_now monitor

/-- `schedule_virtual_change_done`: a new source of `g_timeout_source_new_seconds (3)`, taken
to be due exactly 3000 msecs after it is attached. -/
def schedule_virtual_change_done (monitor : GFileMonitorPrivate) (file : GFile)
    (time_now : Nat) : GFileMonitorPrivate :=
  { monitor with
    virtual_changes_done_timeout := some ⟨time_now, 3000⟩,
    virtual_changes_done_file := some file }

/-- `cancel_virtual_changes_done`. -/
def cancel_virtual_changes_done (monitor : GFileMonitorPrivate) : GFileMonitorPrivate :=
  match monitor.virtual_changes_done_timeout with
  | some _ =>
    { monitor with virtual_changes_done_timeout := none, virtual_changes_done_file := none }
  | none => monitor

/-- `g_file_monitor_emit_event`; `time_now` is what `get_time_msecs ()` returns during the
call. In `since_last < rate_limit_msec` and `rate_limit_msec - since_last` the `int` is
converted to `guint32`, and the difference is taken modulo 2^32. -/
def g_file_monitor_emit_event (monitor : GFileMonitorPrivate) (file : GFile)
    (other_file : Option GFile) (event_type : GFileMonitorEvent) (time_now : Nat) : Shaped :=
  if event_type ≠ GFileMonitorEvent.CHANGED then
    let (monitor, out1) := send_delayed_change_now monitor time_now
    let monitor := update_last_sent_change monitor none 0
    let (monitor, out2) :=
      if event_type = GFileMonitorEvent.CHANGES_DONE_HINT then
        (cancel_virtual_changes_done monitor, [])
      else
        send_virtual_changes_done_now monitor
    (monitor, out1 ++ out2 ++ [⟨some file, other_file, event_type⟩])
  else
    let (monitor, emit_now) :=
      match monitor.last_sent_change_file with
      | some _ =>
        let since_last := time_difference monitor.last_sent_change_time time_now
        if since_last < to_guint32 monitor.rate_limit_msec then
          (schedule_delayed_change monitor file
            ((to_guint32 monitor.rate_limit_msec + 4294967296 - since_last) % 4294967296)
            time_now, false)
        else (monitor, true)
      | none => (monitor, true)
    let (monitor, out) :=
      if emit_now then
        (update_last_sent_change (cancel_delayed_change monitor) (some file) time_now,
          [(⟨some file, other_file, event_type⟩ : ChangedSignal)])
      else (monitor, [])
    let monitor := cancel_virtual_changes_done monitor
    (schedule_virtual_change_done monitor file time_now, out)

/-- `g_file_monitor_is_cancelled`. -/
def g_file_monitor_is_cancelled (monitor : GFileMonitorPrivate) : Bool := monitor.cancelled

/-- What a call of `g_file_monitor_cancel` leaves and returns. -/
structure CancelResult where
  monitor : GFileMonitorPrivate
  returned : Bool
  class_cancel_invoked : Bool
deriving DecidableEq, Repr

/-- `g_file_monitor_cancel`. The `cancel` method of the monitor's class (set by the
subclass) is a parameter; it is handed the monitor and returns a `gboolean`. -/
def g_file_monitor_cancel (class_cancel : GFileMonitorPrivate → Bool)
    (monitor : GFileMonitorPrivate) : CancelResult :=
  if monitor.cancelled then ⟨monitor, true, false⟩
  else
    let monitor := { monitor with cancelled := true }
    ⟨monitor, class_cancel monitor, true⟩

/-! ### The main loop

The monitor's callbacks run on GLib's main loop: a feed is a call of
`g_file_monitor_emit_event`, and an armed timeout is dispatched once the clock has reached
its due time. -/

/-- A signal together with the clock value at which it was emitted. -/
structure Emission where
  time : Nat
  signal : ChangedSignal
deriving DecidableEq, Repr

/-- What the main loop can run on the monitor: a feed, or the dispatch of one of the two
timeout callbacks, each at a clock value. -/
inductive Action where
  | feed (time_now : Nat) (file : GFile) (other_file : Option GFile)
      (event_type : GFileMonitorEvent)
  | delayed_change_fires (time_now : Nat)
  | virtual_changes_done_fires (time_now : Nat)
deriving DecidableEq, Repr

/-- The clock value of an action. -/
def Action.time : Action → Nat
  | .feed t _ _ _ => t
  | .delayed_change_fires t => t
  | .virtual_changes_done_fires t => t

/-- The action is a feed of a `changed` event or a timeout dispatch. -/
def Action.isChangedOrTimer : Action → Bool
  | .feed _ _ _ k => k == GFileMonitorEvent.CHANGED
  | _ => true

/-- The main loop can run the action in this state: a feed always, a timeout callback
when that timeout is armed and due. -/
def Action.enabled (monitor : GFileMonitorPrivate) : Action → Bool
  | .feed _ _ _ _ => true
  | .delayed_change_fires t =>
    match monitor.send_delayed_change_timeout with
    | some tm => decide (tm.due ≤ t)
    | none => false
  | .virtual_changes_done_fires t =>
    match monitor.virtual_changes_done_timeout with
    | some tm => decide (tm.due ≤ t)
    | none => false

/-- The effect of one action. -/
def Action.run (monitor : GFileMonitorPrivate) : Action → Shaped
  | .feed t file other_file event_type =>
    g_file_monitor_emit_event monitor file other_file event_type t
  | .delayed_change_fires t => delayed_changed_event_timeout monitor t
  | .virtual_changes_done_fires _ => virtual_changes_done_timeout monitor

/-- The signals of one action stamped with the action's clock value. -/
def stamp (t : Nat) (out : List ChangedSignal) : List Emission :=
  out.map (fun s => ⟨t, s⟩)

/-- Runs a sequence of actions; the result is the final state and every emission. -/
def run_actions : GFileMonitorPrivate → List Action → GFileMonitorPrivate × List Emission
  | monitor, [] => (monitor, [])
  | monitor, a :: rest =>
    let (monitor1, out) := a.run monitor
    let (monitor2, outs) := run_actions monitor1 rest
    (monitor2, stamp a.time out ++ outs)

/-- A schedule the main loop can produce from `monitor` when its clock reads at least
`clock`: the clock never goes back, and every action is enabled when it runs. -/
def valid_schedule : GFileMonitorPrivate → Nat → List Action → Bool
  | _, _, [] => true
  | monitor, clock, a :: rest =>
    decide (clock ≤ a.time) && a.enabled monitor &&
      valid_schedule (a.run monitor).1 a.time rest

/-- The next timeout the idle main loop dispatches before or at `until_`: the armed timeout
with the least due time; on a tie the delayed-change timeout, whose source is always
attached before the quiescence source (emit_event line 299 before line 316). -/
def next_timeout (monitor : GFileMonitorPrivate) (until_ : Nat) : Option Action :=
  match monitor.send_delayed_change_timeout, monitor.virtual_changes_done_timeout with
  | some d, some q =>
    if d.due ≤ q.due then
      if d.due ≤ until_ then some (.delayed_change_fires d.due) else none
    else
      if q.due ≤ until_ then some (.virtual_changes_done_fires q.due) else none
  | some d, none => if d.due ≤ until_ then some (.delayed_change_fires d.due) else none
  | none, some q => if q.due ≤ until_ then some (.virtual_changes_done_fires q.due) else none
  | none, none => none

/-- The schedule of the idle main loop (no feed) from `monitor` until the clock reads
`until_`: each armed timeout is dispatched at its due time. A callback arms no timeout,
so at most two dispatches happen. -/
def idle_schedule (monitor : GFileMonitorPrivate) (until_ : Nat) : List Action :=
  match next_timeout monitor until_ with
  | none => []
  | some a =>
    match next_timeout (a.run monitor).1 until_ with
    | none => [a]
    | some b => [a, b]

/-- Runs the idle main loop until the clock reads `until_`. -/
def run_idle (monitor : GFileMonitorPrivate) (until_ : Nat) :
    GFileMonitorPrivate × List Emission :=
  run_actions monitor (idle_schedule monitor until_)

/-- Feeds `Changed(file)` at each of the clock values `times`, the main loop idling in
between: before each feed the timeouts due by then are dispatched. -/
def feed_changed_at (file : GFile) :
    GFileMonitorPrivate → List Nat → GFileMonitorPrivate × List Emission
  | monitor, [] => (monitor, [])
  | monitor, t :: times =>
    let (monitor1, out1) := run_idle monitor t
    let (monitor2, out2) := g_file_monitor_emit_event monitor1 file none .CHANGED t
    let (monitor3, out3) := feed_changed_at file monitor2 times
    (monitor3, out1 ++ stamp t out2 ++ out3)

/-! ## Concrete inputs -/

/-- A set of collaborators: mount entries compare by mount path, `/proc` is
system-internal, every construction succeeds and keeps the snapshot's identity, and a Mount is associated
with the Volume it is given. -/
def sample_collaborators : Collaborators where
  g_unix_mount_compare := fun a b => strcmp a.mount_path b.mount_path
  g_unix_is_mount_path_system_internal := fun p => p == some "/proc"
  g_uri_escape_string := fun s => s.getD ""
  g_hal_drive_new := fun d => some ⟨d.udi⟩
  g_hal_volume_new := fun d _ =>
    some ⟨d.udi, hal_device_get_property_string d "volume.mount_point"⟩
  g_hal_mount_new := fun e volume =>
    some ⟨some e.mount_path, none, volume.map (fun v => v.udi)⟩
  g_hal_mount_new_for_hal_device := fun d _ _ _ _ volume =>
    some ⟨none, some d.udi, some volume.udi⟩

/-- A volume device with `volume.ignore = true` and no `volume.fsusage` property. -/
def sample_ignored_without_fsusage : HalDevice :=
  ⟨"/hal/vol0", [], [("volume.ignore", true)]⟩

/-- A volume device with `volume.ignore = true` and `volume.fsusage = "filesystem"`. -/
def sample_ignored_filesystem : HalDevice :=
  ⟨"/hal/vol1", [("volume.fsusage", "filesystem")], [("volume.ignore", true)]⟩

/-- A snapshot with one drive, the two sample volumes and one mount. -/
def sample_snapshot : Snapshot where
  hal_pool_find_by_capability := fun capability =>
    if capability = "storage" then [⟨"/hal/drive0", [], []⟩]
    else if capability = "volume" then
      [sample_ignored_filesystem, sample_ignored_without_fsusage]
    else []
  g_unix_mounts_get := [⟨"/media/disk", "/dev/sdb1", "vfat", false⟩]

/-- The file used in the scenarios of the file monitor. -/
def sample_file : GFile := ⟨"file:///tmp/f"⟩

/-- A second file. -/
def sample_other_file : GFile := ⟨"file:///tmp/g"⟩

/-! ## Invariants of the file monitor used in the proofs -/

/-- Two emissions of a `changed` event are at least `W` msecs apart. -/
def ChangedApart (W : Int) (e1 e2 : Emission) : Prop :=
  e1.signal.event_type = GFileMonitorEvent.CHANGED →
    e2.signal.event_type = GFileMonitorEvent.CHANGED → (e1.time : Int) + W ≤ e2.time

instance (W : Int) (e1 e2 : Emission) : Decidable (ChangedApart W e1 e2) :=
  inferInstanceAs (Decidable (e1.signal.event_type = GFileMonitorEvent.CHANGED →
    e2.signal.event_type = GFileMonitorEvent.CHANGED → (e1.time : Int) + W ≤ e2.time))

/-- What holds of a monitor with window `W`, the clock value `clock` of the last action and
the emissions `out` so far, while only `changed` events are fed: the recorded last-sent
time is the time of the latest `changed` emission, and an armed delayed-change timeout is
due no earlier than a window after it. -/
structure RateLimitInvariant (W : Int) (m : GFileMonitorPrivate) (clock : Nat)
    (out : List Emission) : Prop where
  window : m.rate_limit_msec = W
  times_le : ∀ e ∈ out, e.time ≤ clock
  apart : out.Pairwise (ChangedApart W)
  none_sent : 0 < W → m.last_sent_change_file = none →
    ∀ e ∈ out, e.signal.event_type ≠ GFileMonitorEvent.CHANGED
  last_sent : 0 < W → m.last_sent_change_file ≠ none →
    (∀ e ∈ out, e.signal.event_type = GFileMonitorEvent.CHANGED →
      e.time ≤ m.last_sent_change_time) ∧ m.last_sent_change_time ≤ clock
  delayed : 0 < W → ∀ tm, m.send_delayed_change_timeout = some tm →
    m.last_sent_change_file ≠ none ∧ (m.last_sent_change_time : Int) + W ≤ tm.due

/-- What holds of a monitor with window `W` while only `Changed(F)` is fed, `clock` being at
or after the last feed: an armed delayed-change timeout is due within a window of the
clock, and the last-sent file, when there is one, is `F`. -/
structure QuiescenceInvariant (W : Int) (F : GFile) (m : GFileMonitorPrivate)
    (clock : Nat) : Prop where
  window : m.rate_limit_msec = W
  last_file : m.last_sent_change_file = none ∨ m.last_sent_change_file = some F
  delayed : ∀ d, m.send_delayed_change_timeout = some d →
    (d.due : Int) ≤ clock + W ∧ m.last_sent_change_file = some F

/-! ## Signal kinds and further concrete inputs -/

/-- The signal is one of `drive_disconnected`, `volume_removed`, `mount_removed`. -/
def VolumeMonitorSignal.is_removal : VolumeMonitorSignal → Bool
  | .drive_disconnected _ => true
  | .volume_removed _ => true
  | .mount_removed _ => true
  | _ => false

/-- The signal is one of `drive_connected`, `volume_added`, `mount_added`. -/
def VolumeMonitorSignal.is_addition : VolumeMonitorSignal → Bool
  | .drive_connected _ => true
  | .volume_added _ => true
  | .mount_added _ => true
  | _ => false

/-- The signal is about a Drive. -/
def VolumeMonitorSignal.is_drive : VolumeMonitorSignal → Bool
  | .drive_connected _ => true
  | .drive_disconnected _ => true
  | _ => false

/-- The signal is about a Volume. -/
def VolumeMonitorSignal.is_volume : VolumeMonitorSignal → Bool
  | .volume_added _ => true
  | .volume_removed _ => true
  | _ => false

/-- The signal is about a Mount. -/
def VolumeMonitorSignal.is_mount : VolumeMonitorSignal → Bool
  | .mount_added _ => true
  | .mount_removed _ => true
  | _ => false

/-- Collaborators like `sample_collaborators` whose three constructors `g_hal_drive_new`,
`g_hal_volume_new` and `g_hal_mount_new` return NULL for every snapshot. -/
def sample_failing_collaborators : Collaborators :=
  { sample_collaborators with
    g_hal_drive_new := fun _ => none
    g_hal_volume_new := fun _ _ => none
    g_hal_mount_new := fun _ _ => none }

/-- A mount table in which `/mnt` is mounted over: two entries with the same mount path. -/
def sample_overmounted_snapshot : Snapshot where
  hal_pool_find_by_capability := fun capability =>
    if capability = "storage" then [⟨"/hal/drive0", [], []⟩] else []
  g_unix_mounts_get :=
    [⟨"/mnt", "/dev/sda1", "ext3", false⟩, ⟨"/mnt", "/dev/sdb1", "vfat", false⟩]

/-- The sources return nothing: no device of any capability, no mount. -/
def sample_empty_snapshot : Snapshot where
  hal_pool_find_by_capability := fun _ => []
  g_unix_mounts_get := []

/-- A drive with a mounted volume: the volume's mount point is the mount path of the one
mount. -/
def sample_mounted_snapshot : Snapshot where
  hal_pool_find_by_capability := fun capability =>
    if capability = "storage" then [⟨"/hal/drive0", [], []⟩]
    else if capability = "volume" then
      [⟨"/hal/vol2", [("volume.fsusage", "filesystem"), ("volume.mount_point", "/media/disk"),
        ("block.storage_device", "/hal/drive0")], [("volume.is_mounted", true)]⟩]
    else []
  g_unix_mounts_get := [⟨"/media/disk", "/dev/sdb1", "vfat", false⟩]

/-- The same drive and mount after the volume device has left the device database. -/
def sample_unplugged_snapshot : Snapshot where
  hal_pool_find_by_capability := fun capability =>
    if capability = "storage" then [⟨"/hal/drive0", [], []⟩] else []
  g_unix_mounts_get := [⟨"/media/disk", "/dev/sdb1", "vfat", false⟩]

/-- A blank disc in the sample drive. -/
def sample_blank_disc : HalDevice :=
  ⟨"/hal/disc0", [("block.storage_device", "/hal/drive0")], [("volume.disc.is_blank", true)]⟩

/-- The sample drive with the blank disc in it. -/
def sample_disc_snapshot : Snapshot where
  hal_pool_find_by_capability := fun capability =>
    if capability = "storage" then [⟨"/hal/drive0", [], []⟩]
    else if capability = "volume.disc" then [sample_blank_disc]
    else []
  g_unix_mounts_get := []

/-- A mount-entry comparator in the way of gunixmounts.c: by mount path, then by device
path. -/
def sample_mount_compare (a b : GUnixMountEntry) : Int :=
  if strcmp a.mount_path b.mount_path ≠ 0 then strcmp a.mount_path b.mount_path
  else strcmp a.device_path b.device_path

/-! ## The registry loops seen on one registry

The removal and addition loops of the passes all have one shape. These functions give
what such a loop does to the registry it works on and which entities it takes off or
constructs, in loop order; the theorems relate each loop of the passes to them. -/

section Registry

variable {E S : Type}

/-- A removal loop over the snapshots: for each snapshot the first entity that `has` its
identity, if there is one, is taken off the registry. The result is the registry left
and the entities taken off, in order. -/
def registry_remove (has : E → S → Bool) : List S → List E → List E × List E
  | [], reg => (reg, [])
  | s :: l, reg =>
    match reg.find? (fun e => has e s) with
    | some e =>
      ((registry_remove has l (reg.eraseP (fun e => has e s))).1,
        e :: (registry_remove has l (reg.eraseP (fun e => has e s))).2)
    | none => registry_remove has l reg

/-- An addition loop with the defensive re-check: for each snapshot without a live entity
that `has` its identity, `make` is called and a non-NULL result is prepended. The result
is the registry and the entities constructed, in order. -/
def registry_add_checked (has : E → S → Bool) (make : S → Option E) :
    List S → List E → List E × List E
  | [], reg => (reg, [])
  | s :: l, reg =>
    match reg.find? (fun e => has e s) with
    | none =>
      match make s with
      | some e =>
        ((registry_add_checked has make l (e :: reg)).1,
          e :: (registry_add_checked has make l (e :: reg)).2)
      | none => registry_add_checked has make l reg
    | some _ => registry_add_checked has make l reg

end Registry

/-- The identity test of the drives pass: the Drive has the device's UDI. -/
def drive_has_device (drive : GHalDrive) (d : HalDevice) : Bool :=
  g_hal_drive_has_udi drive (some (hal_device_get_udi d))

/-- The identity test of the volumes and discs passes: the Volume has the device's UDI. -/
def volume_has_device (volume : GHalVolume) (d : HalDevice) : Bool :=
  g_hal_volume_has_udi volume (some (hal_device_get_udi d))

/-- The identity test of the mounts pass: the Mount has the entry's mount path. -/
def mount_has_entry (mount : GHalMount) (e : GUnixMountEntry) : Bool :=
  g_hal_mount_has_mount_path mount (g_unix_mount_get_mount_path e)

/-- The identity test of the discs pass for Mounts: the Mount has the device's UDI. -/
def mount_has_device (mount : GHalMount) (d : HalDevice) : Bool :=
  g_hal_mount_has_udi mount (some (hal_device_get_udi d))

/-- The Mounts after `g_hal_volume_removed` has run for each of the Volumes, in order. -/
def unset_volumes (volumes : List GHalVolume) (mounts : List GHalMount) : List GHalMount :=
  volumes.foldl (fun ms v => ms.map (g_hal_mount_unset_volume v.udi)) mounts

/-- The Volume `update_volumes` constructs for an added device: `g_hal_volume_new` with the
Drive found for the device's `block.storage_device`. -/
def update_volumes_new_volume (c : Collaborators) (monitor : GHalVolumeMonitor)
    (d : HalDevice) : Option GHalVolume :=
  c.g_hal_volume_new d
    (find_drive_by_udi monitor (hal_device_get_property_string d "block.storage_device"))

/-- The Mount `update_mounts` constructs for an added entry: `g_hal_mount_new` with the
Volume looked up for the entry's mount path. -/
def update_mounts_new_mount (c : Collaborators) (monitor : GHalVolumeMonitor)
    (e : GUnixMountEntry) : Option GHalMount :=
  c.g_hal_mount_new e
    (g_hal_volume_monitor_lookup_volume_for_mount_path monitor (g_unix_mount_get_mount_path e))

/-- The Volume and Mount `update_discs` constructs for an added disc device, when the parent
Drive is live and both constructions succeed. -/
def update_discs_new_pair (c : Collaborators) (monitor : GHalVolumeMonitor) (d : HalDevice) :
    Option (GHalVolume × GHalMount) :=
  match find_drive_by_udi monitor (hal_device_get_property_string d "block.storage_device") with
  | some drive =>
    match c.g_hal_volume_new d (some drive) with
    | some volume =>
      match update_discs_new_mount c d volume with
      | some mount => some (volume, mount)
      | none => none
    | none => none
  | none => none

/-- The signals of the removal loop of `update_discs` from the disc Mounts and disc Volumes
it starts with: for each device the `mount_removed` of the first Mount with its UDI, then
the `volume_removed` of the first Volume with its UDI. -/
def update_discs_removed_signals :
    List HalDevice → List GHalMount → List GHalVolume → List VolumeMonitorSignal
  | [], _, _ => []
  | d :: l, mounts, volumes =>
    ((mounts.find? (fun m => mount_has_device m d)).toList.map
        (fun m => VolumeMonitorSignal.mount_removed (g_hal_mount_unmounted m))) ++
      ((volumes.find? (fun v => volume_has_device v d)).toList.map
        VolumeMonitorSignal.volume_removed) ++
      update_discs_removed_signals l (mounts.eraseP (fun m => mount_has_device m d))
        (volumes.eraseP (fun v => volume_has_device v d))

/-- The diff `update_drives` computes from the monitor's last snapshot. -/
def update_drives_diff (src : Snapshot) (monitor : GHalVolumeMonitor) : DiffResult HalDevice :=
  diff_sorted_lists hal_device_compare monitor.last_drive_devices
    (g_list_sort (src.hal_pool_find_by_capability "storage") hal_device_compare)

/-- The diff `update_volumes` computes from the monitor's last snapshot. -/
def update_volumes_diff (c : Collaborators) (src : Snapshot) (monitor : GHalVolumeMonitor) :
    DiffResult HalDevice :=
  diff_sorted_lists hal_device_compare monitor.last_volume_devices
    (update_volumes_new_volume_devices c src)

/-- The diff `update_mounts` computes from the monitor's last snapshot. -/
def update_mounts_diff (c : Collaborators) (src : Snapshot) (monitor : GHalVolumeMonitor) :
    DiffResult GUnixMountEntry :=
  diff_sorted_lists c.g_unix_mount_compare monitor.last_mounts
    (g_list_sort src.g_unix_mounts_get c.g_unix_mount_compare)

/-- The diff `update_discs` computes from the monitor's last snapshot. -/
def update_discs_diff (src : Snapshot) (monitor : GHalVolumeMonitor) : DiffResult HalDevice :=
  diff_sorted_lists hal_device_compare monitor.last_optical_disc_devices
    (update_discs_new_optical_disc_devices src)

/-! ## Identities, reachable monitor states and the invariants of the registries -/

/-- The identity a signal is about: the UDI of its Drive or Volume, the UDI of its Mount
if the Mount is keyed by one. -/
def VolumeMonitorSignal.udi : VolumeMonitorSignal → Option String
  | .drive_connected drive => some drive.udi
  | .drive_disconnected drive => some drive.udi
  | .volume_added volume => some volume.udi
  | .volume_removed volume => some volume.udi
  | .mount_added mount => mount.udi
  | .mount_removed mount => mount.udi

/-- What the passes take for granted of the constructors and the comparator that live
outside these sources: a constructed entity has the identity of the snapshot it was made
from, a constructed Mount is associated with the Volume it was given or with none, and
mount entries that compare equal have the same mount path. -/
structure IdentityKept (c : Collaborators) : Prop where
  drive_udi : ∀ d drive, c.g_hal_drive_new d = some drive → drive.udi = d.udi
  volume_udi : ∀ d drive volume, c.g_hal_volume_new d drive = some volume →
    volume.udi = d.udi
  mount_path : ∀ e volume mount, c.g_hal_mount_new e volume = some mount →
    mount.mount_path = some e.mount_path
  mount_volume : ∀ e volume mount u, c.g_hal_mount_new e volume = some mount →
    mount.volume = some u → ∃ v, volume = some v ∧ v.udi = u
  disc_mount_udi : ∀ d uri name icon_name b volume mount,
    c.g_hal_mount_new_for_hal_device d uri name icon_name b volume = some mount →
    mount.udi = some d.udi
  disc_mount_volume : ∀ d uri name icon_name b volume mount u,
    c.g_hal_mount_new_for_hal_device d uri name icon_name b volume = some mount →
    mount.volume = some u → volume.udi = u
  compare_path : ∀ a b, c.g_unix_mount_compare a b = 0 → a.mount_path = b.mount_path

/-- The monitor states reachable from the initial monitor by update passes, run in any
order against any snapshots, the emitted signals so far being whatever they are. A full
update is four such passes. -/
inductive Reachable : GHalVolumeMonitor → Prop where
  | init : Reachable g_hal_volume_monitor_init
  | drives (c : Collaborators) (src : Snapshot) (m : GHalVolumeMonitor)
      (s : List VolumeMonitorSignal) :
      IdentityKept c → Reachable m → Reachable (update_drives c src (m, s)).1
  | volumes (c : Collaborators) (src : Snapshot) (m : GHalVolumeMonitor)
      (s : List VolumeMonitorSignal) :
      IdentityKept c → Reachable m → Reachable (update_volumes c src (m, s)).1
  | mounts (c : Collaborators) (src : Snapshot) (m : GHalVolumeMonitor)
      (s : List VolumeMonitorSignal) :
      IdentityKept c → Reachable m → Reachable (update_mounts c src (m, s)).1
  | discs (c : Collaborators) (src : Snapshot) (m : GHalVolumeMonitor)
      (s : List VolumeMonitorSignal) :
      IdentityKept c → Reachable m → Reachable (update_discs c src (m, s)).1

/-- Every registry holds, for each identity, at most as many entities as the last
snapshot of its pass holds snapshots of that identity. -/
structure CountedRegistries (m : GHalVolumeMonitor) : Prop where
  drives : ∀ k, (m.drives.map GHalDrive.udi).count k ≤
    (m.last_drive_devices.map HalDevice.udi).count k
  volumes : ∀ k, (m.volumes.map GHalVolume.udi).count k ≤
    (m.last_volume_devices.map HalDevice.udi).count k
  mounts : ∀ k, (m.mounts.map GHalMount.mount_path).count k ≤
    (m.last_mounts.map (fun e => some e.mount_path)).count k
  disc_volumes : ∀ k, (m.disc_volumes.map GHalVolume.udi).count k ≤
    (m.last_optical_disc_devices.map HalDevice.udi).count k
  disc_mounts : ∀ k, (m.disc_mounts.map GHalMount.udi).count k ≤
    (m.last_optical_disc_devices.map (fun d => some d.udi)).count k

/-- The ownership invariant: the Volume a live Mount is associated with is live, in
`volumes` or in `disc_volumes`. -/
def OwnershipInvariant (m : GHalVolumeMonitor) : Prop :=
  ∀ mount ∈ m.mounts ++ m.disc_mounts, ∀ u, mount.volume = some u →
    ∃ v ∈ m.volumes ++ m.disc_volumes, v.udi = u

/-- A sequence of full updates, each with its collaborators and the snapshot the sources
return during it. -/
def force_updates (updates : List (Collaborators × Snapshot)) (monitor : GHalVolumeMonitor) :
    GHalVolumeMonitor :=
  updates.foldl (fun m x => (g_hal_volume_monitor_force_update x.1 x.2 m).1) monitor

/-- The constructors give a Drive, a Volume and a disc Mount the UDI of the device it was
built from. -/
structure UdiKept (c : Collaborators) : Prop where
  drive_udi : ∀ d drive, c.g_hal_drive_new d = some drive → drive.udi = d.udi
  volume_udi : ∀ d drive volume, c.g_hal_volume_new d drive = some volume →
    volume.udi = d.udi
  disc_mount_udi : ∀ d uri name icon_name b volume mount,
    c.g_hal_mount_new_for_hal_device d uri name icon_name b volume = some mount →
    mount.udi = some d.udi

/-- The monitor states reachable from the initial monitor by update passes whose
collaborators satisfy `P`. -/
inductive ReachableBy (P : Collaborators → Prop) : GHalVolumeMonitor → Prop where
  | init : ReachableBy P g_hal_volume_monitor_init
  | drives (c : Collaborators) (src : Snapshot) (m : GHalVolumeMonitor)
      (s : List VolumeMonitorSignal) :
      P c → ReachableBy P m → ReachableBy P (update_drives c src (m, s)).1
  | volumes (c : Collaborators) (src : Snapshot) (m : GHalVolumeMonitor)
      (s : List VolumeMonitorSignal) :
      P c → ReachableBy P m → ReachableBy P (update_volumes c src (m, s)).1
  | mounts (c : Collaborators) (src : Snapshot) (m : GHalVolumeMonitor)
      (s : List VolumeMonitorSignal) :
      P c → ReachableBy P m → ReachableBy P (update_mounts c src (m, s)).1
  | discs (c : Collaborators) (src : Snapshot) (m : GHalVolumeMonitor)
      (s : List VolumeMonitorSignal) :
      P c → ReachableBy P m → ReachableBy P (update_discs c src (m, s)).1

/-- Every registry keyed by UDI holds, for each UDI, at most as many entities as the last
snapshot of its pass holds devices of that UDI. -/
structure CountedUdis (m : GHalVolumeMonitor) : Prop where
  drives : ∀ k, (m.drives.map GHalDrive.udi).count k ≤
    (m.last_drive_devices.map HalDevice.udi).count k
  volumes : ∀ k, (m.volumes.map GHalVolume.udi).count k ≤
    (m.last_volume_devices.map HalDevice.udi).count k
  disc_volumes : ∀ k, (m.disc_volumes.map GHalVolume.udi).count k ≤
    (m.last_optical_disc_devices.map HalDevice.udi).count k
  disc_mounts : ∀ k, (m.disc_mounts.map GHalMount.udi).count k ≤
    (m.last_optical_disc_devices.map (fun d => some d.udi)).count k

/-! ## The proxy volume (gproxyvolume.c) -/

/-- A `GIcon`, known here by the string it was made from. -/
structure GIcon where
  data : String
deriving DecidableEq, Repr

/-- The fields of `struct _GProxyVolume` that `g_proxy_volume_update` writes; a `char *`
or pointer field is `none` when NULL. -/
structure GProxyVolume where
  id : Option String
  name : Option String
  uuid : Option String
  activation_uri : Option String
  icon : Option GIcon
  drive_id : Option String
  mount_id : Option String
  identifiers : Option (List (String × String))
  can_mount : Bool
  should_automount : Bool
deriving DecidableEq, Repr

/-- The D-Bus struct `g_proxy_volume_update` reads (319-330), field by field as the
iterator yields them; `identifiers` is what `_get_identifiers` returns for the dict. -/
structure DBusVolumeStruct where
  id : String
  name : String
  gicon_data : String
  uuid : String
  activation_uri : String
  can_mount : Bool
  should_automount : Bool
  drive_id : String
  mount_id : String
  identifiers : Option (List (String × String))
deriving DecidableEq, Repr

/-- The idle sources `g_proxy_volume_update` adds to the main loop. -/
inductive IdleSource where
  | update_shadow_mount_in_idle_do
deriving DecidableEq, Repr

/-- `g_proxy_volume_update` (332-422): the volume after the call and the idle sources the
call has added. `g_icon_new_for_string` (GIO) may return NULL. -/
def g_proxy_volume_update (g_icon_new_for_string : String → Option GIcon)
    (volume : GProxyVolume) (iter : DBusVolumeStruct) : GProxyVolume × List IdleSource :=
  let mismatch :=
    match volume.id with
    | some volume_id => strcmp volume_id iter.id != 0
    | none => false
  if mismatch then (volume, [])
  else
    let name := if iter.name.length = 0 then none else some iter.name
    let uuid := if iter.uuid.length = 0 then none else some iter.uuid
    let activation_uri :=
      if iter.activation_uri.length = 0 then none else some iter.activation_uri
    ({ id := some iter.id
       name := name
       uuid := uuid
       activation_uri := activation_uri
       icon := if iter.gicon_data.length = 0 then none
         else g_icon_new_for_string iter.gicon_data
       drive_id := some iter.drive_id
       mount_id := some iter.mount_id
       can_mount := iter.can_mount
       should_automount := iter.should_automount
       identifiers := iter.identifiers },
      [IdleSource.update_shadow_mount_in_idle_do])

/-- A proxy volume as a first update has left it. -/
def sample_proxy_volume : GProxyVolume where
  id := some "volume-1"
  name := some "Disk"
  uuid := none
  activation_uri := none
  icon := some ⟨". GThemedIcon drive-harddisk"⟩
  drive_id := some "drive-1"
  mount_id := some ""
  identifiers := some [("unix-device", "/dev/sdb1")]
  can_mount := true
  should_automount := false

/-- An update for another volume. -/
def sample_volume_struct : DBusVolumeStruct where
  id := "volume-2"
  name := ""
  gicon_data := ""
  uuid := "1234-ABCD"
  activation_uri := ""
  can_mount := false
  should_automount := true
  drive_id := ""
  mount_id := "mount-7"
  identifiers := some []


/-! ## Theorems: `diff_sorted_lists` -/

section DiffLemmas

variable {α : Type}

theorem g_list_prepend_all_eq (out list : List α) :
    g_list_prepend_all out list = list.reverse ++ out := by
  induction list generalizing out with
  | nil => rfl
  | cons x l ih => simp [g_list_prepend_all, ih]

theorem diff_sorted_lists_loop_cons_cons (compare : α → α → Int) (a : α) (l1 : List α)
    (b : α) (l2 added removed : List α) :
    diff_sorted_lists_loop compare (a :: l1) (b :: l2) added removed =
      if compare a b < 0 then diff_sorted_lists_loop compare l1 (b :: l2) added (a :: removed)
      else if compare a b > 0 then
        diff_sorted_lists_loop compare (a :: l1) l2 (b :: added) removed
      else diff_sorted_lists_loop compare l1 l2 added removed := by
  simp only [diff_sorted_lists_loop, diff_sorted_lists_scan]

theorem diff_sorted_lists_loop_nil_right (compare : α → α → Int) (l1 added removed : List α) :
    diff_sorted_lists_loop compare l1 [] added removed =
      ⟨added, l1.reverse ++ removed⟩ := by
  cases l1 with
  | nil => rfl
  | cons a l1 =>
    simp [diff_sorted_lists_loop, diff_sorted_lists_scan, g_list_prepend_all_eq]

theorem diff_sorted_lists_loop_nil_left (compare : α → α → Int) (l2 added removed : List α) :
    diff_sorted_lists_loop compare [] l2 added removed =
      ⟨l2.reverse ++ added, removed⟩ := by
  simp [diff_sorted_lists_loop, g_list_prepend_all_eq]

/-- Induction along the scan of `diff_sorted_lists`. -/
theorem diff_scan_induction (compare : α → α → Int) (P : List α → List α → Prop)
    (hnil : ∀ l2, P [] l2) (hnil2 : ∀ l1, P l1 [])
    (hlt : ∀ a l1 b l2, compare a b < 0 → P l1 (b :: l2) → P (a :: l1) (b :: l2))
    (hgt : ∀ a l1 b l2, ¬ compare a b < 0 → compare a b > 0 → P (a :: l1) l2 →
      P (a :: l1) (b :: l2))
    (heq : ∀ a l1 b l2, compare a b = 0 → P l1 l2 → P (a :: l1) (b :: l2)) :
    ∀ l1 l2, P l1 l2 := by
  intro l1
  induction l1 with
  | nil => exact hnil
  | cons a l1 ih1 =>
    intro l2
    induction l2 with
    | nil => exact hnil2 _
    | cons b l2 ih2 =>
      by_cases h1 : compare a b < 0
      · exact hlt a l1 b l2 h1 (ih1 _)
      · by_cases h2 : compare a b > 0
        · exact hgt a l1 b l2 h1 h2 ih2
        · exact heq a l1 b l2 (by omega) (ih1 _)

namespace IsTotalOrderCompare

variable {compare : α → α → Int} (h : IsTotalOrderCompare compare)
include h

theorem eq_symm {a b : α} (hab : compare a b = 0) : compare b a = 0 := by
  have h1 := h.swap a b
  have h2 := h.swap b a
  omega

theorem lt_of_le_of_lt {a b c : α} (hab : compare a b ≤ 0) (hbc : compare b c < 0) :
    compare a c < 0 := by
  have h1 := h.le_trans a b c hab (by omega)
  by_contra hne
  have h2 : compare a c = 0 := by omega
  have h3 := h.eq_symm h2
  have h4 := h.le_trans c a b (by omega) hab
  have h5 := (h.swap b c).1 hbc
  omega

theorem lt_of_lt_of_le {a b c : α} (hab : compare a b < 0) (hbc : compare b c ≤ 0) :
    compare a c < 0 := by
  have h1 := h.le_trans a b c (by omega) hbc
  by_contra hne
  have h2 : compare a c = 0 := by omega
  have h3 := h.eq_symm h2
  have h4 := h.le_trans b c a hbc (by omega)
  have h5 := (h.swap a b).1 hab
  omega

theorem lt_trans {a b c : α} (hab : compare a b < 0) (hbc : compare b c < 0) :
    compare a c < 0 :=
  h.lt_of_lt_of_le hab (by omega)

theorem refl (a : α) : compare a a = 0 := by
  have h1 := h.swap a a
  omega

end IsTotalOrderCompare

end DiffLemmas


section DiffLemmas2

variable {α : Type}

theorem common_pairs_nil_right (compare : α → α → Int) (l1 : List α) :
    common_pairs compare l1 [] = 0 := by
  induction l1 with
  | nil => rfl
  | cons a l ih => simp [common_pairs]

theorem common_pairs_cons_left (compare : α → α → Int) (a : α) (l1 l2 : List α) :
    common_pairs compare (a :: l1) l2 =
      l2.countP (fun b => compare a b == 0) + common_pairs compare l1 l2 := by
  simp [common_pairs]

theorem common_pairs_cons_right (compare : α → α → Int) (b : α) (l1 l2 : List α) :
    common_pairs compare l1 (b :: l2) =
      common_pairs compare l1 l2 + l1.countP (fun a => compare a b == 0) := by
  induction l1 with
  | nil => rfl
  | cons a l ih =>
    rw [common_pairs_cons_left, common_pairs_cons_left, ih, List.countP_cons, List.countP_cons]
    omega

/-- Below the head of a strictly sorted list, nothing in the list is equal. -/
theorem no_equal_of_lt {compare : α → α → Int} (h : IsTotalOrderCompare compare)
    {a b : α} {l2 : List α} (hab : compare a b < 0) (hs : StrictlySorted compare (b :: l2)) :
    ∀ x ∈ b :: l2, compare a x < 0 := by
  intro x hx
  rcases List.mem_cons.1 hx with rfl | hx
  · exact hab
  · exact h.lt_trans hab (List.rel_of_pairwise_cons hs hx)

theorem no_equal_of_gt {compare : α → α → Int} (h : IsTotalOrderCompare compare)
    {a b : α} {l1 : List α} (hab : compare a b > 0) (hs : StrictlySorted compare (a :: l1)) :
    ∀ y ∈ a :: l1, compare y b > 0 := by
  have hba : compare b a < 0 := (h.swap b a).2 hab
  intro y hy
  have : compare b y < 0 := no_equal_of_lt h hba hs y hy
  exact (h.swap b y).1 this

theorem no_equal_of_eq_right {compare : α → α → Int} (h : IsTotalOrderCompare compare)
    {a b : α} {l2 : List α} (hab : compare a b = 0) (hs : StrictlySorted compare (b :: l2)) :
    ∀ x ∈ l2, compare a x < 0 := by
  intro x hx
  exact h.lt_of_le_of_lt (by omega) (List.rel_of_pairwise_cons hs hx)

theorem no_equal_of_eq_left {compare : α → α → Int} (h : IsTotalOrderCompare compare)
    {a b : α} {l1 : List α} (hab : compare a b = 0) (hs : StrictlySorted compare (a :: l1)) :
    ∀ y ∈ l1, compare y b > 0 := by
  intro y hy
  have h1 : compare b y < 0 :=
    h.lt_of_le_of_lt (by have := h.eq_symm hab; omega) (List.rel_of_pairwise_cons hs hy)
  exact (h.swap b y).1 h1

theorem filter_all_cons_of_ne {β γ : Type} (r : β → γ → Int) (a : β) (l1 : List β)
    (l2 : List γ) (hne : ∀ x ∈ l2, r a x ≠ 0) :
    l2.filter (fun x => (a :: l1).all (fun y => r y x != 0)) =
      l2.filter (fun x => l1.all (fun y => r y x != 0)) := by
  apply List.filter_congr
  intro x hx
  simp [hne x hx]

theorem filter_cons_keep {β : Type} (p : β → Bool) (x : β) (l : List β) (hp : p x = true) :
    (x :: l).filter p = x :: l.filter p := by
  simp [List.filter_cons, hp]

theorem filter_cons_drop {β : Type} (p : β → Bool) (x : β) (l : List β) (hp : ¬ p x = true) :
    (x :: l).filter p = l.filter p := by
  simp [List.filter_cons, hp]

theorem countP_eq_zero_of_ne {β : Type} (f : β → Int) (l : List β)
    (hne : ∀ x ∈ l, f x ≠ 0) : l.countP (fun x => f x == 0) = 0 := by
  rw [List.countP_eq_zero]
  intro x hx
  simpa using hne x hx

/-- The added elements are the new elements without an equal old one, the removed
elements the old ones without an equal new one, each in reverse scan order. -/
theorem diff_sorted_lists_loop_sorted {compare : α → α → Int} (h : IsTotalOrderCompare compare) :
    ∀ l1 l2, StrictlySorted compare l1 → StrictlySorted compare l2 → ∀ added removed,
      diff_sorted_lists_loop compare l1 l2 added removed =
        ⟨(l2.filter (fun b => l1.all (fun a => compare a b != 0))).reverse ++ added,
         (l1.filter (fun a => l2.all (fun b => compare a b != 0))).reverse ++ removed⟩ := by
  apply diff_scan_induction compare
  · intro l2 _ _ added removed
    simp [diff_sorted_lists_loop_nil_left]
  · intro l1 _ _ added removed
    simp [diff_sorted_lists_loop_nil_right]
  · intro a l1 b l2 hab ih hs1 hs2 added removed
    have hlt := no_equal_of_lt h hab hs2
    have hne : ∀ x ∈ b :: l2, compare a x ≠ 0 := fun x hx => by have := hlt x hx; omega
    rw [diff_sorted_lists_loop_cons_cons, if_pos hab, ih hs1.of_cons hs2]
    rw [filter_all_cons_of_ne compare a l1 (b :: l2) hne]
    have hkeep : (b :: l2).all (fun x => compare a x != 0) = true := by
      rw [List.all_eq_true]
      intro x hx
      simpa using hne x hx
    rw [filter_cons_keep (fun y => (b :: l2).all (fun x => compare y x != 0)) a l1 hkeep]
    simp
  · intro a l1 b l2 hnlt hab ih hs1 hs2 added removed
    have hgt := no_equal_of_gt h hab hs1
    have hne : ∀ y ∈ a :: l1, compare y b ≠ 0 := fun y hy => by have := hgt y hy; omega
    rw [diff_sorted_lists_loop_cons_cons, if_neg hnlt, if_pos hab, ih hs1 hs2.of_cons]
    have hkeep : (a :: l1).all (fun y => compare y b != 0) = true := by
      rw [List.all_eq_true]
      intro y hy
      simpa using hne y hy
    rw [filter_cons_keep (fun x => (a :: l1).all (fun y => compare y x != 0)) b l2 hkeep]
    rw [filter_all_cons_of_ne (fun x y => compare y x) b l2 (a :: l1)
      hne]
    simp
  · intro a l1 b l2 hab ih hs1 hs2 added removed
    have hr := no_equal_of_eq_right h hab hs2
    have hl := no_equal_of_eq_left h hab hs1
    have hner : ∀ x ∈ l2, compare a x ≠ 0 := fun x hx => by have := hr x hx; omega
    have hnel : ∀ y ∈ l1, compare y b ≠ 0 := fun y hy => by have := hl y hy; omega
    rw [diff_sorted_lists_loop_cons_cons, if_neg (by omega), if_neg (by omega),
      ih hs1.of_cons hs2.of_cons]
    have hdropb : ¬ ((a :: l1).all (fun y => compare y b != 0) = true) := by
      simp [hab]
    have hdropa : ¬ ((b :: l2).all (fun x => compare a x != 0) = true) := by
      simp [hab]
    rw [filter_cons_drop (fun x => (a :: l1).all (fun y => compare y x != 0)) b l2 hdropb,
      filter_cons_drop (fun y => (b :: l2).all (fun x => compare y x != 0)) a l1 hdropa]
    rw [filter_all_cons_of_ne compare a l1 l2 hner]
    rw [filter_all_cons_of_ne (fun x y => compare y x) b l2 l1
      hnel]

/-- Counting on strictly sorted lists: the elements without an equal partner and the
equal pairs add up to the length, on either side. -/
theorem common_pairs_sorted {compare : α → α → Int} (h : IsTotalOrderCompare compare) :
    ∀ l1 l2, StrictlySorted compare l1 → StrictlySorted compare l2 →
      (l2.filter (fun b => l1.all (fun a => compare a b != 0))).length +
          common_pairs compare l1 l2 = l2.length ∧
      (l1.filter (fun a => l2.all (fun b => compare a b != 0))).length +
          common_pairs compare l1 l2 = l1.length := by
  apply diff_scan_induction compare
  · intro l2 _ _
    simp [common_pairs]
  · intro l1 _ _
    simp [common_pairs_nil_right]
  · intro a l1 b l2 hab ih hs1 hs2
    have hlt := no_equal_of_lt h hab hs2
    have hne : ∀ x ∈ b :: l2, compare a x ≠ 0 := fun x hx => by have := hlt x hx; omega
    obtain ⟨ih1, ih2⟩ := ih hs1.of_cons hs2
    rw [filter_all_cons_of_ne compare a l1 (b :: l2) hne]
    have hkeep : (b :: l2).all (fun x => compare a x != 0) = true := by
      rw [List.all_eq_true]
      intro x hx
      simpa using hne x hx
    rw [filter_cons_keep (fun y => (b :: l2).all (fun x => compare y x != 0)) a l1 hkeep,
      common_pairs_cons_left,
      countP_eq_zero_of_ne (fun x => compare a x) (b :: l2)
        hne]
    simp only [List.length_cons] at ih1 ih2 ⊢
    omega
  · intro a l1 b l2 hnlt hab ih hs1 hs2
    have hgt := no_equal_of_gt h hab hs1
    have hne : ∀ y ∈ a :: l1, compare y b ≠ 0 := fun y hy => by have := hgt y hy; omega
    obtain ⟨ih1, ih2⟩ := ih hs1 hs2.of_cons
    have hkeep : (a :: l1).all (fun y => compare y b != 0) = true := by
      rw [List.all_eq_true]
      intro y hy
      simpa using hne y hy
    rw [filter_cons_keep (fun x => (a :: l1).all (fun y => compare y x != 0)) b l2 hkeep]
    rw [filter_all_cons_of_ne (fun x y => compare y x) b l2 (a :: l1)
      hne]
    rw [common_pairs_cons_right,
      countP_eq_zero_of_ne (fun y => compare y b) (a :: l1)
        hne]
    simp only [List.length_cons] at ih1 ih2 ⊢
    omega
  · intro a l1 b l2 hab ih hs1 hs2
    have hr := no_equal_of_eq_right h hab hs2
    have hl := no_equal_of_eq_left h hab hs1
    have hner : ∀ x ∈ l2, compare a x ≠ 0 := fun x hx => by have := hr x hx; omega
    have hnel : ∀ y ∈ l1, compare y b ≠ 0 := fun y hy => by have := hl y hy; omega
    obtain ⟨ih1, ih2⟩ := ih hs1.of_cons hs2.of_cons
    have hdropb : ¬ ((a :: l1).all (fun y => compare y b != 0) = true) := by
      simp [hab]
    have hdropa : ¬ ((b :: l2).all (fun x => compare a x != 0) = true) := by
      simp [hab]
    rw [filter_cons_drop (fun x => (a :: l1).all (fun y => compare y x != 0)) b l2 hdropb,
      filter_cons_drop (fun y => (b :: l2).all (fun x => compare y x != 0)) a l1 hdropa]
    rw [filter_all_cons_of_ne compare a l1 l2 hner]
    rw [filter_all_cons_of_ne (fun x y => compare y x) b l2 l1
      hnel]
    rw [common_pairs_cons_left, common_pairs_cons_right, List.countP_cons,
      countP_eq_zero_of_ne (fun x => compare a x) l2 hner,
      countP_eq_zero_of_ne (fun y => compare y b) l1 hnel]
    simp only [List.length_cons, hab, beq_self_eq_true, if_true] at ih1 ih2 ⊢
    omega

end DiffLemmas2


theorem strcmp_chars_swap : ∀ a b : List Char, strcmp_chars a b < 0 ↔ 0 < strcmp_chars b a
  | [], [] => by simp [strcmp_chars]
  | [], _ :: _ => by simp [strcmp_chars]
  | _ :: _, [] => by simp [strcmp_chars]
  | x :: a, y :: b => by
    rcases lt_trichotomy x y with hxy | rfl | hxy
    · simp [strcmp_chars, hxy, lt_asymm hxy]
    · simpa [strcmp_chars] using strcmp_chars_swap a b
    · simp [strcmp_chars, hxy, lt_asymm hxy]

theorem strcmp_chars_le_trans : ∀ a b c : List Char,
    strcmp_chars a b ≤ 0 → strcmp_chars b c ≤ 0 → strcmp_chars a c ≤ 0
  | [], _, [] => by simp [strcmp_chars]
  | [], _, _ :: _ => by simp [strcmp_chars]
  | _ :: _, [], _ => by simp [strcmp_chars]
  | _ :: _, _ :: _, [] => by simp [strcmp_chars]
  | x :: a, y :: b, z :: c => by
    rcases lt_trichotomy x y with hxy | rfl | hxy
    · rcases lt_trichotomy y z with hyz | rfl | hyz
      · simp [strcmp_chars, hxy, hyz, lt_trans hxy hyz]
      · simp [strcmp_chars, hxy]
      · simp [strcmp_chars, hxy, hyz, lt_asymm hyz]
    · rcases lt_trichotomy x z with hyz | rfl | hyz
      · simp [strcmp_chars, hyz]
      · simpa [strcmp_chars] using strcmp_chars_le_trans a b c
      · simp [strcmp_chars, hyz, lt_asymm hyz]
    · simp [strcmp_chars, hxy, lt_asymm hxy]

theorem strcmp_chars_eq_zero : ∀ a b : List Char, strcmp_chars a b = 0 ↔ a = b
  | [], [] => by simp [strcmp_chars]
  | [], _ :: _ => by simp [strcmp_chars]
  | _ :: _, [] => by simp [strcmp_chars]
  | x :: a, y :: b => by
    rcases lt_trichotomy x y with hxy | rfl | hxy
    · simp [strcmp_chars, hxy, ne_of_lt hxy]
    · simpa [strcmp_chars] using strcmp_chars_eq_zero a b
    · simp [strcmp_chars, hxy, lt_asymm hxy, ne_of_gt hxy]

theorem strcmp_eq_zero (a b : String) : strcmp a b = 0 ↔ a = b := by
  unfold strcmp
  rw [strcmp_chars_eq_zero]
  exact ⟨fun h => String.ext h, fun h => by rw [h]⟩

theorem hal_device_compare_total_order : IsTotalOrderCompare hal_device_compare :=
  ⟨fun _ _ => strcmp_chars_swap _ _, fun _ _ _ => strcmp_chars_le_trans _ _ _⟩

theorem hal_device_compare_eq_zero (a b : HalDevice) :
    hal_device_compare a b = 0 ↔ a.udi = b.udi :=
  strcmp_eq_zero _ _

/-- C1: for old and new lists strictly sorted under a total-order comparator, `added` holds
exactly the new elements without a compare-equal old element, `removed` exactly the old
elements without a compare-equal new element, and with `common` the number of
compare-equal pairs, `len(added) + common = len(new)` and `len(removed) + common = len(old)`. -/
theorem diff_sorted_lists_partitions {α : Type} (compare : α → α → Int)
    (h : IsTotalOrderCompare compare) (old new : List α)
    (hold : StrictlySorted compare old) (hnew : StrictlySorted compare new) :
    (∀ x, x ∈ (diff_sorted_lists compare old new).added ↔
        x ∈ new ∧ ∀ a ∈ old, compare a x ≠ 0) ∧
    (∀ x, x ∈ (diff_sorted_lists compare old new).removed ↔
        x ∈ old ∧ ∀ b ∈ new, compare x b ≠ 0) ∧
    (diff_sorted_lists compare old new).added.length + common_pairs compare old new =
        new.length ∧
    (diff_sorted_lists compare old new).removed.length + common_pairs compare old new =
        old.length := by
  have hloop := diff_sorted_lists_loop_sorted h old new hold hnew [] []
  have hcount := common_pairs_sorted h old new hold hnew
  unfold diff_sorted_lists
  rw [hloop]
  refine ⟨?_, ?_, ?_, ?_⟩
  · intro x
    simp [List.mem_filter]
  · intro x
    simp [List.mem_filter]
  · simpa using hcount.1
  · simpa using hcount.2

/-- C1 at the snapshots `[a, b, c]` (old) and `[b, d]` (new) of HAL devices. -/
theorem diff_sorted_lists_partitions_witness :
    StrictlySorted hal_device_compare
        [⟨"/hal/a", [], []⟩, ⟨"/hal/b", [], []⟩, ⟨"/hal/c", [], []⟩] ∧
    StrictlySorted hal_device_compare [⟨"/hal/b", [], []⟩, ⟨"/hal/d", [], []⟩] ∧
    (diff_sorted_lists hal_device_compare
        [⟨"/hal/a", [], []⟩, ⟨"/hal/b", [], []⟩, ⟨"/hal/c", [], []⟩]
        [⟨"/hal/b", [], []⟩, ⟨"/hal/d", [], []⟩]).added.length +
      common_pairs hal_device_compare
        [⟨"/hal/a", [], []⟩, ⟨"/hal/b", [], []⟩, ⟨"/hal/c", [], []⟩]
        [⟨"/hal/b", [], []⟩, ⟨"/hal/d", [], []⟩] = 2 :=
  ⟨by decide, by decide,
    (diff_sorted_lists_partitions hal_device_compare hal_device_compare_total_order
      [⟨"/hal/a", [], []⟩, ⟨"/hal/b", [], []⟩, ⟨"/hal/c", [], []⟩]
      [⟨"/hal/b", [], []⟩, ⟨"/hal/d", [], []⟩] (by decide) (by decide)).2.2.1⟩


/-! ## Theorems: the update passes -/

theorem diff_sorted_lists_loop_self {α : Type} (compare : α → α → Int)
    (hrefl : ∀ x, compare x x = 0) (l added removed : List α) :
    diff_sorted_lists_loop compare l l added removed = ⟨added, removed⟩ := by
  induction l with
  | nil => rfl
  | cons a l ih =>
    rw [diff_sorted_lists_loop_cons_cons, hrefl a]
    simpa using ih

theorem diff_sorted_lists_self {α : Type} (compare : α → α → Int)
    (hrefl : ∀ x, compare x x = 0) (l : List α) :
    diff_sorted_lists compare l l = ⟨[], []⟩ :=
  diff_sorted_lists_loop_self compare hrefl l [] []

theorem hal_device_compare_self (d : HalDevice) : hal_device_compare d d = 0 :=
  hal_device_compare_total_order.refl d

/-- The loops of the update passes leave the four last-snapshot lists alone. -/
theorem update_drives_removed_last (l : List HalDevice) (st : Emitting) :
    (update_drives_removed l st).1.last_optical_disc_devices = st.1.last_optical_disc_devices ∧
    (update_drives_removed l st).1.last_drive_devices = st.1.last_drive_devices ∧
    (update_drives_removed l st).1.last_volume_devices = st.1.last_volume_devices ∧
    (update_drives_removed l st).1.last_mounts = st.1.last_mounts := by
  induction l generalizing st with
  | nil => exact ⟨rfl, rfl, rfl, rfl⟩
  | cons d l ih =>
    obtain ⟨monitor, signals⟩ := st
    unfold update_drives_removed
    split
    · exact ih _
    · exact ih _

theorem update_drives_added_last (c : Collaborators) (l : List HalDevice) (st : Emitting) :
    (update_drives_added c l st).1.last_optical_disc_devices = st.1.last_optical_disc_devices ∧
    (update_drives_added c l st).1.last_drive_devices = st.1.last_drive_devices ∧
    (update_drives_added c l st).1.last_volume_devices = st.1.last_volume_devices ∧
    (update_drives_added c l st).1.last_mounts = st.1.last_mounts := by
  induction l generalizing st with
  | nil => exact ⟨rfl, rfl, rfl, rfl⟩
  | cons d l ih =>
    obtain ⟨monitor, signals⟩ := st
    unfold update_drives_added
    split
    · split
      · exact ih _
      · exact ih _
    · exact ih _

theorem update_volumes_removed_last (l : List HalDevice) (st : Emitting) :
    (update_volumes_removed l st).1.last_optical_disc_devices = st.1.last_optical_disc_devices ∧
    (update_volumes_removed l st).1.last_drive_devices = st.1.last_drive_devices ∧
    (update_volumes_removed l st).1.last_volume_devices = st.1.last_volume_devices ∧
    (update_volumes_removed l st).1.last_mounts = st.1.last_mounts := by
  induction l generalizing st with
  | nil => exact ⟨rfl, rfl, rfl, rfl⟩
  | cons d l ih =>
    obtain ⟨monitor, signals⟩ := st
    unfold update_volumes_removed
    split
    · exact ih _
    · exact ih _

theorem update_volumes_added_last (c : Collaborators) (l : List HalDevice) (st : Emitting) :
    (update_volumes_added c l st).1.last_optical_disc_devices = st.1.last_optical_disc_devices ∧
    (update_volumes_added c l st).1.last_drive_devices = st.1.last_drive_devices ∧
    (update_volumes_added c l st).1.last_volume_devices = st.1.last_volume_devices ∧
    (update_volumes_added c l st).1.last_mounts = st.1.last_mounts := by
  induction l generalizing st with
  | nil => exact ⟨rfl, rfl, rfl, rfl⟩
  | cons d l ih =>
    obtain ⟨monitor, signals⟩ := st
    unfold update_volumes_added
    split
    · simp only
      split
      · exact ih _
      · exact ih _
    · exact ih _

theorem update_mounts_removed_last (l : List GUnixMountEntry) (st : Emitting) :
    (update_mounts_removed l st).1.last_optical_disc_devices = st.1.last_optical_disc_devices ∧
    (update_mounts_removed l st).1.last_drive_devices = st.1.last_drive_devices ∧
    (update_mounts_removed l st).1.last_volume_devices = st.1.last_volume_devices ∧
    (update_mounts_removed l st).1.last_mounts = st.1.last_mounts := by
  induction l generalizing st with
  | nil => exact ⟨rfl, rfl, rfl, rfl⟩
  | cons d l ih =>
    obtain ⟨monitor, signals⟩ := st
    unfold update_mounts_removed
    split
    · exact ih _
    · exact ih _

theorem update_mounts_added_last (c : Collaborators) (l : List GUnixMountEntry)
    (st : Emitting) :
    (update_mounts_added c l st).1.last_optical_disc_devices = st.1.last_optical_disc_devices ∧
    (update_mounts_added c l st).1.last_drive_devices = st.1.last_drive_devices ∧
    (update_mounts_added c l st).1.last_volume_devices = st.1.last_volume_devices ∧
    (update_mounts_added c l st).1.last_mounts = st.1.last_mounts := by
  induction l generalizing st with
  | nil => exact ⟨rfl, rfl, rfl, rfl⟩
  | cons d l ih =>
    obtain ⟨monitor, signals⟩ := st
    unfold update_mounts_added
    simp only
    split
    · exact ih _
    · exact ih _

theorem update_discs_removed_mount_last (udi : String) (st : Emitting) :
    (update_discs_removed_mount udi st).1.last_optical_disc_devices =
        st.1.last_optical_disc_devices ∧
    (update_discs_removed_mount udi st).1.last_drive_devices = st.1.last_drive_devices ∧
    (update_discs_removed_mount udi st).1.last_volume_devices = st.1.last_volume_devices ∧
    (update_discs_removed_mount udi st).1.last_mounts = st.1.last_mounts := by
  obtain ⟨monitor, signals⟩ := st
  simp only [update_discs_removed_mount]
  cases find_disc_mount_by_udi monitor (some udi) <;> exact ⟨rfl, rfl, rfl, rfl⟩

theorem update_discs_removed_volume_last (udi : String) (st : Emitting) :
    (update_discs_removed_volume udi st).1.last_optical_disc_devices =
        st.1.last_optical_disc_devices ∧
    (update_discs_removed_volume udi st).1.last_drive_devices = st.1.last_drive_devices ∧
    (update_discs_removed_volume udi st).1.last_volume_devices = st.1.last_volume_devices ∧
    (update_discs_removed_volume udi st).1.last_mounts = st.1.last_mounts := by
  obtain ⟨monitor, signals⟩ := st
  simp only [update_discs_removed_volume]
  cases find_disc_volume_by_udi monitor (some udi) <;> exact ⟨rfl, rfl, rfl, rfl⟩

theorem update_discs_removed_last (l : List HalDevice) (st : Emitting) :
    (update_discs_removed l st).1.last_optical_disc_devices = st.1.last_optical_disc_devices ∧
    (update_discs_removed l st).1.last_drive_devices = st.1.last_drive_devices ∧
    (update_discs_removed l st).1.last_volume_devices = st.1.last_volume_devices ∧
    (update_discs_removed l st).1.last_mounts = st.1.last_mounts := by
  induction l generalizing st with
  | nil => exact ⟨rfl, rfl, rfl, rfl⟩
  | cons d l ih =>
    unfold update_discs_removed
    obtain ⟨h1, h2, h3, h4⟩ := ih (update_discs_removed_volume (hal_device_get_udi d)
      (update_discs_removed_mount (hal_device_get_udi d) st))
    obtain ⟨v1, v2, v3, v4⟩ := update_discs_removed_volume_last (hal_device_get_udi d)
      (update_discs_removed_mount (hal_device_get_udi d) st)
    obtain ⟨m1, m2, m3, m4⟩ := update_discs_removed_mount_last (hal_device_get_udi d) st
    exact ⟨h1.trans (v1.trans m1), h2.trans (v2.trans m2), h3.trans (v3.trans m3),
      h4.trans (v4.trans m4)⟩

theorem update_discs_added_last (c : Collaborators) (l : List HalDevice) (st : Emitting) :
    (update_discs_added c l st).1.last_optical_disc_devices = st.1.last_optical_disc_devices ∧
    (update_discs_added c l st).1.last_drive_devices = st.1.last_drive_devices ∧
    (update_discs_added c l st).1.last_volume_devices = st.1.last_volume_devices ∧
    (update_discs_added c l st).1.last_mounts = st.1.last_mounts := by
  induction l generalizing st with
  | nil => exact ⟨rfl, rfl, rfl, rfl⟩
  | cons d l ih =>
    obtain ⟨monitor, signals⟩ := st
    unfold update_discs_added
    simp only
    split
    · split
      · split
        · exact ih _
        · exact ih _
      · exact ih _
    · exact ih _


theorem update_drives_last (c : Collaborators) (src : Snapshot) (st : Emitting) :
    (update_drives c src st).1.last_optical_disc_devices = st.1.last_optical_disc_devices ∧
    (update_drives c src st).1.last_drive_devices =
        g_list_sort (src.hal_pool_find_by_capability "storage") hal_device_compare ∧
    (update_drives c src st).1.last_volume_devices = st.1.last_volume_devices ∧
    (update_drives c src st).1.last_mounts = st.1.last_mounts := by
  simp only [update_drives]
  have ha := update_drives_added_last c
    (diff_sorted_lists hal_device_compare st.1.last_drive_devices
      (g_list_sort (src.hal_pool_find_by_capability "storage") hal_device_compare)).added
    (update_drives_removed
      (diff_sorted_lists hal_device_compare st.1.last_drive_devices
        (g_list_sort (src.hal_pool_find_by_capability "storage") hal_device_compare)).removed st)
  have hr := update_drives_removed_last
    (diff_sorted_lists hal_device_compare st.1.last_drive_devices
      (g_list_sort (src.hal_pool_find_by_capability "storage") hal_device_compare)).removed st
  exact ⟨ha.1.trans hr.1, trivial, ha.2.2.1.trans hr.2.2.1, ha.2.2.2.trans hr.2.2.2⟩

theorem update_volumes_last (c : Collaborators) (src : Snapshot) (st : Emitting) :
    (update_volumes c src st).1.last_optical_disc_devices = st.1.last_optical_disc_devices ∧
    (update_volumes c src st).1.last_drive_devices = st.1.last_drive_devices ∧
    (update_volumes c src st).1.last_volume_devices = update_volumes_new_volume_devices c src ∧
    (update_volumes c src st).1.last_mounts = st.1.last_mounts := by
  simp only [update_volumes]
  have ha := update_volumes_added_last c
    (diff_sorted_lists hal_device_compare st.1.last_volume_devices
      (update_volumes_new_volume_devices c src)).added
    (update_volumes_removed
      (diff_sorted_lists hal_device_compare st.1.last_volume_devices
        (update_volumes_new_volume_devices c src)).removed st)
  have hr := update_volumes_removed_last
    (diff_sorted_lists hal_device_compare st.1.last_volume_devices
      (update_volumes_new_volume_devices c src)).removed st
  exact ⟨ha.1.trans hr.1, ha.2.1.trans hr.2.1, trivial, ha.2.2.2.trans hr.2.2.2⟩

theorem update_mounts_last (c : Collaborators) (src : Snapshot) (st : Emitting) :
    (update_mounts c src st).1.last_optical_disc_devices = st.1.last_optical_disc_devices ∧
    (update_mounts c src st).1.last_drive_devices = st.1.last_drive_devices ∧
    (update_mounts c src st).1.last_volume_devices = st.1.last_volume_devices ∧
    (update_mounts c src st).1.last_mounts =
        g_list_sort src.g_unix_mounts_get c.g_unix_mount_compare := by
  simp only [update_mounts]
  have ha := update_mounts_added_last c
    (diff_sorted_lists c.g_unix_mount_compare st.1.last_mounts
      (g_list_sort src.g_unix_mounts_get c.g_unix_mount_compare)).added
    (update_mounts_removed
      (diff_sorted_lists c.g_unix_mount_compare st.1.last_mounts
        (g_list_sort src.g_unix_mounts_get c.g_unix_mount_compare)).removed st)
  have hr := update_mounts_removed_last
    (diff_sorted_lists c.g_unix_mount_compare st.1.last_mounts
      (g_list_sort src.g_unix_mounts_get c.g_unix_mount_compare)).removed st
  exact ⟨ha.1.trans hr.1, ha.2.1.trans hr.2.1, ha.2.2.1.trans hr.2.2.1, trivial⟩

theorem update_discs_last (c : Collaborators) (src : Snapshot) (st : Emitting) :
    (update_discs c src st).1.last_optical_disc_devices =
        update_discs_new_optical_disc_devices src ∧
    (update_discs c src st).1.last_drive_devices = st.1.last_drive_devices ∧
    (update_discs c src st).1.last_volume_devices = st.1.last_volume_devices ∧
    (update_discs c src st).1.last_mounts = st.1.last_mounts := by
  simp only [update_discs]
  have ha := update_discs_added_last c
    (diff_sorted_lists hal_device_compare st.1.last_optical_disc_devices
      (update_discs_new_optical_disc_devices src)).added
    (update_discs_removed
      (diff_sorted_lists hal_device_compare st.1.last_optical_disc_devices
        (update_discs_new_optical_disc_devices src)).removed st)
  have hr := update_discs_removed_last
    (diff_sorted_lists hal_device_compare st.1.last_optical_disc_devices
      (update_discs_new_optical_disc_devices src)).removed st
  exact ⟨trivial, ha.2.1.trans hr.2.1, ha.2.2.1.trans hr.2.2.1, ha.2.2.2.trans hr.2.2.2⟩

/-- The last snapshots after a full update are the sorted, filtered fetches. -/
theorem force_update_last (c : Collaborators) (src : Snapshot) (monitor : GHalVolumeMonitor) :
    (g_hal_volume_monitor_force_update c src monitor).1.last_optical_disc_devices =
        update_discs_new_optical_disc_devices src ∧
    (g_hal_volume_monitor_force_update c src monitor).1.last_drive_devices =
        g_list_sort (src.hal_pool_find_by_capability "storage") hal_device_compare ∧
    (g_hal_volume_monitor_force_update c src monitor).1.last_volume_devices =
        update_volumes_new_volume_devices c src ∧
    (g_hal_volume_monitor_force_update c src monitor).1.last_mounts =
        g_list_sort src.g_unix_mounts_get c.g_unix_mount_compare := by
  unfold g_hal_volume_monitor_force_update
  have h1 := update_drives_last c src (monitor, [])
  have h2 := update_volumes_last c src (update_drives c src (monitor, []))
  have h3 := update_mounts_last c src (update_volumes c src (update_drives c src (monitor, [])))
  have h4 := update_discs_last c src
    (update_mounts c src (update_volumes c src (update_drives c src (monitor, []))))
  refine ⟨h4.1, ?_, ?_, ?_⟩
  · rw [h4.2.1, h3.2.1, h2.2.1, h1.2.1]
  · rw [h4.2.2.1, h3.2.2.1, h2.2.2.1]
  · rw [h4.2.2.2, h3.2.2.2]

theorem update_drives_unchanged (c : Collaborators) (src : Snapshot) (st : Emitting)
    (h : st.1.last_drive_devices =
      g_list_sort (src.hal_pool_find_by_capability "storage") hal_device_compare) :
    update_drives c src st = st := by
  obtain ⟨monitor, signals⟩ := st
  simp only at h
  simp only [update_drives, ← h, diff_sorted_lists_self _ hal_device_compare_self,
    update_drives_removed, update_drives_added]

theorem update_volumes_unchanged (c : Collaborators) (src : Snapshot) (st : Emitting)
    (h : st.1.last_volume_devices = update_volumes_new_volume_devices c src) :
    update_volumes c src st = st := by
  obtain ⟨monitor, signals⟩ := st
  simp only at h
  simp only [update_volumes, ← h, diff_sorted_lists_self _ hal_device_compare_self,
    update_volumes_removed, update_volumes_added]

theorem update_mounts_unchanged (c : Collaborators) (src : Snapshot) (st : Emitting)
    (hrefl : ∀ e, c.g_unix_mount_compare e e = 0)
    (h : st.1.last_mounts = g_list_sort src.g_unix_mounts_get c.g_unix_mount_compare) :
    update_mounts c src st = st := by
  obtain ⟨monitor, signals⟩ := st
  simp only at h
  simp only [update_mounts, ← h, diff_sorted_lists_self _ hrefl,
    update_mounts_removed, update_mounts_added]

theorem update_discs_unchanged (c : Collaborators) (src : Snapshot) (st : Emitting)
    (h : st.1.last_optical_disc_devices = update_discs_new_optical_disc_devices src) :
    update_discs c src st = st := by
  obtain ⟨monitor, signals⟩ := st
  simp only at h
  simp only [update_discs, ← h, diff_sorted_lists_self _ hal_device_compare_self,
    update_discs_removed, update_discs_added]

/-- C2: when a full update is run twice in a row against the same snapshot of the device
database and the mount table, the second run emits no signal and leaves the monitor
(the five registries and the last snapshots) as the first run left it. The constructors
may behave differently in the two runs; the mount comparator compares an entry equal
to itself. -/
theorem force_update_twice_emits_nothing (c1 c2 : Collaborators) (src : Snapshot)
    (monitor : GHalVolumeMonitor)
    (hcompare : c2.g_unix_mount_compare = c1.g_unix_mount_compare)
    (hinternal : c2.g_unix_is_mount_path_system_internal =
      c1.g_unix_is_mount_path_system_internal)
    (hrefl : ∀ e, c1.g_unix_mount_compare e e = 0) :
    g_hal_volume_monitor_force_update c2 src
        (g_hal_volume_monitor_force_update c1 src monitor).1 =
      ((g_hal_volume_monitor_force_update c1 src monitor).1, []) := by
  obtain ⟨h1, h2, h3, h4⟩ := force_update_last c1 src monitor
  have hv : update_volumes_new_volume_devices c2 src =
      update_volumes_new_volume_devices c1 src := by
    simp only [update_volumes_new_volume_devices, hinternal]
  generalize (g_hal_volume_monitor_force_update c1 src monitor).1 = m1 at h1 h2 h3 h4
  unfold g_hal_volume_monitor_force_update
  rw [update_drives_unchanged c2 src (m1, []) h2,
    update_volumes_unchanged c2 src (m1, []) (by rw [hv]; exact h3),
    update_mounts_unchanged c2 src (m1, []) (by rw [hcompare]; exact hrefl)
      (by rw [hcompare]; exact h4),
    update_discs_unchanged c2 src (m1, []) h1]


/-- C2 at the sample snapshot, from the freshly initialised monitor. -/
theorem force_update_twice_emits_nothing_witness :
    g_hal_volume_monitor_force_update sample_collaborators sample_snapshot
        (g_hal_volume_monitor_force_update sample_collaborators sample_snapshot
          g_hal_volume_monitor_init).1 =
      ((g_hal_volume_monitor_force_update sample_collaborators sample_snapshot
          g_hal_volume_monitor_init).1, []) :=
  force_update_twice_emits_nothing sample_collaborators sample_collaborators sample_snapshot
    g_hal_volume_monitor_init rfl rfl (fun _ => (strcmp_eq_zero _ _).2 rfl)


/-! ## Theorems: the volume ignore filter -/

theorem diff_sorted_lists_loop_subset {α : Type} (compare : α → α → Int) :
    ∀ l1 l2 : List α, ∀ added removed,
      (∀ x ∈ (diff_sorted_lists_loop compare l1 l2 added removed).added, x ∈ l2 ∨ x ∈ added) ∧
      (∀ x ∈ (diff_sorted_lists_loop compare l1 l2 added removed).removed,
        x ∈ l1 ∨ x ∈ removed) := by
  apply diff_scan_induction compare
  · intro l2 added removed
    simp [diff_sorted_lists_loop_nil_left]
  · intro l1 added removed
    simp [diff_sorted_lists_loop_nil_right]
  · intro a l1 b l2 hab ih added removed
    rw [diff_sorted_lists_loop_cons_cons, if_pos hab]
    obtain ⟨h1, h2⟩ := ih added (a :: removed)
    refine ⟨h1, fun x hx => ?_⟩
    rcases h2 x hx with h | h
    · exact Or.inl (List.mem_cons_of_mem _ h)
    · rcases List.mem_cons.1 h with rfl | h
      · exact Or.inl (List.mem_cons_self _ _)
      · exact Or.inr h
  · intro a l1 b l2 hnlt hab ih added removed
    rw [diff_sorted_lists_loop_cons_cons, if_neg hnlt, if_pos hab]
    obtain ⟨h1, h2⟩ := ih (b :: added) removed
    refine ⟨fun x hx => ?_, h2⟩
    rcases h1 x hx with h | h
    · exact Or.inl (List.mem_cons_of_mem _ h)
    · rcases List.mem_cons.1 h with rfl | h
      · exact Or.inl (List.mem_cons_self _ _)
      · exact Or.inr h
  · intro a l1 b l2 hab ih added removed
    rw [diff_sorted_lists_loop_cons_cons, if_neg (by omega), if_neg (by omega)]
    obtain ⟨h1, h2⟩ := ih added removed
    refine ⟨fun x hx => ?_, fun x hx => ?_⟩
    · rcases h1 x hx with h | h
      · exact Or.inl (List.mem_cons_of_mem _ h)
      · exact Or.inr h
    · rcases h2 x hx with h | h
      · exact Or.inl (List.mem_cons_of_mem _ h)
      · exact Or.inr h

theorem diff_sorted_lists_added_subset {α : Type} (compare : α → α → Int) (l1 l2 : List α)
    (x : α) (hx : x ∈ (diff_sorted_lists compare l1 l2).added) : x ∈ l2 := by
  rcases (diff_sorted_lists_loop_subset compare l1 l2 [] []).1 x hx with h | h
  · exact h
  · cases h

theorem diff_sorted_lists_removed_subset {α : Type} (compare : α → α → Int) (l1 l2 : List α)
    (x : α) (hx : x ∈ (diff_sorted_lists compare l1 l2).removed) : x ∈ l1 := by
  rcases (diff_sorted_lists_loop_subset compare l1 l2 [] []).2 x hx with h | h
  · exact h
  · cases h

theorem mem_g_list_sort {α : Type} (compare : α → α → Int) (l : List α) (x : α) :
    x ∈ g_list_sort l compare ↔ x ∈ l :=
  (List.perm_insertionSort _ l).mem_iff

theorem mem_update_volumes_new_volume_devices (c : Collaborators) (src : Snapshot)
    (d : HalDevice) :
    d ∈ update_volumes_new_volume_devices c src ↔
      d ∈ src.hal_pool_find_by_capability "volume" ∧
        _should_volume_be_ignored c.g_unix_is_mount_path_system_internal d = false := by
  simp [update_volumes_new_volume_devices, mem_g_list_sort, List.mem_filter]

theorem update_volumes_removed_volumes (l : List HalDevice) (st : Emitting) (v : GHalVolume)
    (hv : v ∈ (update_volumes_removed l st).1.volumes) : v ∈ st.1.volumes := by
  induction l generalizing st with
  | nil => exact hv
  | cons d l ih =>
    obtain ⟨monitor, signals⟩ := st
    unfold update_volumes_removed at hv
    split at hv
    · exact List.mem_of_mem_erase (ih _ hv)
    · exact ih _ hv

theorem update_volumes_added_volumes (c : Collaborators) (l : List HalDevice) (st : Emitting)
    (v : GHalVolume) (hv : v ∈ (update_volumes_added c l st).1.volumes) :
    v ∈ st.1.volumes ∨ ∃ d ∈ l, ∃ drive, c.g_hal_volume_new d drive = some v := by
  induction l generalizing st with
  | nil => exact Or.inl hv
  | cons d l ih =>
    obtain ⟨monitor, signals⟩ := st
    unfold update_volumes_added at hv
    split at hv
    · simp only at hv
      split at hv
      · rename_i volume hnew
        rcases ih _ hv with h | ⟨d1, hd1, drive, hdrive⟩
        · rcases List.mem_cons.1 h with rfl | h
          · exact Or.inr ⟨d, List.mem_cons_self _ _, _, hnew⟩
          · exact Or.inl h
        · exact Or.inr ⟨d1, List.mem_cons_of_mem _ hd1, drive, hdrive⟩
      · rcases ih _ hv with h | ⟨d1, hd1, drive, hdrive⟩
        · exact Or.inl h
        · exact Or.inr ⟨d1, List.mem_cons_of_mem _ hd1, drive, hdrive⟩
    · rcases ih _ hv with h | ⟨d1, hd1, drive, hdrive⟩
      · exact Or.inl h
      · exact Or.inr ⟨d1, List.mem_cons_of_mem _ hd1, drive, hdrive⟩

/-- C3 (as amended): a device snapshot whose `volume.ignore` is true and whose
`volume.fsusage` property is present is ignored whatever its other properties, so in
`update_volumes` it is not among the kept devices, not among the devices a Volume is
constructed for, and every Volume the pass makes live was constructed from a fetched
device that is not ignored. -/
theorem volume_ignore_with_fsusage_never_live (c : Collaborators) (src : Snapshot)
    (st : Emitting) (d : HalDevice) (fsusage : String)
    (hignore : hal_device_get_property_bool d "volume.ignore" = true)
    (hfsusage : hal_device_get_property_string d "volume.fsusage" = some fsusage) :
    _should_volume_be_ignored c.g_unix_is_mount_path_system_internal d = true ∧
    d ∉ update_volumes_new_volume_devices c src ∧
    d ∉ (diff_sorted_lists hal_device_compare st.1.last_volume_devices
          (update_volumes_new_volume_devices c src)).added ∧
    ∀ v ∈ (update_volumes c src st).1.volumes, v ∈ st.1.volumes ∨
      ∃ d1 drive, d1 ∈ src.hal_pool_find_by_capability "volume" ∧
        _should_volume_be_ignored c.g_unix_is_mount_path_system_internal d1 = false ∧
        c.g_hal_volume_new d1 drive = some v := by
  have h1 : _should_volume_be_ignored c.g_unix_is_mount_path_system_internal d = true := by
    simp [_should_volume_be_ignored, hignore, hfsusage]
  have h2 : d ∉ update_volumes_new_volume_devices c src := by
    rw [mem_update_volumes_new_volume_devices]
    simp [h1]
  refine ⟨h1, h2, fun h => h2 (diff_sorted_lists_added_subset _ _ _ _ h), ?_⟩
  intro v hv
  simp only [update_volumes] at hv
  rcases update_volumes_added_volumes c _ _ v hv with h | ⟨d1, hd1, drive, hdrive⟩
  · exact Or.inl (update_volumes_removed_volumes _ _ v h)
  · have hmem := diff_sorted_lists_added_subset _ _ _ _ hd1
    rw [mem_update_volumes_new_volume_devices] at hmem
    exact Or.inr ⟨d1, drive, hmem.1, hmem.2, hdrive⟩

/-- C3 at the sample device with `volume.ignore = true` and `volume.fsusage = "filesystem"`. -/
theorem volume_ignore_with_fsusage_never_live_witness :
    _should_volume_be_ignored sample_collaborators.g_unix_is_mount_path_system_internal
        sample_ignored_filesystem = true ∧
    sample_ignored_filesystem ∉
      update_volumes_new_volume_devices sample_collaborators sample_snapshot :=
  ⟨(volume_ignore_with_fsusage_never_live sample_collaborators sample_snapshot
      (g_hal_volume_monitor_init, []) sample_ignored_filesystem "filesystem"
      (by decide) (by decide)).1,
    (volume_ignore_with_fsusage_never_live sample_collaborators sample_snapshot
      (g_hal_volume_monitor_init, []) sample_ignored_filesystem "filesystem"
      (by decide) (by decide)).2.1⟩

/-- C3 as stated fails: a device with `volume.ignore = true` and no `volume.fsusage` is not
ignored, and `update_volumes` makes a Volume live for it. -/
theorem volume_ignore_without_fsusage_is_kept :
    hal_device_get_property_bool sample_ignored_without_fsusage "volume.ignore" = true ∧
    _should_volume_be_ignored sample_collaborators.g_unix_is_mount_path_system_internal
        sample_ignored_without_fsusage = false ∧
    update_volumes sample_collaborators sample_snapshot (g_hal_volume_monitor_init, []) =
      ({ g_hal_volume_monitor_init with
          last_volume_devices := [sample_ignored_without_fsusage],
          volumes := [⟨"/hal/vol0", none⟩] },
        [VolumeMonitorSignal.volume_added ⟨"/hal/vol0", none⟩]) := by
  decide


/-! ## Theorems: the file monitor -/

theorem to_guint32_of_nonneg (w : Int) (h0 : 0 ≤ w) (h1 : w < 4294967296) :
    to_guint32 w = w.toNat := by
  unfold to_guint32
  rw [Int.emod_eq_of_lt h0 h1]

theorem delay_no_wrap (w s : Nat) (hs : s < w) (hw : w < 4294967296) :
    (w + 4294967296 - s) % 4294967296 = w - s := by
  omega

theorem schedule_after_cancel (m : GFileMonitorPrivate) (F : GFile) (t : Nat) :
    schedule_virtual_change_done (cancel_virtual_changes_done m) F t =
      { m with
        virtual_changes_done_timeout := some ⟨t, 3000⟩
        virtual_changes_done_file := some F } := by
  unfold cancel_virtual_changes_done schedule_virtual_change_done
  cases m.virtual_changes_done_timeout <;> rfl

/-- A `changed` feed that is not rate-limited: no file recorded as last sent, or the time
since the last sent change is not below the window. -/
theorem emit_changed_now (m : GFileMonitorPrivate) (F : GFile) (other_file : Option GFile)
    (t : Nat)
    (h : m.last_sent_change_file = none ∨
      ¬ time_difference m.last_sent_change_time t < to_guint32 m.rate_limit_msec) :
    g_file_monitor_emit_event m F other_file .CHANGED t =
      ({ m with
          last_sent_change_file := some F
          last_sent_change_time := t
          send_delayed_change_timeout := none
          virtual_changes_done_timeout := some ⟨t, 3000⟩
          virtual_changes_done_file := some F },
        [⟨some F, other_file, .CHANGED⟩]) := by
  unfold g_file_monitor_emit_event
  rw [if_neg (by simp)]
  cases hf : m.last_sent_change_file with
  | none =>
    simp only [if_true, schedule_after_cancel, update_last_sent_change, cancel_delayed_change]
  | some f =>
    have h2 : ¬ time_difference m.last_sent_change_time t < to_guint32 m.rate_limit_msec := by
      rcases h with h | h
      · rw [hf] at h
        cases h
      · exact h
    simp only [if_neg h2, if_true, schedule_after_cancel, update_last_sent_change,
      cancel_delayed_change]

/-- A rate-limited `changed` feed: nothing is emitted, the delayed-change timeout is armed
unless it already is, and the quiescence timeout is re-armed. -/
theorem emit_changed_limited (m : GFileMonitorPrivate) (F : GFile)
    (other_file : Option GFile) (t : Nat) (f : GFile)
    (hf : m.last_sent_change_file = some f)
    (h : time_difference m.last_sent_change_time t < to_guint32 m.rate_limit_msec) :
    g_file_monitor_emit_event m F other_file .CHANGED t =
      ({ m with
          send_delayed_change_timeout :=
            some (m.send_delayed_change_timeout.getD
              ⟨t, (to_guint32 m.rate_limit_msec + 4294967296 -
                time_difference m.last_sent_change_time t) % 4294967296⟩)
          virtual_changes_done_timeout := some ⟨t, 3000⟩
          virtual_changes_done_file := some F }, []) := by
  unfold g_file_monitor_emit_event
  rw [if_neg (by simp)]
  simp only [hf, if_pos h, schedule_after_cancel, schedule_delayed_change]
  cases hd : m.send_delayed_change_timeout with
  | none => simp
  | some d => simp [hd, hf]


theorem pairwise_append_singleton {β : Type} (R : β → β → Prop) (pre : List β) (e : β) :
    (pre ++ [e]).Pairwise R ↔ pre.Pairwise R ∧ ∀ x ∈ pre, R x e := by
  rw [List.pairwise_append]
  simp

theorem rate_limit_invariant_init (W : Int) :
    RateLimitInvariant W (g_file_monitor_set_rate_limit g_file_monitor_init W) 0 [] where
  window := rfl
  times_le := by simp
  apart := List.Pairwise.nil
  none_sent := by simp
  last_sent := by simp [g_file_monitor_set_rate_limit, g_file_monitor_init]
  delayed := by simp [g_file_monitor_set_rate_limit, g_file_monitor_init]

/-- A `changed` feed keeps the invariant. -/
theorem rate_limit_invariant_feed (W : Int) (hW0 : -2147483648 ≤ W) (hW1 : W ≤ 2147483647)
    (m : GFileMonitorPrivate) (clock : Nat) (pre : List Emission)
    (inv : RateLimitInvariant W m clock pre) (t : Nat) (hclock : clock ≤ t) (F : GFile)
    (other_file : Option GFile) :
    RateLimitInvariant W (g_file_monitor_emit_event m F other_file .CHANGED t).1 t
      (pre ++ stamp t (g_file_monitor_emit_event m F other_file .CHANGED t).2) := by
  have hle : ∀ e ∈ pre, e.time ≤ t := fun e he => le_trans (inv.times_le e he) hclock
  by_cases hlim : m.last_sent_change_file = none ∨
      ¬ time_difference m.last_sent_change_time t < to_guint32 m.rate_limit_msec
  · rw [emit_changed_now m F other_file t hlim]
    refine ⟨inv.window, ?_, ?_, ?_, ?_, ?_⟩
    · intro e he
      simp only [stamp, List.map_cons, List.map_nil, List.mem_append, List.mem_singleton] at he
      rcases he with he | rfl
      · exact hle e he
      · exact le_refl _
    · simp only [stamp, List.map_cons, List.map_nil]
      rw [pairwise_append_singleton]
      refine ⟨inv.apart, ?_⟩
      intro e he hce _
      show (e.time : Int) + W ≤ (t : Int)
      by_cases hpos : 0 < W
      · rcases hlim with hnone | hnot
        · exact absurd hce (inv.none_sent hpos hnone e he)
        · by_cases hf : m.last_sent_change_file = none
          · exact absurd hce (inv.none_sent hpos hf e he)
          · obtain ⟨h1, h2⟩ := inv.last_sent hpos hf
            have h3 := h1 e he hce
            rw [inv.window, to_guint32_of_nonneg W (by omega) (by omega)] at hnot
            unfold time_difference at hnot
            rw [if_neg (by omega)] at hnot
            omega
      · have := hle e he
        omega
    · intro _ hnone
      simp at hnone
    · intro _ _
      refine ⟨?_, le_refl _⟩
      intro e he _
      simp only [stamp, List.map_cons, List.map_nil, List.mem_append, List.mem_singleton] at he
      rcases he with he | rfl
      · exact hle e he
      · exact le_refl _
    · intro _ tm htm
      simp at htm
  · have hlim2 : m.last_sent_change_file ≠ none ∧
        time_difference m.last_sent_change_time t < to_guint32 m.rate_limit_msec := by
      constructor
      · intro h
        exact hlim (Or.inl h)
      · by_contra h
        exact hlim (Or.inr h)
    obtain ⟨f, hf⟩ := Option.ne_none_iff_exists'.1 hlim2.1
    rw [emit_changed_limited m F other_file t f hf hlim2.2]
    simp only [stamp, List.map_nil, List.append_nil]
    refine ⟨inv.window, hle, inv.apart, ?_, ?_, ?_⟩
    · intro hpos hnone
      exact absurd hnone hlim2.1
    · intro hpos _
      obtain ⟨h1, h2⟩ := inv.last_sent hpos hlim2.1
      exact ⟨h1, le_trans h2 hclock⟩
    · intro hpos tm htm
      refine ⟨hlim2.1, ?_⟩
      show (m.last_sent_change_time : Int) + W ≤ tm.due
      cases hd : m.send_delayed_change_timeout with
      | some d =>
        simp only [hd, Option.getD_some, Option.some.injEq] at htm
        subst htm
        exact (inv.delayed hpos d hd).2
      | none =>
        simp only [hd, Option.getD_none, Option.some.injEq] at htm
        subst htm
        obtain ⟨h1, h2⟩ := inv.last_sent hpos hlim2.1
        have hlt := hlim2.2
        rw [inv.window, to_guint32_of_nonneg W (by omega) (by omega)] at hlt ⊢
        unfold time_difference at hlt ⊢
        rw [if_neg (by omega)] at hlt ⊢
        rw [delay_no_wrap _ _ hlt (by omega)]
        simp only [Timeout.due]
        omega


/-- The dispatch of the delayed-change timeout, no earlier than it is due, keeps the
invariant. -/
theorem rate_limit_invariant_delayed (W : Int) (m : GFileMonitorPrivate) (clock : Nat)
    (pre : List Emission) (inv : RateLimitInvariant W m clock pre) (t : Nat)
    (hclock : clock ≤ t)
    (hen : Action.enabled m (.delayed_change_fires t) = true) :
    RateLimitInvariant W (delayed_changed_event_timeout m t).1 t
      (pre ++ stamp t (delayed_changed_event_timeout m t).2) := by
  have hle : ∀ e ∈ pre, e.time ≤ t := fun e he => le_trans (inv.times_le e he) hclock
  unfold Action.enabled at hen
  unfold delayed_changed_event_timeout send_delayed_change_now
  cases hd : m.send_delayed_change_timeout with
  | none => simp [hd] at hen
  | some tm =>
    simp only [hd, decide_eq_true_eq] at hen
    simp only [stamp, List.map_cons, List.map_nil]
    refine ⟨inv.window, ?_, ?_, ?_, ?_, ?_⟩
    · intro e he
      simp only [List.mem_append, List.mem_singleton] at he
      rcases he with he | rfl
      · exact hle e he
      · exact le_refl _
    · rw [pairwise_append_singleton]
      refine ⟨inv.apart, ?_⟩
      intro e he hce _
      show (e.time : Int) + W ≤ (t : Int)
      by_cases hpos : 0 < W
      · obtain ⟨hf, hdue⟩ := inv.delayed hpos tm hd
        obtain ⟨h1, _⟩ := inv.last_sent hpos hf
        have h3 := h1 e he hce
        omega
      · have := hle e he
        omega
    · intro hpos hnone
      exact absurd hnone (inv.delayed hpos tm hd).1
    · intro _ _
      refine ⟨?_, le_refl _⟩
      intro e he _
      simp only [List.mem_append, List.mem_singleton] at he
      rcases he with he | rfl
      · exact hle e he
      · exact le_refl _
    · intro _ tm2 htm2
      simp at htm2

/-- The dispatch of the quiescence timeout keeps the invariant. -/
theorem rate_limit_invariant_virtual (W : Int) (m : GFileMonitorPrivate) (clock : Nat)
    (pre : List Emission) (inv : RateLimitInvariant W m clock pre) (t : Nat)
    (hclock : clock ≤ t) :
    RateLimitInvariant W (virtual_changes_done_timeout m).1 t
      (pre ++ stamp t (virtual_changes_done_timeout m).2) := by
  have hle : ∀ e ∈ pre, e.time ≤ t := fun e he => le_trans (inv.times_le e he) hclock
  unfold virtual_changes_done_timeout send_virtual_changes_done_now
  cases hq : m.virtual_changes_done_timeout with
  | none =>
    simp only [stamp, List.map_nil, List.append_nil]
    refine ⟨inv.window, hle, inv.apart, inv.none_sent, ?_, inv.delayed⟩
    intro hpos hf
    obtain ⟨h1, h2⟩ := inv.last_sent hpos hf
    exact ⟨h1, le_trans h2 hclock⟩
  | some tm =>
    simp only [stamp, List.map_cons, List.map_nil]
    refine ⟨inv.window, ?_, ?_, ?_, ?_, inv.delayed⟩
    · intro e he
      simp only [List.mem_append, List.mem_singleton] at he
      rcases he with he | rfl
      · exact hle e he
      · exact le_refl _
    · rw [pairwise_append_singleton]
      refine ⟨inv.apart, ?_⟩
      intro e _ _ hc
      simp at hc
    · intro hpos hnone e he
      simp only [List.mem_append, List.mem_singleton] at he
      rcases he with he | rfl
      · exact inv.none_sent hpos hnone e he
      · simp
    · intro hpos hf
      obtain ⟨h1, h2⟩ := inv.last_sent hpos hf
      refine ⟨?_, le_trans h2 hclock⟩
      intro e he hc
      simp only [List.mem_append, List.mem_singleton] at he
      rcases he with he | rfl
      · exact h1 e he hc
      · simp at hc

/-- Every valid schedule of `changed` feeds and timeout dispatches keeps the invariant. -/
theorem rate_limit_invariant_run (W : Int) (hW0 : -2147483648 ≤ W) (hW1 : W ≤ 2147483647) :
    ∀ (schedule : List Action) (m : GFileMonitorPrivate) (clock : Nat) (pre : List Emission),
      RateLimitInvariant W m clock pre →
      (∀ a ∈ schedule, a.isChangedOrTimer = true) →
      valid_schedule m clock schedule = true →
      (pre ++ (run_actions m schedule).2).Pairwise (ChangedApart W) := by
  intro schedule
  induction schedule with
  | nil =>
    intro m clock pre inv _ _
    simpa [run_actions] using inv.apart
  | cons a rest ih =>
    intro m clock pre inv hkinds hvalid
    simp only [valid_schedule, Bool.and_eq_true, decide_eq_true_eq] at hvalid
    obtain ⟨⟨hclock, hen⟩, hrest⟩ := hvalid
    have hstep : RateLimitInvariant W (a.run m).1 a.time (pre ++ stamp a.time (a.run m).2) := by
      cases a with
      | feed t F other_file event_type =>
        have hk := hkinds _ (List.mem_cons_self _ _)
        simp only [Action.isChangedOrTimer, beq_iff_eq] at hk
        subst hk
        exact rate_limit_invariant_feed W hW0 hW1 m clock pre inv t hclock F other_file
      | delayed_change_fires t =>
        exact rate_limit_invariant_delayed W m clock pre inv t hclock hen
      | virtual_changes_done_fires t =>
        exact rate_limit_invariant_virtual W m clock pre inv t hclock
    have := ih (a.run m).1 a.time _ hstep
      (fun b hb => hkinds b (List.mem_cons_of_mem _ hb)) hrest
    simpa [run_actions, List.append_assoc] using this

/-- C4 (as amended): on a monitor with window `W`, in every schedule of the main loop in
which only `changed` events are fed (any files) and the timeouts are dispatched no
earlier than due, any two `changed` emissions, of whatever file, are at least `W`
msecs apart. -/
theorem changed_only_rate_limited (W : Int) (hW0 : -2147483648 ≤ W) (hW1 : W ≤ 2147483647)
    (schedule : List Action) (hkinds : ∀ a ∈ schedule, a.isChangedOrTimer = true)
    (hvalid : valid_schedule (g_file_monitor_set_rate_limit g_file_monitor_init W) 0
      schedule = true) :
    (run_actions (g_file_monitor_set_rate_limit g_file_monitor_init W) schedule).2.Pairwise
      (ChangedApart W) := by
  have := rate_limit_invariant_run W hW0 hW1 schedule _ 0 [] (rate_limit_invariant_init W)
    hkinds hvalid
  simpa using this

/-- C4 at the window 800 and the schedule of the rate-limiting scenario. -/
theorem changed_only_rate_limited_witness :
    (run_actions (g_file_monitor_set_rate_limit g_file_monitor_init 800)
      [.feed 0 sample_file none .CHANGED, .feed 100 sample_file none .CHANGED,
        .delayed_change_fires 800, .feed 900 sample_other_file none .CHANGED,
        .virtual_changes_done_fires 3900]).2.Pairwise (ChangedApart 800) :=
  changed_only_rate_limited 800 (by decide) (by decide) _ (by decide) (by decide)

/-- C4 as stated fails: with window 800, `Changed(F)` at 0 and 100 followed by
`Deleted(F)` at 200 emits `changed(F)` at 0 and again at 200. -/
theorem changed_flushed_within_window :
    (run_actions g_file_monitor_init
      [.feed 0 sample_file none .CHANGED, .feed 100 sample_file none .CHANGED,
        .feed 200 sample_file none .DELETED]).2 =
      [⟨0, ⟨some sample_file, none, .CHANGED⟩⟩,
        ⟨200, ⟨some sample_file, none, .CHANGED⟩⟩,
        ⟨200, ⟨some sample_file, none, .CHANGES_DONE_HINT⟩⟩,
        ⟨200, ⟨some sample_file, none, .DELETED⟩⟩] ∧
    valid_schedule g_file_monitor_init 0
      [.feed 0 sample_file none .CHANGED, .feed 100 sample_file none .CHANGED,
        .feed 200 sample_file none .DELETED] = true ∧
    g_file_monitor_init.rate_limit_msec = 800 ∧
    ¬ (run_actions g_file_monitor_init
      [.feed 0 sample_file none .CHANGED, .feed 100 sample_file none .CHANGED,
        .feed 200 sample_file none .DELETED]).2.Pairwise (ChangedApart 800) := by
  decide


theorem scenario_first_feed (F : GFile) (other_file : Option GFile) :
    g_file_monitor_emit_event g_file_monitor_init F other_file .CHANGED 0 =
      ({ g_file_monitor_init with
          last_sent_change_file := some F
          virtual_changes_done_timeout := some ⟨0, 3000⟩
          virtual_changes_done_file := some F },
        [⟨some F, other_file, .CHANGED⟩]) := by
  rw [emit_changed_now _ _ _ _ (Or.inl rfl)]
  rfl

theorem scenario_second_feed (F : GFile) (other_file : Option GFile) :
    g_file_monitor_emit_event
        { g_file_monitor_init with
          last_sent_change_file := some F
          virtual_changes_done_timeout := some ⟨0, 3000⟩
          virtual_changes_done_file := some F }
        F other_file .CHANGED 100 =
      ({ g_file_monitor_init with
          last_sent_change_file := some F
          send_delayed_change_timeout := some ⟨100, 700⟩
          virtual_changes_done_timeout := some ⟨100, 3000⟩
          virtual_changes_done_file := some F }, []) := by
  have h1 : time_difference 0 100 < to_guint32 800 := by decide
  have h2 : (to_guint32 800 + 4294967296 - time_difference 0 100) % 4294967296 = 700 := by
    decide
  rw [emit_changed_limited _ F other_file 100 F rfl h1]
  simp only [g_file_monitor_init, h2, Option.getD_none]

/-- C5: on a fresh monitor (window 800 ms) `Changed(F)` at t=0 is emitted at once; a second
`Changed(F)` at t=100 emits nothing and arms the delayed-change timeout with delay 700,
due at 800; the idle main loop dispatches nothing before 800 and at 800 dispatches that
timeout, which emits exactly one `changed(F)` and leaves the timeout unarmed. -/
theorem rate_limiting_scenario (F : GFile) (other_file : Option GFile) :
    g_file_monitor_init.rate_limit_msec = 800 ∧
    (g_file_monitor_emit_event g_file_monitor_init F other_file .CHANGED 0).2 =
      [⟨some F, other_file, .CHANGED⟩] ∧
    (g_file_monitor_emit_event
      (g_file_monitor_emit_event g_file_monitor_init F other_file .CHANGED 0).1
      F other_file .CHANGED 100).2 = [] ∧
    (g_file_monitor_emit_event
      (g_file_monitor_emit_event g_file_monitor_init F other_file .CHANGED 0).1
      F other_file .CHANGED 100).1.send_delayed_change_timeout = some ⟨100, 700⟩ ∧
    Timeout.due ⟨100, 700⟩ = 800 ∧
    (run_idle (g_file_monitor_emit_event
      (g_file_monitor_emit_event g_file_monitor_init F other_file .CHANGED 0).1
      F other_file .CHANGED 100).1 799).2 = [] ∧
    (run_idle (g_file_monitor_emit_event
      (g_file_monitor_emit_event g_file_monitor_init F other_file .CHANGED 0).1
      F other_file .CHANGED 100).1 800).2 = [⟨800, ⟨some F, none, .CHANGED⟩⟩] ∧
    (run_idle (g_file_monitor_emit_event
      (g_file_monitor_emit_event g_file_monitor_init F other_file .CHANGED 0).1
      F other_file .CHANGED 100).1 800).1.send_delayed_change_timeout = none := by
  rw [scenario_first_feed, scenario_second_feed]
  refine ⟨rfl, rfl, rfl, rfl, rfl, rfl, rfl, rfl⟩


/-- C6 (as amended): a `Changed(file)` fed when no last-sent change is recorded (none
emitted since the monitor was created or since the last other event), or when the
last-sent change, of whatever file, is at least the window old, is emitted at once, the
delayed-change timeout is left unarmed and `(file, now)` is recorded as last sent; a
`Changed(B)` arriving 100 ms after an emitted `changed(A)` on a fresh monitor (window 800)
is not emitted by that feed, whether or not `A` differs from `B`. -/
theorem changed_emitted_immediately (m : GFileMonitorPrivate) (file : GFile)
    (other_file : Option GFile) (now : Nat)
    (h : m.last_sent_change_file = none ∨
      (0 ≤ m.rate_limit_msec ∧ m.rate_limit_msec ≤ 2147483647 ∧
        (m.last_sent_change_time : Int) + m.rate_limit_msec ≤ now)) :
    (g_file_monitor_emit_event m file other_file .CHANGED now).2 =
      [⟨some file, other_file, .CHANGED⟩] ∧
    (g_file_monitor_emit_event m file other_file .CHANGED now).1.send_delayed_change_timeout =
      none ∧
    (g_file_monitor_emit_event m file other_file .CHANGED now).1.last_sent_change_file =
      some file ∧
    (g_file_monitor_emit_event m file other_file .CHANGED now).1.last_sent_change_time =
      now ∧
    ∀ A B : GFile,
      (g_file_monitor_emit_event g_file_monitor_init A none .CHANGED 0).2 =
        [⟨some A, none, .CHANGED⟩] ∧
      (g_file_monitor_emit_event
        (g_file_monitor_emit_event g_file_monitor_init A none .CHANGED 0).1
        B none .CHANGED 100).2 = [] := by
  have hnow : m.last_sent_change_file = none ∨
      ¬ time_difference m.last_sent_change_time now < to_guint32 m.rate_limit_msec := by
    rcases h with h | ⟨h0, h1, h2⟩
    · exact Or.inl h
    · right
      rw [to_guint32_of_nonneg _ h0 (by omega)]
      unfold time_difference
      rw [if_neg (by omega)]
      omega
  rw [emit_changed_now m file other_file now hnow]
  refine ⟨rfl, rfl, rfl, rfl, ?_⟩
  intro A B
  rw [scenario_first_feed]
  refine ⟨rfl, ?_⟩
  have hlim : time_difference 0 100 < to_guint32 800 := by decide
  rw [emit_changed_limited _ B none 100 A rfl hlim]

/-- C6 at a monitor whose last change was sent at 0, fed at 800 with window 800. -/
theorem changed_emitted_immediately_witness :
    (g_file_monitor_emit_event
      (g_file_monitor_emit_event g_file_monitor_init sample_file none .CHANGED 0).1
      sample_other_file none .CHANGED 800).2 =
      [⟨some sample_other_file, none, .CHANGED⟩] :=
  (changed_emitted_immediately
    (g_file_monitor_emit_event g_file_monitor_init sample_file none .CHANGED 0).1
    sample_other_file none 800 (Or.inr (by decide))).1

/-- C6 as stated fails: on a fresh monitor (window 800) `Changed(A)` at 0 is emitted; the
`Changed(B)` that arrives 100 ms later, for another file `B` of which no change was ever
emitted, is not emitted by that feed. -/
theorem changed_other_file_not_immediate :
    sample_file ≠ sample_other_file ∧
    (g_file_monitor_emit_event g_file_monitor_init sample_file none .CHANGED 0).2 =
      [⟨some sample_file, none, .CHANGED⟩] ∧
    (g_file_monitor_emit_event
      (g_file_monitor_emit_event g_file_monitor_init sample_file none .CHANGED 0).1
      sample_other_file none .CHANGED 100).2 = [] := by
  decide

/-- C7 at its failing input: on a fresh monitor (window 800) `Changed(A)` at 0 then
`Changed(B)` at 100 arms the delayed-change timeout; when it fires at 800 the emitted
event is `changed(A)`, the last-sent file, and last-sent stays `A`; no `changed(B)` is
emitted up to the changes-done hint. -/
theorem delayed_change_carries_last_sent_file :
    sample_file ≠ sample_other_file ∧
    (g_file_monitor_emit_event
      (g_file_monitor_emit_event g_file_monitor_init sample_file none .CHANGED 0).1
      sample_other_file none .CHANGED 100).1.send_delayed_change_timeout = some ⟨100, 700⟩ ∧
    delayed_changed_event_timeout
      (g_file_monitor_emit_event
        (g_file_monitor_emit_event g_file_monitor_init sample_file none .CHANGED 0).1
        sample_other_file none .CHANGED 100).1 800 =
      ({ g_file_monitor_init with
          last_sent_change_time := 800
          last_sent_change_file := some sample_file
          virtual_changes_done_timeout := some ⟨100, 3000⟩
          virtual_changes_done_file := some sample_other_file },
        [⟨some sample_file, none, .CHANGED⟩]) ∧
    (run_actions g_file_monitor_init
      ([.feed 0 sample_file none .CHANGED, .feed 100 sample_other_file none .CHANGED] ++
        idle_schedule (g_file_monitor_emit_event
          (g_file_monitor_emit_event g_file_monitor_init sample_file none .CHANGED 0).1
          sample_other_file none .CHANGED 100).1 10000)).2 =
      [⟨0, ⟨some sample_file, none, .CHANGED⟩⟩,
        ⟨800, ⟨some sample_file, none, .CHANGED⟩⟩,
        ⟨3100, ⟨some sample_other_file, none, .CHANGES_DONE_HINT⟩⟩] := by
  decide

/-- C10: a fed event of a kind other than `changed` emits, in this order, the pending
delayed `changed` event if the delayed-change timeout was armed, the pending derived
`changes_done_hint` if the quiescence timeout was armed and the kind is not
`changes_done_hint`, and the fed event itself with its file and other file; afterwards
both timeouts are unarmed and the last-sent tracking is cleared. -/
theorem flush_order_on_other_event (m : GFileMonitorPrivate) (file : GFile)
    (other_file : Option GFile) (event_type : GFileMonitorEvent) (now : Nat)
    (hkind : event_type ≠ .CHANGED) :
    (g_file_monitor_emit_event m file other_file event_type now).2 =
      (if m.send_delayed_change_timeout.isSome then
        [(⟨m.last_sent_change_file, none, .CHANGED⟩ : ChangedSignal)] else []) ++
      (if m.virtual_changes_done_timeout.isSome ∧ event_type ≠ .CHANGES_DONE_HINT then
        [(⟨m.virtual_changes_done_file, none, .CHANGES_DONE_HINT⟩ : ChangedSignal)] else []) ++
      [⟨some file, other_file, event_type⟩] ∧
    (g_file_monitor_emit_event m file other_file event_type now).1.send_delayed_change_timeout
      = none ∧
    (g_file_monitor_emit_event m file other_file event_type now).1.virtual_changes_done_timeout
      = none ∧
    (g_file_monitor_emit_event m file other_file event_type now).1.last_sent_change_file
      = none ∧
    (g_file_monitor_emit_event m file other_file event_type now).1.last_sent_change_time
      = 0 := by
  unfold g_file_monitor_emit_event
  rw [if_pos hkind]
  unfold send_delayed_change_now send_virtual_changes_done_now cancel_virtual_changes_done
    update_last_sent_change
  cases hd : m.send_delayed_change_timeout <;> cases hq : m.virtual_changes_done_timeout <;>
    by_cases hh : event_type = .CHANGES_DONE_HINT <;> simp [hh, hd, hq]

/-- C10 at a `Deleted(B)` fed at 200 while both timeouts are armed. -/
theorem flush_order_on_other_event_witness :
    (g_file_monitor_emit_event
      (g_file_monitor_emit_event
        (g_file_monitor_emit_event g_file_monitor_init sample_file none .CHANGED 0).1
        sample_file none .CHANGED 100).1
      sample_other_file (some sample_file) .DELETED 200).2 =
      [⟨some sample_file, none, .CHANGED⟩, ⟨some sample_file, none, .CHANGES_DONE_HINT⟩,
        ⟨some sample_other_file, some sample_file, .DELETED⟩] :=
  (flush_order_on_other_event
    (g_file_monitor_emit_event
      (g_file_monitor_emit_event g_file_monitor_init sample_file none .CHANGED 0).1
      sample_file none .CHANGED 100).1
    sample_other_file (some sample_file) .DELETED 200 (by decide)).1


/-- After every `changed` feed the quiescence timeout is armed for 3000 msecs from now,
for the fed file. -/
theorem emit_changed_arms_quiescence (m : GFileMonitorPrivate) (F : GFile)
    (other_file : Option GFile) (t : Nat) :
    (g_file_monitor_emit_event m F other_file .CHANGED t).1.virtual_changes_done_timeout =
      some ⟨t, 3000⟩ ∧
    (g_file_monitor_emit_event m F other_file .CHANGED t).1.virtual_changes_done_file =
      some F := by
  by_cases hlim : m.last_sent_change_file = none ∨
      ¬ time_difference m.last_sent_change_time t < to_guint32 m.rate_limit_msec
  · rw [emit_changed_now m F other_file t hlim]
    exact ⟨rfl, rfl⟩
  · have h1 : m.last_sent_change_file ≠ none := fun h => hlim (Or.inl h)
    have h2 : time_difference m.last_sent_change_time t < to_guint32 m.rate_limit_msec := by
      by_contra h
      exact hlim (Or.inr h)
    obtain ⟨f, hf⟩ := Option.ne_none_iff_exists'.1 h1
    rw [emit_changed_limited m F other_file t f hf h2]
    exact ⟨rfl, rfl⟩

/-- The idle main loop run from a state with the quiescence timeout armed, up to a clock
value at or after its due time: exactly one `changes_done_hint`, for the remembered
file, at the due time; afterwards the timeout and its file are cleared. -/
theorem run_idle_hint (m : GFileMonitorPrivate) (q : Timeout) (F : GFile)
    (hq : m.virtual_changes_done_timeout = some q)
    (hF : m.virtual_changes_done_file = some F) (T : Nat) (hT : q.due ≤ T) :
    (run_idle m T).2.filter (fun e => e.signal.event_type == .CHANGES_DONE_HINT) =
      [⟨q.due, ⟨some F, none, .CHANGES_DONE_HINT⟩⟩] ∧
    (run_idle m T).1.virtual_changes_done_timeout = none ∧
    (run_idle m T).1.virtual_changes_done_file = none := by
  cases hd : m.send_delayed_change_timeout with
  | none =>
    simp [run_idle, idle_schedule, next_timeout, hd, hq, hF, hT, Action.run, run_actions,
      virtual_changes_done_timeout, send_virtual_changes_done_now, stamp, Action.time]
  | some d =>
    by_cases h1 : d.due ≤ q.due
    · have h2 : d.due ≤ T := le_trans h1 hT
      simp [run_idle, idle_schedule, next_timeout, hd, hq, hF, hT, h1, h2, Action.run,
        run_actions, virtual_changes_done_timeout, send_virtual_changes_done_now, stamp,
        Action.time, delayed_changed_event_timeout, send_delayed_change_now]
    · by_cases h2 : d.due ≤ T
      · simp [run_idle, idle_schedule, next_timeout, hd, hq, hF, hT, h1, h2, Action.run,
          run_actions, virtual_changes_done_timeout, send_virtual_changes_done_now, stamp,
          Action.time, delayed_changed_event_timeout, send_delayed_change_now]
      · simp [run_idle, idle_schedule, next_timeout, hd, hq, hF, hT, h1, h2, Action.run,
          run_actions, virtual_changes_done_timeout, send_virtual_changes_done_now, stamp,
          Action.time, delayed_changed_event_timeout, send_delayed_change_now]

/-- Before the quiescence timeout is due the idle main loop emits no `changes_done_hint`. -/
theorem run_idle_no_hint_before (m : GFileMonitorPrivate) (q : Timeout)
    (hq : m.virtual_changes_done_timeout = some q) (T : Nat) (hT : T < q.due) :
    (run_idle m T).2.filter (fun e => e.signal.event_type == .CHANGES_DONE_HINT) = [] := by
  have hT2 : ¬ q.due ≤ T := by omega
  cases hd : m.send_delayed_change_timeout with
  | none =>
    simp [run_idle, idle_schedule, next_timeout, hd, hq, hT2, run_actions]
  | some d =>
    by_cases h1 : d.due ≤ q.due
    · by_cases h2 : d.due ≤ T
      · simp [run_idle, idle_schedule, next_timeout, hd, hq, hT2, h1, h2, Action.run,
          run_actions, stamp, Action.time, delayed_changed_event_timeout,
          send_delayed_change_now]
      · simp [run_idle, idle_schedule, next_timeout, hd, hq, hT2, h1, h2, run_actions]
    · simp [run_idle, idle_schedule, next_timeout, hd, hq, hT2, h1, run_actions]

/-- C8: when `Changed(F)` is fed at time `t`, in whatever state, and nothing is fed
afterwards, the idle main loop emits no `changes_done_hint` before `t + 3000`, and run up
to any time from `t + 3000` on it has emitted exactly one, `changes_done_hint(F)` at
`t + 3000`, and the quiescence timeout and its remembered file are cleared. -/
theorem quiescence_scenario (m : GFileMonitorPrivate) (F : GFile) (other_file : Option GFile)
    (t T0 T : Nat) (hT0 : T0 < t + 3000) (hT : t + 3000 ≤ T) :
    (run_idle (g_file_monitor_emit_event m F other_file .CHANGED t).1 T0).2.filter
        (fun e => e.signal.event_type == .CHANGES_DONE_HINT) = [] ∧
    (run_idle (g_file_monitor_emit_event m F other_file .CHANGED t).1 T).2.filter
        (fun e => e.signal.event_type == .CHANGES_DONE_HINT) =
      [⟨t + 3000, ⟨some F, none, .CHANGES_DONE_HINT⟩⟩] ∧
    (run_idle (g_file_monitor_emit_event m F other_file .CHANGED t).1
      T).1.virtual_changes_done_timeout = none ∧
    (run_idle (g_file_monitor_emit_event m F other_file .CHANGED t).1
      T).1.virtual_changes_done_file = none := by
  obtain ⟨hq, hF⟩ := emit_changed_arms_quiescence m F other_file t
  exact ⟨run_idle_no_hint_before _ ⟨t, 3000⟩ hq T0 hT0,
    run_idle_hint _ ⟨t, 3000⟩ F hq hF T hT⟩

/-- C8 at the last `Changed(F)` of the rate-limiting scenario, fed at t=800: the hint
fires at 3800. -/
theorem quiescence_scenario_witness :
    (run_idle (g_file_monitor_emit_event
        (g_file_monitor_emit_event g_file_monitor_init sample_file none .CHANGED 0).1
        sample_file none .CHANGED 800).1 3800).2.filter
        (fun e => e.signal.event_type == .CHANGES_DONE_HINT) =
      [⟨800 + 3000, ⟨some sample_file, none, .CHANGES_DONE_HINT⟩⟩] :=
  (quiescence_scenario
    (g_file_monitor_emit_event g_file_monitor_init sample_file none .CHANGED 0).1
    sample_file none 800 3799 3800 (by decide) (by decide)).2.1


theorem quiescence_invariant_init (W : Int) (F : GFile) :
    QuiescenceInvariant W F (g_file_monitor_set_rate_limit g_file_monitor_init W) 0 where
  window := rfl
  last_file := Or.inl rfl
  delayed := by simp [g_file_monitor_set_rate_limit, g_file_monitor_init]

theorem quiescence_invariant_mono (W : Int) (F : GFile) (m : GFileMonitorPrivate)
    (clock clock1 : Nat) (inv : QuiescenceInvariant W F m clock) (h : clock ≤ clock1) :
    QuiescenceInvariant W F m clock1 where
  window := inv.window
  last_file := inv.last_file
  delayed := fun d hd => ⟨by have := (inv.delayed d hd).1; omega, (inv.delayed d hd).2⟩

theorem quiescence_invariant_timer (W : Int) (F : GFile) (m : GFileMonitorPrivate)
    (clock : Nat) (inv : QuiescenceInvariant W F m clock) (a : Action)
    (ha : ∀ t f o k, a ≠ .feed t f o k) :
    QuiescenceInvariant W F (a.run m).1 clock := by
  cases a with
  | feed t f o k => exact absurd rfl (ha t f o k)
  | delayed_change_fires t =>
    simp only [Action.run, delayed_changed_event_timeout, send_delayed_change_now]
    cases hd : m.send_delayed_change_timeout with
    | none => exact inv
    | some d => exact ⟨inv.window, inv.last_file, by simp⟩
  | virtual_changes_done_fires t =>
    simp only [Action.run, virtual_changes_done_timeout, send_virtual_changes_done_now]
    cases hq : m.virtual_changes_done_timeout with
    | none => exact inv
    | some q => exact ⟨inv.window, inv.last_file, inv.delayed⟩

theorem next_timeout_is_timer (m : GFileMonitorPrivate) (T : Nat) (a : Action)
    (h : next_timeout m T = some a) : ∀ t f o k, a ≠ .feed t f o k := by
  intro t f o k hfeed
  subst hfeed
  unfold next_timeout at h
  split at h <;> (try split at h) <;> (try split at h) <;> simp at h

theorem quiescence_invariant_run_idle (W : Int) (F : GFile) (m : GFileMonitorPrivate)
    (clock : Nat) (inv : QuiescenceInvariant W F m clock) (T : Nat) :
    QuiescenceInvariant W F (run_idle m T).1 clock := by
  cases h1 : next_timeout m T with
  | none =>
    simp only [run_idle, idle_schedule, h1, run_actions]
    exact inv
  | some a =>
    have inv1 := quiescence_invariant_timer W F m clock inv a (next_timeout_is_timer m T a h1)
    cases h2 : next_timeout (a.run m).1 T with
    | none =>
      simp only [run_idle, idle_schedule, h1, h2, run_actions]
      exact inv1
    | some b =>
      have inv2 := quiescence_invariant_timer W F _ clock inv1 b
        (next_timeout_is_timer _ T b h2)
      simp only [run_idle, idle_schedule, h1, h2, run_actions]
      exact inv2

theorem quiescence_invariant_feed (W : Int) (hW0 : 0 ≤ W) (hW1 : W ≤ 2147483647) (F : GFile)
    (m : GFileMonitorPrivate) (clock : Nat) (inv : QuiescenceInvariant W F m clock)
    (t : Nat) (hclock : clock ≤ t) :
    QuiescenceInvariant W F (g_file_monitor_emit_event m F none .CHANGED t).1 t := by
  by_cases hlim : m.last_sent_change_file = none ∨
      ¬ time_difference m.last_sent_change_time t < to_guint32 m.rate_limit_msec
  · rw [emit_changed_now m F none t hlim]
    exact ⟨inv.window, Or.inr rfl, by simp⟩
  · have h1 : m.last_sent_change_file ≠ none := fun h => hlim (Or.inl h)
    have h2 : time_difference m.last_sent_change_time t < to_guint32 m.rate_limit_msec := by
      by_contra h
      exact hlim (Or.inr h)
    have hF : m.last_sent_change_file = some F := by
      rcases inv.last_file with h | h
      · exact absurd h h1
      · exact h
    rw [emit_changed_limited m F none t F hF h2]
    refine ⟨inv.window, Or.inr hF, ?_⟩
    intro d hd
    refine ⟨?_, hF⟩
    cases hd0 : m.send_delayed_change_timeout with
    | some d0 =>
      simp only [hd0, Option.getD_some, Option.some.injEq] at hd
      subst hd
      have := (inv.delayed d0 hd0).1
      omega
    | none =>
      simp only [hd0, Option.getD_none, Option.some.injEq] at hd
      subst hd
      rw [inv.window, to_guint32_of_nonneg W hW0 (by omega)] at h2 ⊢
      rw [delay_no_wrap _ _ h2 (by omega)]
      simp only [Timeout.due]
      omega

theorem quiescence_invariant_feeds (W : Int) (hW0 : 0 ≤ W) (hW1 : W ≤ 2147483647)
    (F : GFile) : ∀ (times : List Nat) (m : GFileMonitorPrivate) (clock clock1 : Nat),
      QuiescenceInvariant W F m clock → (∀ t ∈ times, clock ≤ t) → times.Pairwise (· ≤ ·) →
      clock ≤ clock1 → (∀ t ∈ times, t ≤ clock1) →
      QuiescenceInvariant W F (feed_changed_at F m times).1 clock1 := by
  intro times
  induction times with
  | nil =>
    intro m clock clock1 inv _ _ h _
    exact quiescence_invariant_mono W F m clock clock1 inv h
  | cons t ts ih =>
    intro m clock clock1 inv hge hsorted _ hle
    have inv1 := quiescence_invariant_run_idle W F m clock inv t
    have inv2 := quiescence_invariant_feed W hW0 hW1 F _ clock inv1 t
      (hge t (List.mem_cons_self _ _))
    have := ih (g_file_monitor_emit_event (run_idle m t).1 F none .CHANGED t).1 t clock1 inv2
      (fun t1 ht1 => List.rel_of_pairwise_cons hsorted ht1) hsorted.of_cons
      (hle t (List.mem_cons_self _ _)) (fun t1 ht1 => hle t1 (List.mem_cons_of_mem _ ht1))
    simpa [feed_changed_at] using this

theorem feed_changed_at_append (F : GFile) : ∀ (times : List Nat) (m : GFileMonitorPrivate)
    (t : Nat), (feed_changed_at F m (times ++ [t])).1 =
      (g_file_monitor_emit_event (run_idle (feed_changed_at F m times).1 t).1 F none
        .CHANGED t).1 := by
  intro times
  induction times with
  | nil =>
    intro m t
    simp [feed_changed_at]
  | cons t1 ts ih =>
    intro m t
    simp [feed_changed_at, ih]

/-- The idle main loop run to the end from a state in which the quiescence timeout is armed
and the delayed-change timeout, if armed, is due no later: the emissions end with the
hint, preceded by at most the delayed `changed` event. -/
theorem run_idle_terminal (m : GFileMonitorPrivate) (q : Timeout) (F : GFile)
    (hq : m.virtual_changes_done_timeout = some q)
    (hF : m.virtual_changes_done_file = some F)
    (hd : ∀ d, m.send_delayed_change_timeout = some d →
      d.due ≤ q.due ∧ m.last_sent_change_file = some F)
    (T : Nat) (hT : q.due ≤ T) :
    ∃ pre, (run_idle m T).2 = pre ++ [⟨q.due, ⟨some F, none, .CHANGES_DONE_HINT⟩⟩] ∧
      (∀ e ∈ pre, e.signal = ⟨some F, none, .CHANGED⟩) ∧
      (run_idle m T).1.send_delayed_change_timeout = none ∧
      (run_idle m T).1.virtual_changes_done_timeout = none := by
  cases hd0 : m.send_delayed_change_timeout with
  | none =>
    refine ⟨[], ?_⟩
    simp [run_idle, idle_schedule, next_timeout, hd0, hq, hF, hT, Action.run, run_actions,
      virtual_changes_done_timeout, send_virtual_changes_done_now, stamp, Action.time]
  | some d =>
    obtain ⟨h1, h2⟩ := hd d hd0
    have h3 : d.due ≤ T := le_trans h1 hT
    refine ⟨[⟨d.due, ⟨some F, none, .CHANGED⟩⟩], ?_⟩
    simp [run_idle, idle_schedule, next_timeout, hd0, hq, hF, hT, h1, h2, h3, Action.run,
      run_actions, virtual_changes_done_timeout, send_virtual_changes_done_now, stamp,
      Action.time, delayed_changed_event_timeout, send_delayed_change_now]

/-- C9 (as amended): for every rate-limit window from 0 to 3000 msecs and every sequence of
`Changed(F)` feeds at non-decreasing times, once the idle main loop has dispatched every
pending timeout after the last feed, the emissions since the last feed end with exactly
one `changes_done_hint(F)`, 3000 msecs after the last feed; before it there is at most
the delayed `changed(F)`, after it nothing, and no timeout is left armed. -/
theorem derived_hint_is_terminal (W : Int) (hW0 : 0 ≤ W) (hW1 : W ≤ 3000) (F : GFile)
    (times : List Nat) (t_last T : Nat) (hsorted : (times ++ [t_last]).Pairwise (· ≤ ·))
    (hT : t_last + 3000 ≤ T) :
    ∃ pre,
      (run_idle (feed_changed_at F (g_file_monitor_set_rate_limit g_file_monitor_init W)
        (times ++ [t_last])).1 T).2 =
          pre ++ [⟨t_last + 3000, ⟨some F, none, .CHANGES_DONE_HINT⟩⟩] ∧
      (∀ e ∈ pre, e.signal = ⟨some F, none, .CHANGED⟩) ∧
      (run_idle (feed_changed_at F (g_file_monitor_set_rate_limit g_file_monitor_init W)
        (times ++ [t_last])).1 T).1.send_delayed_change_timeout = none ∧
      (run_idle (feed_changed_at F (g_file_monitor_set_rate_limit g_file_monitor_init W)
        (times ++ [t_last])).1 T).1.virtual_changes_done_timeout = none := by
  rw [List.pairwise_append] at hsorted
  obtain ⟨hs1, _, hs3⟩ := hsorted
  have inv1 := quiescence_invariant_feeds W hW0 (by omega) F times _ 0 t_last
    (quiescence_invariant_init W F) (fun t _ => Nat.zero_le t) hs1 (Nat.zero_le _)
    (fun t ht => hs3 t ht t_last (List.mem_singleton_self _))
  have inv2 := quiescence_invariant_run_idle W F _ t_last inv1 t_last
  have inv3 := quiescence_invariant_feed W hW0 (by omega) F _ t_last inv2 t_last (le_refl _)
  obtain ⟨hq, hF⟩ := emit_changed_arms_quiescence
    (run_idle (feed_changed_at F (g_file_monitor_set_rate_limit g_file_monitor_init W)
      times).1 t_last).1 F none t_last
  rw [feed_changed_at_append]
  refine run_idle_terminal _ ⟨t_last, 3000⟩ F hq hF ?_ T hT
  intro d hd
  obtain ⟨h1, h2⟩ := inv3.delayed d hd
  refine ⟨?_, h2⟩
  simp only [Timeout.due] at h1 ⊢
  omega

/-- C9 at the default window 800 and the feeds at 0, 100 and 800. -/
theorem derived_hint_is_terminal_witness :
    ∃ pre,
      (run_idle (feed_changed_at sample_file
        (g_file_monitor_set_rate_limit g_file_monitor_init 800) ([0, 100] ++ [800])).1
        5000).2 = pre ++ [⟨800 + 3000, ⟨some sample_file, none, .CHANGES_DONE_HINT⟩⟩] ∧
      (∀ e ∈ pre, e.signal = ⟨some sample_file, none, .CHANGED⟩) ∧
      (run_idle (feed_changed_at sample_file
        (g_file_monitor_set_rate_limit g_file_monitor_init 800) ([0, 100] ++ [800])).1
        5000).1.send_delayed_change_timeout = none ∧
      (run_idle (feed_changed_at sample_file
        (g_file_monitor_set_rate_limit g_file_monitor_init 800) ([0, 100] ++ [800])).1
        5000).1.virtual_changes_done_timeout = none :=
  derived_hint_is_terminal 800 (by decide) (by decide) sample_file [0, 100] 800 5000
    (by decide) (by decide)

/-- C9 as stated fails: with the window set to 10000 msecs, after `Changed(F)` at 0 and at
100 the hint is emitted at 3100 and the delayed `changed(F)` after it, at 10000. -/
theorem changed_after_hint_with_long_window :
    (run_idle (feed_changed_at sample_file
      (g_file_monitor_set_rate_limit g_file_monitor_init 10000) [0, 100]).1 20000).2 =
      [⟨3100, ⟨some sample_file, none, .CHANGES_DONE_HINT⟩⟩,
        ⟨10000, ⟨some sample_file, none, .CHANGED⟩⟩] ∧
    (run_idle (feed_changed_at sample_file
      (g_file_monitor_set_rate_limit g_file_monitor_init 10000) [0, 100]).1
      20000).1.send_delayed_change_timeout = none ∧
    (run_idle (feed_changed_at sample_file
      (g_file_monitor_set_rate_limit g_file_monitor_init 10000) [0, 100]).1
      20000).1.virtual_changes_done_timeout = none := by
  decide


/-! ## Theorems: the explicit hint -/

theorem next_timeout_unarmed (m : GFileMonitorPrivate) (T : Nat)
    (hd : m.send_delayed_change_timeout = none)
    (hq : m.virtual_changes_done_timeout = none) : run_idle m T = (m, []) := by
  simp [run_idle, idle_schedule, next_timeout, hd, hq, run_actions]

/-- C11: an event of kind `changes_done_hint` fed in any state, in particular with the
quiescence timeout armed, emits after the flushed delayed change (if any) exactly one
`changes_done_hint`, the fed one with its file; the quiescence timeout is cancelled
without emitting, both timeouts are unarmed afterwards, and the idle main loop emits
nothing later: no derived hint for the earlier activity. -/
theorem explicit_hint_supersedes_derived (m : GFileMonitorPrivate) (file : GFile)
    (other_file : Option GFile) (now : Nat) :
    (g_file_monitor_emit_event m file other_file .CHANGES_DONE_HINT now).2 =
      (if m.send_delayed_change_timeout.isSome then
        [(⟨m.last_sent_change_file, none, .CHANGED⟩ : ChangedSignal)] else []) ++
      [⟨some file, other_file, .CHANGES_DONE_HINT⟩] ∧
    (g_file_monitor_emit_event m file other_file .CHANGES_DONE_HINT now).2.filter
        (fun s => s.event_type == .CHANGES_DONE_HINT) =
      [⟨some file, other_file, .CHANGES_DONE_HINT⟩] ∧
    (g_file_monitor_emit_event m file other_file .CHANGES_DONE_HINT
      now).1.virtual_changes_done_timeout = none ∧
    (g_file_monitor_emit_event m file other_file .CHANGES_DONE_HINT
      now).1.send_delayed_change_timeout = none ∧
    ∀ T, (run_idle (g_file_monitor_emit_event m file other_file .CHANGES_DONE_HINT now).1
      T).2 = [] := by
  have hstate :
      (g_file_monitor_emit_event m file other_file .CHANGES_DONE_HINT
        now).1.virtual_changes_done_timeout = none ∧
      (g_file_monitor_emit_event m file other_file .CHANGES_DONE_HINT
        now).1.send_delayed_change_timeout = none := by
    unfold g_file_monitor_emit_event
    rw [if_pos (by decide)]
    unfold send_delayed_change_now cancel_virtual_changes_done update_last_sent_change
    cases hd : m.send_delayed_change_timeout <;> cases hq : m.virtual_changes_done_timeout <;>
      simp [hd, hq]
  have hout :
      (g_file_monitor_emit_event m file other_file .CHANGES_DONE_HINT now).2 =
        (if m.send_delayed_change_timeout.isSome then
          [(⟨m.last_sent_change_file, none, .CHANGED⟩ : ChangedSignal)] else []) ++
        [⟨some file, other_file, .CHANGES_DONE_HINT⟩] := by
    unfold g_file_monitor_emit_event
    rw [if_pos (by decide)]
    unfold send_delayed_change_now cancel_virtual_changes_done update_last_sent_change
    cases hd : m.send_delayed_change_timeout <;> cases hq : m.virtual_changes_done_timeout <;>
      simp [hd, hq]
  refine ⟨hout, ?_, hstate.1, hstate.2, ?_⟩
  · rw [hout]
    cases m.send_delayed_change_timeout <;> simp
  · intro T
    rw [next_timeout_unarmed _ T hstate.2 hstate.1]


/-! ## Theorems: the loops of the passes on one registry -/

theorem erase_of_find {α : Type} [DecidableEq α] (p : α → Bool) :
    ∀ (l : List α) (x : α), l.find? p = some x → l.erase x = l.eraseP p := by
  intro l
  induction l with
  | nil => intro x h; simp at h
  | cons a l ih =>
    intro x h
    rw [List.find?_cons] at h
    cases hp : p a with
    | true =>
      rw [hp] at h
      simp only [Option.some.injEq] at h
      subst h
      simp [List.eraseP_cons, hp]
    | false =>
      rw [hp] at h
      have hne : a ≠ x := by
        intro hax
        have := List.find?_some h
        rw [← hax, hp] at this
        cases this
      rw [List.erase_cons_tail (by simpa using hne), List.eraseP_cons, hp, ih x h]
      simp

theorem update_drives_removed_eq (l : List HalDevice) :
    ∀ (m : GHalVolumeMonitor) (s : List VolumeMonitorSignal),
      update_drives_removed l (m, s) =
        ({ m with drives := (registry_remove drive_has_device l m.drives).1 },
          s ++ (registry_remove drive_has_device l m.drives).2.map
            VolumeMonitorSignal.drive_disconnected) := by
  induction l with
  | nil =>
    intro m s
    simp [update_drives_removed, registry_remove]
  | cons d l ih =>
    intro m s
    simp only [update_drives_removed, registry_remove, find_drive_by_udi]
    cases h : m.drives.find? (fun drive => g_hal_drive_has_udi drive
        (some (hal_device_get_udi d))) with
    | none =>
      have h2 : m.drives.find? (fun e => drive_has_device e d) = none := h
      rw [h2]
      exact ih m s
    | some drive =>
      have h2 : m.drives.find? (fun e => drive_has_device e d) = some drive := h
      rw [h2]
      simp only [g_list_remove]
      rw [ih, erase_of_find _ _ _ h2]
      simp


theorem update_drives_added_eq (c : Collaborators) (l : List HalDevice) :
    ∀ (m : GHalVolumeMonitor) (s : List VolumeMonitorSignal),
      update_drives_added c l (m, s) =
        ({ m with drives :=
            (registry_add_checked drive_has_device c.g_hal_drive_new l m.drives).1 },
          s ++ (registry_add_checked drive_has_device c.g_hal_drive_new l m.drives).2.map
            VolumeMonitorSignal.drive_connected) := by
  induction l with
  | nil =>
    intro m s
    simp [update_drives_added, registry_add_checked]
  | cons d l ih =>
    intro m s
    simp only [update_drives_added, registry_add_checked, find_drive_by_udi]
    cases h : m.drives.find? (fun drive => g_hal_drive_has_udi drive
        (some (hal_device_get_udi d))) with
    | some drive =>
      have h2 : m.drives.find? (fun e => drive_has_device e d) = some drive := h
      rw [h2]
      exact ih m s
    | none =>
      have h2 : m.drives.find? (fun e => drive_has_device e d) = none := h
      rw [h2]
      cases hnew : c.g_hal_drive_new d with
      | none => exact ih m s
      | some drive =>
        simp only []
        rw [ih]
        simp

theorem update_volumes_removed_eq (l : List HalDevice) :
    ∀ (m : GHalVolumeMonitor) (s : List VolumeMonitorSignal),
      update_volumes_removed l (m, s) =
        ({ m with
            volumes := (registry_remove volume_has_device l m.volumes).1
            mounts := unset_volumes (registry_remove volume_has_device l m.volumes).2 m.mounts
            disc_mounts :=
              unset_volumes (registry_remove volume_has_device l m.volumes).2 m.disc_mounts },
          s ++ (registry_remove volume_has_device l m.volumes).2.map
            VolumeMonitorSignal.volume_removed) := by
  induction l with
  | nil =>
    intro m s
    simp [update_volumes_removed, registry_remove, unset_volumes]
  | cons d l ih =>
    intro m s
    simp only [update_volumes_removed, registry_remove, find_volume_by_udi]
    cases h : m.volumes.find? (fun volume => g_hal_volume_has_udi volume
        (some (hal_device_get_udi d))) with
    | none =>
      have h2 : m.volumes.find? (fun e => volume_has_device e d) = none := h
      rw [h2]
      exact ih m s
    | some volume =>
      have h2 : m.volumes.find? (fun e => volume_has_device e d) = some volume := h
      rw [h2]
      simp only [g_list_remove, g_hal_volume_removed]
      rw [ih, erase_of_find _ _ _ h2]
      simp [unset_volumes]

theorem update_volumes_new_volume_congr (c : Collaborators) (m1 m2 : GHalVolumeMonitor)
    (h : m1.drives = m2.drives) :
    update_volumes_new_volume c m1 = update_volumes_new_volume c m2 := by
  funext d
  simp [update_volumes_new_volume, find_drive_by_udi, h]

theorem update_volumes_added_eq (c : Collaborators) (l : List HalDevice) :
    ∀ (m : GHalVolumeMonitor) (s : List VolumeMonitorSignal),
      update_volumes_added c l (m, s) =
        ({ m with volumes :=
            (registry_add_checked volume_has_device (update_volumes_new_volume c m) l
              m.volumes).1 },
          s ++ (registry_add_checked volume_has_device (update_volumes_new_volume c m) l
            m.volumes).2.map VolumeMonitorSignal.volume_added) := by
  induction l with
  | nil =>
    intro m s
    simp [update_volumes_added, registry_add_checked]
  | cons d l ih =>
    intro m s
    simp only [update_volumes_added, registry_add_checked, find_volume_by_udi]
    cases h : m.volumes.find? (fun volume => g_hal_volume_has_udi volume
        (some (hal_device_get_udi d))) with
    | some volume =>
      have h2 : m.volumes.find? (fun e => volume_has_device e d) = some volume := h
      rw [h2]
      exact ih m s
    | none =>
      have h2 : m.volumes.find? (fun e => volume_has_device e d) = none := h
      rw [h2]
      have h3 : c.g_hal_volume_new d (find_drive_by_udi m
          (hal_device_get_property_string d "block.storage_device")) =
          update_volumes_new_volume c m d := rfl
      simp only [h3]
      cases hnew : update_volumes_new_volume c m d with
      | none =>
        simp only []
        exact ih m s
      | some volume =>
        simp only []
        rw [ih, update_volumes_new_volume_congr c
          { m with volumes := volume :: m.volumes } m rfl]
        simp

theorem update_mounts_removed_eq (l : List GUnixMountEntry) :
    ∀ (m : GHalVolumeMonitor) (s : List VolumeMonitorSignal),
      update_mounts_removed l (m, s) =
        ({ m with mounts := (registry_remove mount_has_entry l m.mounts).1 },
          s ++ (registry_remove mount_has_entry l m.mounts).2.map
            (fun x => VolumeMonitorSignal.mount_removed (g_hal_mount_unmounted x))) := by
  induction l with
  | nil =>
    intro m s
    simp [update_mounts_removed, registry_remove]
  | cons e l ih =>
    intro m s
    simp only [update_mounts_removed, registry_remove, find_mount_by_mount_path]
    cases h : m.mounts.find? (fun mount => g_hal_mount_has_mount_path mount
        (g_unix_mount_get_mount_path e)) with
    | none =>
      have h2 : m.mounts.find? (fun x => mount_has_entry x e) = none := h
      rw [h2]
      exact ih m s
    | some mount =>
      have h2 : m.mounts.find? (fun x => mount_has_entry x e) = some mount := h
      rw [h2]
      simp only [g_list_remove]
      rw [ih, erase_of_find _ _ _ h2]
      simp

theorem update_mounts_new_mount_congr (c : Collaborators) (m1 m2 : GHalVolumeMonitor)
    (h : m1.volumes = m2.volumes) :
    update_mounts_new_mount c m1 = update_mounts_new_mount c m2 := by
  funext e
  simp [update_mounts_new_mount, g_hal_volume_monitor_lookup_volume_for_mount_path, h]

theorem update_mounts_added_eq (c : Collaborators) (l : List GUnixMountEntry) :
    ∀ (m : GHalVolumeMonitor) (s : List VolumeMonitorSignal),
      update_mounts_added c l (m, s) =
        ({ m with mounts := (l.filterMap (update_mounts_new_mount c m)).reverse ++ m.mounts },
          s ++ (l.filterMap (update_mounts_new_mount c m)).map
            VolumeMonitorSignal.mount_added) := by
  induction l with
  | nil =>
    intro m s
    simp [update_mounts_added]
  | cons e l ih =>
    intro m s
    simp only [update_mounts_added]
    have h3 : c.g_hal_mount_new e (g_hal_volume_monitor_lookup_volume_for_mount_path m
        (g_unix_mount_get_mount_path e)) = update_mounts_new_mount c m e := rfl
    simp only [h3]
    cases hnew : update_mounts_new_mount c m e with
    | none =>
      simp only []
      rw [ih, List.filterMap_cons_none hnew]
    | some mount =>
      simp only []
      rw [ih, update_mounts_new_mount_congr c { m with mounts := mount :: m.mounts } m rfl,
        List.filterMap_cons_some hnew]
      simp

theorem update_discs_new_pair_congr (c : Collaborators) (m1 m2 : GHalVolumeMonitor)
    (h : m1.drives = m2.drives) :
    update_discs_new_pair c m1 = update_discs_new_pair c m2 := by
  funext d
  simp [update_discs_new_pair, find_drive_by_udi, h]

theorem update_discs_added_eq (c : Collaborators) (l : List HalDevice) :
    ∀ (m : GHalVolumeMonitor) (s : List VolumeMonitorSignal),
      update_discs_added c l (m, s) =
        ({ m with
            disc_volumes :=
              ((l.filterMap (update_discs_new_pair c m)).map Prod.fst).reverse ++
                m.disc_volumes
            disc_mounts :=
              ((l.filterMap (update_discs_new_pair c m)).map Prod.snd).reverse ++
                m.disc_mounts },
          s ++ (l.filterMap (update_discs_new_pair c m)).flatMap
            (fun p => [VolumeMonitorSignal.volume_added p.1,
              VolumeMonitorSignal.mount_added p.2])) := by
  induction l with
  | nil =>
    intro m s
    simp [update_discs_added]
  | cons d l ih =>
    intro m s
    simp only [update_discs_added]
    cases hdrive : find_drive_by_udi m
        (hal_device_get_property_string d "block.storage_device") with
    | none =>
      have hp : update_discs_new_pair c m d = none := by
        simp [update_discs_new_pair, hdrive]
      simp only []
      rw [ih, List.filterMap_cons_none hp]
    | some drive =>
      simp only []
      cases hvol : c.g_hal_volume_new d (some drive) with
      | none =>
        have hp : update_discs_new_pair c m d = none := by
          simp [update_discs_new_pair, hdrive, hvol]
        simp only []
        rw [ih, List.filterMap_cons_none hp]
      | some volume =>
        simp only []
        cases hmount : update_discs_new_mount c d volume with
        | none =>
          have hp : update_discs_new_pair c m d = none := by
            simp [update_discs_new_pair, hdrive, hvol, hmount]
          simp only []
          rw [ih, List.filterMap_cons_none hp]
        | some mount =>
          have hp : update_discs_new_pair c m d = some (volume, mount) := by
            simp [update_discs_new_pair, hdrive, hvol, hmount]
          simp only []
          rw [ih, update_discs_new_pair_congr c
            { m with disc_volumes := volume :: m.disc_volumes,
                     disc_mounts := mount :: m.disc_mounts } m rfl,
            List.filterMap_cons_some hp]
          simp


theorem erase_p_of_find_none {α : Type} (p : α → Bool) (l : List α)
    (h : l.find? p = none) : l.eraseP p = l := by
  apply List.eraseP_of_forall_not
  intro a ha
  rw [List.find?_eq_none] at h
  exact h a ha

/-- One round of a removal loop, without the case split. -/
theorem registry_remove_cons {E S : Type} (has : E → S → Bool) (s : S) (l : List S)
    (reg : List E) :
    registry_remove has (s :: l) reg =
      ((registry_remove has l (reg.eraseP (fun e => has e s))).1,
        (reg.find? (fun e => has e s)).toList ++
          (registry_remove has l (reg.eraseP (fun e => has e s))).2) := by
  simp only [registry_remove]
  cases h : reg.find? (fun e => has e s) with
  | none => simp [erase_p_of_find_none _ _ h]
  | some e => simp

theorem registry_remove_map {E S : Type} (has : E → S → Bool) (f : E → E)
    (hf : ∀ e s, has (f e) s = has e s) :
    ∀ (l : List S) (reg : List E),
      registry_remove has l (reg.map f) =
        ((registry_remove has l reg).1.map f, (registry_remove has l reg).2.map f) := by
  intro l
  induction l with
  | nil => intro reg; simp [registry_remove]
  | cons s l ih =>
    intro reg
    have hcomp : ((fun e => has e s) ∘ f) = (fun e => has e s) := by
      funext e
      simp [hf]
    rw [registry_remove_cons, registry_remove_cons, List.eraseP_map, List.find?_map, hcomp, ih]
    cases reg.find? (fun e => has e s) <;> simp

theorem mount_has_device_unset (u : String) (m : GHalMount) (d : HalDevice) :
    mount_has_device (g_hal_mount_unset_volume u m) d = mount_has_device m d := by
  unfold g_hal_mount_unset_volume
  split <;> rfl

theorem mount_has_entry_unset (u : String) (m : GHalMount) (e : GUnixMountEntry) :
    mount_has_entry (g_hal_mount_unset_volume u m) e = mount_has_entry m e := by
  unfold g_hal_mount_unset_volume
  split <;> rfl

theorem g_hal_mount_unmounted_unset (u : String) (m : GHalMount) :
    g_hal_mount_unmounted (g_hal_mount_unset_volume u m) = g_hal_mount_unmounted m := by
  unfold g_hal_mount_unset_volume
  split <;> rfl

theorem update_discs_removed_signals_map (u : String) :
    ∀ (l : List HalDevice) (mounts : List GHalMount) (volumes : List GHalVolume),
      update_discs_removed_signals l (mounts.map (g_hal_mount_unset_volume u)) volumes =
        update_discs_removed_signals l mounts volumes := by
  intro l
  induction l with
  | nil => intro mounts volumes; rfl
  | cons d l ih =>
    intro mounts volumes
    have hcomp : ((fun m => mount_has_device m d) ∘ g_hal_mount_unset_volume u) =
        (fun m => mount_has_device m d) := by
      funext m
      simp [mount_has_device_unset]
    simp only [update_discs_removed_signals]
    rw [List.eraseP_map, List.find?_map, hcomp, ih]
    cases mounts.find? (fun m => mount_has_device m d) <;>
      simp [g_hal_mount_unmounted_unset]

theorem update_discs_removed_mount_eq (udi : String) (m : GHalVolumeMonitor)
    (s : List VolumeMonitorSignal) :
    update_discs_removed_mount udi (m, s) =
      ({ m with disc_mounts :=
          m.disc_mounts.eraseP (fun mount => g_hal_mount_has_udi mount (some udi)) },
        s ++ (m.disc_mounts.find? (fun mount => g_hal_mount_has_udi mount (some udi))).toList.map
          (fun x => VolumeMonitorSignal.mount_removed (g_hal_mount_unmounted x))) := by
  simp only [update_discs_removed_mount, find_disc_mount_by_udi]
  cases h : m.disc_mounts.find? (fun mount => g_hal_mount_has_udi mount (some udi)) with
  | none => simp [erase_p_of_find_none _ _ h]
  | some mount => simp [g_list_remove, erase_of_find _ _ _ h]

theorem update_discs_removed_volume_eq (udi : String) (m : GHalVolumeMonitor)
    (s : List VolumeMonitorSignal) :
    update_discs_removed_volume udi (m, s) =
      ({ m with
          disc_volumes :=
            m.disc_volumes.eraseP (fun volume => g_hal_volume_has_udi volume (some udi))
          mounts := unset_volumes (m.disc_volumes.find?
            (fun volume => g_hal_volume_has_udi volume (some udi))).toList m.mounts
          disc_mounts := unset_volumes (m.disc_volumes.find?
            (fun volume => g_hal_volume_has_udi volume (some udi))).toList m.disc_mounts },
        s ++ (m.disc_volumes.find?
          (fun volume => g_hal_volume_has_udi volume (some udi))).toList.map
            VolumeMonitorSignal.volume_removed) := by
  simp only [update_discs_removed_volume, find_disc_volume_by_udi]
  cases h : m.disc_volumes.find? (fun volume => g_hal_volume_has_udi volume (some udi)) with
  | none => simp [erase_p_of_find_none _ _ h, unset_volumes]
  | some volume =>
    simp [g_list_remove, erase_of_find _ _ _ h, unset_volumes, g_hal_volume_removed]

theorem unset_volumes_append (vs1 vs2 : List GHalVolume) (ms : List GHalMount) :
    unset_volumes (vs1 ++ vs2) ms = unset_volumes vs2 (unset_volumes vs1 ms) := by
  simp [unset_volumes, List.foldl_append]

theorem registry_remove_unset_volumes (vs : List GHalVolume) :
    ∀ (l : List HalDevice) (reg : List GHalMount),
      registry_remove mount_has_device l (unset_volumes vs reg) =
        (unset_volumes vs (registry_remove mount_has_device l reg).1,
          unset_volumes vs (registry_remove mount_has_device l reg).2) := by
  induction vs with
  | nil => intro l reg; simp [unset_volumes]
  | cons v vs ih =>
    intro l reg
    have h1 : ∀ ms, unset_volumes (v :: vs) ms =
        unset_volumes vs (ms.map (g_hal_mount_unset_volume v.udi)) := by
      intro ms
      simp [unset_volumes]
    rw [h1, ih, registry_remove_map mount_has_device (g_hal_mount_unset_volume v.udi)
      (mount_has_device_unset v.udi), h1, h1]

theorem update_discs_removed_signals_unset (vs : List GHalVolume) :
    ∀ (l : List HalDevice) (mounts : List GHalMount) (volumes : List GHalVolume),
      update_discs_removed_signals l (unset_volumes vs mounts) volumes =
        update_discs_removed_signals l mounts volumes := by
  induction vs with
  | nil => intro l mounts volumes; simp [unset_volumes]
  | cons v vs ih =>
    intro l mounts volumes
    have h1 : unset_volumes (v :: vs) mounts =
        unset_volumes vs (mounts.map (g_hal_mount_unset_volume v.udi)) := by
      simp [unset_volumes]
    rw [h1, ih, update_discs_removed_signals_map]

theorem update_discs_removed_eq (l : List HalDevice) :
    ∀ (m : GHalVolumeMonitor) (s : List VolumeMonitorSignal),
      update_discs_removed l (m, s) =
        ({ m with
            disc_volumes := (registry_remove volume_has_device l m.disc_volumes).1
            mounts :=
              unset_volumes (registry_remove volume_has_device l m.disc_volumes).2 m.mounts
            disc_mounts :=
              unset_volumes (registry_remove volume_has_device l m.disc_volumes).2
                (registry_remove mount_has_device l m.disc_mounts).1 },
          s ++ update_discs_removed_signals l m.disc_mounts m.disc_volumes) := by
  induction l with
  | nil =>
    intro m s
    simp [update_discs_removed, registry_remove, unset_volumes, update_discs_removed_signals]
  | cons d l ih =>
    intro m s
    simp only [update_discs_removed]
    rw [update_discs_removed_mount_eq, update_discs_removed_volume_eq, ih,
      registry_remove_cons volume_has_device, registry_remove_cons mount_has_device]
    simp only [update_discs_removed_signals]
    have hv : (fun volume => g_hal_volume_has_udi volume (some (hal_device_get_udi d))) =
        (fun v => volume_has_device v d) := rfl
    have hm : (fun mount => g_hal_mount_has_udi mount (some (hal_device_get_udi d))) =
        (fun x => mount_has_device x d) := rfl
    simp only [hv, hm, registry_remove_unset_volumes, update_discs_removed_signals_unset,
      unset_volumes_append, List.append_assoc]


theorem update_volumes_new_volume_frame (c : Collaborators) (m : GHalVolumeMonitor)
    (v : List GHalVolume) (ms dm : List GHalMount) :
    update_volumes_new_volume c { m with volumes := v, mounts := ms, disc_mounts := dm } =
      update_volumes_new_volume c m :=
  update_volumes_new_volume_congr c _ m rfl

theorem update_mounts_new_mount_frame (c : Collaborators) (m : GHalVolumeMonitor)
    (ms : List GHalMount) :
    update_mounts_new_mount c { m with mounts := ms } = update_mounts_new_mount c m :=
  update_mounts_new_mount_congr c _ m rfl

theorem update_discs_new_pair_frame (c : Collaborators) (m : GHalVolumeMonitor)
    (v : List GHalVolume) (ms dm : List GHalMount) :
    update_discs_new_pair c { m with disc_volumes := v, mounts := ms, disc_mounts := dm } =
      update_discs_new_pair c m :=
  update_discs_new_pair_congr c _ m rfl

theorem update_drives_eq (c : Collaborators) (src : Snapshot) (m : GHalVolumeMonitor)
    (s : List VolumeMonitorSignal) :
    update_drives c src (m, s) =
      ({ m with
          drives := (registry_add_checked drive_has_device c.g_hal_drive_new
            (update_drives_diff src m).added
            (registry_remove drive_has_device (update_drives_diff src m).removed m.drives).1).1
          last_drive_devices :=
            g_list_sort (src.hal_pool_find_by_capability "storage") hal_device_compare },
        s ++ ((registry_remove drive_has_device (update_drives_diff src m).removed
            m.drives).2.map VolumeMonitorSignal.drive_disconnected ++
          (registry_add_checked drive_has_device c.g_hal_drive_new
            (update_drives_diff src m).added
            (registry_remove drive_has_device (update_drives_diff src m).removed
              m.drives).1).2.map VolumeMonitorSignal.drive_connected)) := by
  simp only [update_drives, update_drives_removed_eq, update_drives_added_eq,
    update_drives_diff, List.append_assoc]

theorem update_volumes_eq (c : Collaborators) (src : Snapshot) (m : GHalVolumeMonitor)
    (s : List VolumeMonitorSignal) :
    update_volumes c src (m, s) =
      ({ m with
          volumes := (registry_add_checked volume_has_device (update_volumes_new_volume c m)
            (update_volumes_diff c src m).added
            (registry_remove volume_has_device (update_volumes_diff c src m).removed
              m.volumes).1).1
          mounts := unset_volumes (registry_remove volume_has_device
            (update_volumes_diff c src m).removed m.volumes).2 m.mounts
          disc_mounts := unset_volumes (registry_remove volume_has_device
            (update_volumes_diff c src m).removed m.volumes).2 m.disc_mounts
          last_volume_devices := update_volumes_new_volume_devices c src },
        s ++ ((registry_remove volume_has_device (update_volumes_diff c src m).removed
            m.volumes).2.map VolumeMonitorSignal.volume_removed ++
          (registry_add_checked volume_has_device (update_volumes_new_volume c m)
            (update_volumes_diff c src m).added
            (registry_remove volume_has_device (update_volumes_diff c src m).removed
              m.volumes).1).2.map VolumeMonitorSignal.volume_added)) := by
  simp only [update_volumes, update_volumes_removed_eq, update_volumes_added_eq,
    update_volumes_diff, List.append_assoc, update_volumes_new_volume_frame]

theorem update_mounts_eq (c : Collaborators) (src : Snapshot) (m : GHalVolumeMonitor)
    (s : List VolumeMonitorSignal) :
    update_mounts c src (m, s) =
      ({ m with
          mounts := ((update_mounts_diff c src m).added.filterMap
              (update_mounts_new_mount c m)).reverse ++
            (registry_remove mount_has_entry (update_mounts_diff c src m).removed m.mounts).1
          last_mounts := g_list_sort src.g_unix_mounts_get c.g_unix_mount_compare },
        s ++ ((registry_remove mount_has_entry (update_mounts_diff c src m).removed
            m.mounts).2.map
              (fun x => VolumeMonitorSignal.mount_removed (g_hal_mount_unmounted x)) ++
          ((update_mounts_diff c src m).added.filterMap (update_mounts_new_mount c m)).map
            VolumeMonitorSignal.mount_added)) := by
  simp only [update_mounts, update_mounts_removed_eq, update_mounts_added_eq,
    update_mounts_diff, List.append_assoc, update_mounts_new_mount_frame]

theorem update_discs_eq (c : Collaborators) (src : Snapshot) (m : GHalVolumeMonitor)
    (s : List VolumeMonitorSignal) :
    update_discs c src (m, s) =
      ({ m with
          disc_volumes :=
            (((update_discs_diff src m).added.filterMap (update_discs_new_pair c m)).map
              Prod.fst).reverse ++
            (registry_remove volume_has_device (update_discs_diff src m).removed
              m.disc_volumes).1
          mounts := unset_volumes (registry_remove volume_has_device
            (update_discs_diff src m).removed m.disc_volumes).2 m.mounts
          disc_mounts :=
            (((update_discs_diff src m).added.filterMap (update_discs_new_pair c m)).map
              Prod.snd).reverse ++
            unset_volumes (registry_remove volume_has_device
              (update_discs_diff src m).removed m.disc_volumes).2
              (registry_remove mount_has_device (update_discs_diff src m).removed
                m.disc_mounts).1
          last_optical_disc_devices := update_discs_new_optical_disc_devices src },
        s ++ (update_discs_removed_signals (update_discs_diff src m).removed m.disc_mounts
            m.disc_volumes ++
          ((update_discs_diff src m).added.filterMap (update_discs_new_pair c m)).flatMap
            (fun p => [VolumeMonitorSignal.volume_added p.1,
              VolumeMonitorSignal.mount_added p.2]))) := by
  simp only [update_discs, update_discs_removed_eq, update_discs_added_eq,
    update_discs_diff, List.append_assoc, update_discs_new_pair_frame]

theorem update_discs_removed_signals_kinds :
    ∀ (l : List HalDevice) (mounts : List GHalMount) (volumes : List GHalVolume),
      ∀ x ∈ update_discs_removed_signals l mounts volumes,
        x.is_removal = true ∧ (x.is_mount = true ∨ x.is_volume = true) := by
  intro l
  induction l with
  | nil => intro mounts volumes x hx; simp [update_discs_removed_signals] at hx
  | cons d l ih =>
    intro mounts volumes x hx
    simp only [update_discs_removed_signals, List.mem_append, List.mem_map,
      Option.mem_toList] at hx
    rcases hx with (⟨m, _, rfl⟩ | ⟨v, _, rfl⟩) | hx
    · exact ⟨rfl, Or.inl rfl⟩
    · exact ⟨rfl, Or.inr rfl⟩
    · exact ih _ _ x hx

/-- C12: the signals of one `g_hal_volume_monitor_force_update` are the signals of the
drives pass, then of the volumes pass, then of the mounts pass, then of the discs pass,
each pass run on the state the pass before left; and the signals of each pass are its
removal signals (`drive_disconnected`, `volume_removed`, `mount_removed`; for the discs
pass `mount_removed` and `volume_removed`) followed by its addition signals. -/
theorem force_update_signal_order (c : Collaborators) (src : Snapshot)
    (monitor : GHalVolumeMonitor) :
    ∃ r1 a1 r2 a2 r3 a3 r4 a4 : List VolumeMonitorSignal,
      (g_hal_volume_monitor_force_update c src monitor).2 =
        (r1 ++ a1) ++ (r2 ++ a2) ++ (r3 ++ a3) ++ (r4 ++ a4) ∧
      (update_drives c src (monitor, [])).2 = r1 ++ a1 ∧
      (update_volumes c src ((update_drives c src (monitor, [])).1, [])).2 = r2 ++ a2 ∧
      (update_mounts c src ((update_volumes c src ((update_drives c src
        (monitor, [])).1, [])).1, [])).2 = r3 ++ a3 ∧
      (update_discs c src ((update_mounts c src ((update_volumes c src ((update_drives c src
        (monitor, [])).1, [])).1, [])).1, [])).2 = r4 ++ a4 ∧
      (∀ x ∈ r1, x.is_removal = true ∧ x.is_drive = true) ∧
      (∀ x ∈ a1, x.is_addition = true ∧ x.is_drive = true) ∧
      (∀ x ∈ r2, x.is_removal = true ∧ x.is_volume = true) ∧
      (∀ x ∈ a2, x.is_addition = true ∧ x.is_volume = true) ∧
      (∀ x ∈ r3, x.is_removal = true ∧ x.is_mount = true) ∧
      (∀ x ∈ a3, x.is_addition = true ∧ x.is_mount = true) ∧
      (∀ x ∈ r4, x.is_removal = true ∧ (x.is_mount = true ∨ x.is_volume = true)) ∧
      (∀ x ∈ a4, x.is_addition = true ∧ (x.is_mount = true ∨ x.is_volume = true)) := by
  simp only [g_hal_volume_monitor_force_update, update_drives_eq, update_volumes_eq,
    update_mounts_eq, update_discs_eq, List.nil_append]
  refine ⟨_, _, _, _, _, _, _, _, ?_, rfl, rfl, rfl, rfl, ?_, ?_, ?_, ?_, ?_, ?_, ?_, ?_⟩
  · simp only [List.append_assoc]
  · intro x hx
    simp only [List.mem_map] at hx
    obtain ⟨_, _, rfl⟩ := hx
    exact ⟨rfl, rfl⟩
  · intro x hx
    simp only [List.mem_map] at hx
    obtain ⟨_, _, rfl⟩ := hx
    exact ⟨rfl, rfl⟩
  · intro x hx
    simp only [List.mem_map] at hx
    obtain ⟨_, _, rfl⟩ := hx
    exact ⟨rfl, rfl⟩
  · intro x hx
    simp only [List.mem_map] at hx
    obtain ⟨_, _, rfl⟩ := hx
    exact ⟨rfl, rfl⟩
  · intro x hx
    simp only [List.mem_map] at hx
    obtain ⟨_, _, rfl⟩ := hx
    exact ⟨rfl, rfl⟩
  · intro x hx
    simp only [List.mem_map] at hx
    obtain ⟨_, _, rfl⟩ := hx
    exact ⟨rfl, rfl⟩
  · exact update_discs_removed_signals_kinds _ _ _
  · intro x hx
    simp only [List.mem_flatMap, List.mem_cons, List.mem_singleton, List.not_mem_nil,
      or_false] at hx
    obtain ⟨p, _, rfl | rfl⟩ := hx
    · exact ⟨rfl, Or.inr rfl⟩
    · exact ⟨rfl, Or.inl rfl⟩


/-! ## Theorems: failed constructions, the re-check, disc rounds and the diff order -/

theorem diff_sorted_lists_added_not_old {α : Type} {compare : α → α → Int}
    (h : IsTotalOrderCompare compare) (old new : List α)
    (hold : StrictlySorted compare old) (hnew : StrictlySorted compare new)
    (d : α) (hd : d ∈ old) : d ∉ (diff_sorted_lists compare old new).added := by
  intro hmem
  unfold diff_sorted_lists at hmem
  rw [diff_sorted_lists_loop_sorted h old new hold hnew] at hmem
  simp only [List.append_nil, List.mem_reverse, List.mem_filter, List.all_eq_true,
    bne_iff_ne, ne_eq] at hmem
  exact hmem.2 d hd (h.refl d)

theorem update_drives_added_null (c : Collaborators) (d : HalDevice) (l : List HalDevice)
    (monitor : GHalVolumeMonitor) (signals : List VolumeMonitorSignal)
    (h : c.g_hal_drive_new d = none) :
    update_drives_added c (d :: l) (monitor, signals) =
      update_drives_added c l (monitor, signals) := by
  simp only [update_drives_added, h]
  cases find_drive_by_udi monitor (some (hal_device_get_udi d)) <;> rfl

theorem update_volumes_added_null (c : Collaborators) (d : HalDevice) (l : List HalDevice)
    (monitor : GHalVolumeMonitor) (signals : List VolumeMonitorSignal)
    (h : c.g_hal_volume_new d (find_drive_by_udi monitor
      (hal_device_get_property_string d "block.storage_device")) = none) :
    update_volumes_added c (d :: l) (monitor, signals) =
      update_volumes_added c l (monitor, signals) := by
  simp only [update_volumes_added, h]
  cases find_volume_by_udi monitor (some (hal_device_get_udi d)) <;> rfl

theorem update_mounts_added_null (c : Collaborators) (e : GUnixMountEntry)
    (l : List GUnixMountEntry) (monitor : GHalVolumeMonitor)
    (signals : List VolumeMonitorSignal)
    (h : c.g_hal_mount_new e (g_hal_volume_monitor_lookup_volume_for_mount_path monitor
      (g_unix_mount_get_mount_path e)) = none) :
    update_mounts_added c (e :: l) (monitor, signals) =
      update_mounts_added c l (monitor, signals) := by
  simp only [update_mounts_added, h]

theorem sample_mount_order : IsTotalOrderCompare sample_collaborators.g_unix_mount_compare :=
  ⟨fun _ _ => strcmp_chars_swap _ _, fun _ _ _ => strcmp_chars_le_trans _ _ _⟩

/-- C13, as the claim states it, fails: the three constructors return NULL for every
snapshot during a first full update from the initial monitor, so the registries stay empty
and nothing is emitted; in the next full update the source returns the same snapshots and
the constructors would succeed (from the initial monitor they yield a Drive, a Volume and
a Mount), yet the registries stay empty and nothing is emitted: no construction is
attempted again. -/
theorem construction_failure_is_not_retried :
    g_hal_volume_monitor_force_update sample_failing_collaborators sample_snapshot
        g_hal_volume_monitor_init =
      ({ g_hal_volume_monitor_init with
          last_drive_devices := [⟨"/hal/drive0", [], []⟩]
          last_volume_devices := [sample_ignored_without_fsusage]
          last_mounts := [⟨"/media/disk", "/dev/sdb1", "vfat", false⟩] }, []) ∧
    g_hal_volume_monitor_force_update sample_collaborators sample_snapshot
        (g_hal_volume_monitor_force_update sample_failing_collaborators sample_snapshot
          g_hal_volume_monitor_init).1 =
      ((g_hal_volume_monitor_force_update sample_failing_collaborators sample_snapshot
          g_hal_volume_monitor_init).1, []) ∧
    (g_hal_volume_monitor_force_update sample_collaborators sample_snapshot
        g_hal_volume_monitor_init).2 =
      [VolumeMonitorSignal.drive_connected ⟨"/hal/drive0"⟩,
        VolumeMonitorSignal.volume_added ⟨"/hal/vol0", none⟩,
        VolumeMonitorSignal.mount_added ⟨some "/media/disk", none, none⟩] := by
  decide

/-- C13, amended: when the constructor (`g_hal_drive_new`, `g_hal_volume_new`,
`g_hal_mount_new`) returns NULL for a snapshot of the diff's added list, that round of the
addition loop leaves the monitor and the emitted signals as they were. The pass stores the
fetched list as last snapshot all the same: in the next pass a snapshot of the list
fetched before is not in the diff's added list (the fetched lists having no two snapshots
of one identity), and when the source returns the same list again the pass changes nothing
and emits nothing, whatever the constructors would return now. -/
theorem construction_failure_skipped_not_retried (c1 c2 : Collaborators)
    (src1 src2 : Snapshot) (st : Emitting)
    (hcmp : IsTotalOrderCompare c1.g_unix_mount_compare)
    (hcompare : c2.g_unix_mount_compare = c1.g_unix_mount_compare)
    (hinternal : c2.g_unix_is_mount_path_system_internal =
      c1.g_unix_is_mount_path_system_internal) :
    (∀ d l monitor signals, c1.g_hal_drive_new d = none →
      update_drives_added c1 (d :: l) (monitor, signals) =
        update_drives_added c1 l (monitor, signals)) ∧
    (∀ d l monitor signals,
      c1.g_hal_volume_new d (find_drive_by_udi monitor
        (hal_device_get_property_string d "block.storage_device")) = none →
      update_volumes_added c1 (d :: l) (monitor, signals) =
        update_volumes_added c1 l (monitor, signals)) ∧
    (∀ e l monitor signals,
      c1.g_hal_mount_new e (g_hal_volume_monitor_lookup_volume_for_mount_path monitor
        (g_unix_mount_get_mount_path e)) = none →
      update_mounts_added c1 (e :: l) (monitor, signals) =
        update_mounts_added c1 l (monitor, signals)) ∧
    (∀ d ∈ src1.hal_pool_find_by_capability "storage",
      StrictlySorted hal_device_compare
        (g_list_sort (src1.hal_pool_find_by_capability "storage") hal_device_compare) →
      StrictlySorted hal_device_compare
        (g_list_sort (src2.hal_pool_find_by_capability "storage") hal_device_compare) →
      d ∉ (update_drives_diff src2 (update_drives c1 src1 st).1).added) ∧
    (∀ d ∈ update_volumes_new_volume_devices c1 src1,
      StrictlySorted hal_device_compare (update_volumes_new_volume_devices c1 src1) →
      StrictlySorted hal_device_compare (update_volumes_new_volume_devices c2 src2) →
      d ∉ (update_volumes_diff c2 src2 (update_volumes c1 src1 st).1).added) ∧
    (∀ e ∈ src1.g_unix_mounts_get,
      StrictlySorted c1.g_unix_mount_compare
        (g_list_sort src1.g_unix_mounts_get c1.g_unix_mount_compare) →
      StrictlySorted c1.g_unix_mount_compare
        (g_list_sort src2.g_unix_mounts_get c1.g_unix_mount_compare) →
      e ∉ (update_mounts_diff c2 src2 (update_mounts c1 src1 st).1).added) ∧
    update_drives c2 src1 (update_drives c1 src1 st) = update_drives c1 src1 st ∧
    update_volumes c2 src1 (update_volumes c1 src1 st) = update_volumes c1 src1 st ∧
    update_mounts c2 src1 (update_mounts c1 src1 st) = update_mounts c1 src1 st := by
  have hv : update_volumes_new_volume_devices c2 src1 =
      update_volumes_new_volume_devices c1 src1 := by
    simp only [update_volumes_new_volume_devices, hinternal]
  refine ⟨fun d l monitor signals h => update_drives_added_null c1 d l monitor signals h,
    fun d l monitor signals h => update_volumes_added_null c1 d l monitor signals h,
    fun e l monitor signals h => update_mounts_added_null c1 e l monitor signals h,
    ?_, ?_, ?_, ?_, ?_, ?_⟩
  · intro d hd h1 h2
    unfold update_drives_diff
    rw [(update_drives_last c1 src1 st).2.1]
    exact diff_sorted_lists_added_not_old hal_device_compare_total_order _ _ h1 h2 d
      ((mem_g_list_sort _ _ _).2 hd)
  · intro d hd h1 h2
    unfold update_volumes_diff
    rw [(update_volumes_last c1 src1 st).2.2.1]
    exact diff_sorted_lists_added_not_old hal_device_compare_total_order _ _ h1 h2 d hd
  · intro e he h1 h2
    unfold update_mounts_diff
    rw [(update_mounts_last c1 src1 st).2.2.2, hcompare]
    exact diff_sorted_lists_added_not_old hcmp _ _ h1 h2 e ((mem_g_list_sort _ _ _).2 he)
  · exact update_drives_unchanged c2 src1 _ (update_drives_last c1 src1 st).2.1
  · exact update_volumes_unchanged c2 src1 _
      (by rw [(update_volumes_last c1 src1 st).2.2.1, hv])
  · exact update_mounts_unchanged c2 src1 _ (by rw [hcompare]; exact hcmp.refl)
      (by rw [(update_mounts_last c1 src1 st).2.2.2, hcompare])

/-- C13 amended, at the sample snapshot: after a drives pass whose constructors fail, a
drives pass of constructors that succeed changes nothing. -/
theorem construction_failure_skipped_not_retried_witness :
    update_drives sample_collaborators sample_snapshot
        (update_drives sample_failing_collaborators sample_snapshot
          (g_hal_volume_monitor_init, [])) =
      update_drives sample_failing_collaborators sample_snapshot
        (g_hal_volume_monitor_init, []) :=
  (construction_failure_skipped_not_retried sample_failing_collaborators
    sample_collaborators sample_snapshot sample_snapshot (g_hal_volume_monitor_init, [])
    sample_mount_order rfl rfl).2.2.2.2.2.2.1

/-- C14: the addition loop of `update_mounts` has no re-check. From the initial monitor,
with a mount table in which `/mnt` is mounted over, the full update constructs two Mounts
with the mount path `/mnt`, emits `mount_added` for both, and leaves both in the `mounts`
registry. The addition loop of `update_drives`, given one device twice, constructs one
Drive. -/
theorem update_mounts_adds_without_recheck :
    g_hal_volume_monitor_force_update
        { sample_collaborators with g_unix_mount_compare := sample_mount_compare }
        sample_overmounted_snapshot g_hal_volume_monitor_init =
      ({ g_hal_volume_monitor_init with
          last_drive_devices := [⟨"/hal/drive0", [], []⟩]
          last_mounts :=
            [⟨"/mnt", "/dev/sda1", "ext3", false⟩, ⟨"/mnt", "/dev/sdb1", "vfat", false⟩]
          drives := [⟨"/hal/drive0"⟩]
          mounts := [⟨some "/mnt", none, none⟩, ⟨some "/mnt", none, none⟩] },
        [VolumeMonitorSignal.drive_connected ⟨"/hal/drive0"⟩,
          VolumeMonitorSignal.mount_added ⟨some "/mnt", none, none⟩,
          VolumeMonitorSignal.mount_added ⟨some "/mnt", none, none⟩]) ∧
    update_drives_added sample_collaborators
        [⟨"/hal/drive0", [], []⟩, ⟨"/hal/drive0", [], []⟩] (g_hal_volume_monitor_init, []) =
      ({ g_hal_volume_monitor_init with drives := [⟨"/hal/drive0"⟩] },
        [VolumeMonitorSignal.drive_connected ⟨"/hal/drive0"⟩]) := by
  decide

/-- C17: in the addition loop of `update_discs`, when for the device `d` the parent Drive
(looked up by `block.storage_device`) is not live, or `g_hal_volume_new` returns NULL, or
the Mount construction returns NULL, the round of `d` changes nothing: the loop goes on
from the same monitor (so the same `disc_volumes` and `disc_mounts`) and the same emitted
signals as before `d`. -/
theorem disc_addition_all_or_nothing (c : Collaborators) (d : HalDevice)
    (l : List HalDevice) (monitor : GHalVolumeMonitor) (signals : List VolumeMonitorSignal)
    (h : find_drive_by_udi monitor
          (hal_device_get_property_string d "block.storage_device") = none ∨
        (∀ drive, find_drive_by_udi monitor
            (hal_device_get_property_string d "block.storage_device") = some drive →
          c.g_hal_volume_new d (some drive) = none) ∨
        (∀ drive volume, find_drive_by_udi monitor
            (hal_device_get_property_string d "block.storage_device") = some drive →
          c.g_hal_volume_new d (some drive) = some volume →
          update_discs_new_mount c d volume = none)) :
    update_discs_added c (d :: l) (monitor, signals) =
        update_discs_added c l (monitor, signals) ∧
      update_discs_added c [d] (monitor, signals) = (monitor, signals) := by
  have key : ∀ l, update_discs_added c (d :: l) (monitor, signals) =
      update_discs_added c l (monitor, signals) := by
    intro l
    simp only [update_discs_added]
    cases hf : find_drive_by_udi monitor
        (hal_device_get_property_string d "block.storage_device") with
    | none => rfl
    | some drive =>
      dsimp only
      cases hv : c.g_hal_volume_new d (some drive) with
      | none => rfl
      | some volume =>
        dsimp only
        have hm : update_discs_new_mount c d volume = none := by
          rcases h with h | h | h
          · rw [hf] at h; cases h
          · have h2 := h drive hf
            rw [hv] at h2
            cases h2
          · exact h drive volume hf hv
        rw [hm]
  exact ⟨key l, by rw [key []]; rfl⟩

/-- C17 at a disc whose parent Drive is live while the Mount construction fails. -/
theorem disc_addition_all_or_nothing_witness :
    update_discs_added
        { sample_collaborators with g_hal_mount_new_for_hal_device := fun _ _ _ _ _ _ => none }
        [⟨"/hal/disc0", [("block.storage_device", "/hal/drive0")],
          [("volume.disc.is_blank", true)]⟩]
        ({ g_hal_volume_monitor_init with drives := [⟨"/hal/drive0"⟩] }, []) =
      ({ g_hal_volume_monitor_init with drives := [⟨"/hal/drive0"⟩] }, []) :=
  (disc_addition_all_or_nothing
    { sample_collaborators with g_hal_mount_new_for_hal_device := fun _ _ _ _ _ _ => none }
    ⟨"/hal/disc0", [("block.storage_device", "/hal/drive0")],
      [("volume.disc.is_blank", true)]⟩ []
    { g_hal_volume_monitor_init with drives := [⟨"/hal/drive0"⟩] } []
    (Or.inr (Or.inr (fun _ _ _ _ => rfl)))).2

/-- Along the scan, what is put in front of the accumulators is, read backwards, a
subsequence of the list it is taken from. -/
theorem diff_sorted_lists_loop_sublist {α : Type} (compare : α → α → Int) :
    ∀ (l1 l2 A0 R0 : List α), ∃ sa sr : List α,
      (diff_sorted_lists_loop compare l1 l2 A0 R0).added = sa ++ A0 ∧
      sa.reverse.Sublist l2 ∧
      (diff_sorted_lists_loop compare l1 l2 A0 R0).removed = sr ++ R0 ∧
      sr.reverse.Sublist l1 := by
  apply diff_scan_induction compare
  · intro l2 A0 R0
    rw [diff_sorted_lists_loop_nil_left]
    exact ⟨l2.reverse, [], rfl, by rw [List.reverse_reverse], rfl, List.Sublist.slnil⟩
  · intro l1 A0 R0
    rw [diff_sorted_lists_loop_nil_right]
    exact ⟨[], l1.reverse, rfl, List.nil_sublist _, rfl, by rw [List.reverse_reverse]⟩
  · intro a l1 b l2 hab ih A0 R0
    rw [diff_sorted_lists_loop_cons_cons, if_pos hab]
    obtain ⟨sa, sr, h1, h2, h3, h4⟩ := ih A0 (a :: R0)
    refine ⟨sa, sr ++ [a], h1, h2, ?_, ?_⟩
    · rw [h3, List.append_assoc, List.singleton_append]
    · rw [List.reverse_append, List.reverse_singleton, List.singleton_append]
      exact List.Sublist.cons₂ a h4
  · intro a l1 b l2 h1 h2 ih A0 R0
    rw [diff_sorted_lists_loop_cons_cons, if_neg h1, if_pos h2]
    obtain ⟨sa, sr, h3, h4, h5, h6⟩ := ih (b :: A0) R0
    refine ⟨sa ++ [b], sr, ?_, ?_, h5, h6⟩
    · rw [h3, List.append_assoc, List.singleton_append]
    · rw [List.reverse_append, List.reverse_singleton, List.singleton_append]
      exact List.Sublist.cons₂ b h4
  · intro a l1 b l2 hab ih A0 R0
    have h1 : ¬ compare a b < 0 := by omega
    have h2 : ¬ compare a b > 0 := by omega
    rw [diff_sorted_lists_loop_cons_cons, if_neg h1, if_neg h2]
    obtain ⟨sa, sr, h3, h4, h5, h6⟩ := ih A0 R0
    exact ⟨sa, sr, h3, List.Sublist.cons b h4, h5, List.Sublist.cons a h6⟩

/-- C20: for every comparator and every old and new list, so for all sorted inputs, with
or without elements that compare equal, `added` read backwards is a subsequence of the new
list and `removed` read backwards is a subsequence of the old list: the elements of
`added` stand in `added` in the reverse of the order of the places they have in the new
list (a strictly increasing map of places), and likewise `removed` in the old list. For
every list, the diff against the empty new list removes the whole list in reverse and
adds nothing, and the diff of the empty old list adds the whole list in reverse and
removes nothing. When moreover both lists are strictly sorted under a total-order
comparator, `added` is the reverse of the new list restricted to the elements without a
compare-equal old element, and `removed` the reverse of the old list restricted to the
elements without a compare-equal new element. -/
theorem diff_sorted_lists_output_order {α : Type} (compare : α → α → Int)
    (old new : List α) :
    (diff_sorted_lists compare old new).added.reverse.Sublist new ∧
    (diff_sorted_lists compare old new).removed.reverse.Sublist old ∧
    (∃ f : Fin (diff_sorted_lists compare old new).added.reverse.length ↪o
        Fin new.length,
      ∀ i, (diff_sorted_lists compare old new).added.reverse.get i = new.get (f i)) ∧
    (∃ f : Fin (diff_sorted_lists compare old new).removed.reverse.length ↪o
        Fin old.length,
      ∀ i, (diff_sorted_lists compare old new).removed.reverse.get i = old.get (f i)) ∧
    (∀ l : List α, diff_sorted_lists compare l [] = ⟨[], l.reverse⟩) ∧
    (∀ l : List α, diff_sorted_lists compare [] l = ⟨l.reverse, []⟩) ∧
    (IsTotalOrderCompare compare → StrictlySorted compare old →
      StrictlySorted compare new →
      (diff_sorted_lists compare old new).added =
          (new.filter (fun b => old.all (fun a => compare a b != 0))).reverse ∧
      (diff_sorted_lists compare old new).removed =
          (old.filter (fun a => new.all (fun b => compare a b != 0))).reverse) := by
  obtain ⟨sa, sr, h1, h2, h3, h4⟩ := diff_sorted_lists_loop_sublist compare old new [] []
  rw [List.append_nil] at h1 h3
  have ha : (diff_sorted_lists compare old new).added.reverse.Sublist new := by
    unfold diff_sorted_lists
    rw [h1]
    exact h2
  have hr : (diff_sorted_lists compare old new).removed.reverse.Sublist old := by
    unfold diff_sorted_lists
    rw [h3]
    exact h4
  refine ⟨ha, hr, List.sublist_iff_exists_fin_orderEmbedding_get_eq.1 ha,
    List.sublist_iff_exists_fin_orderEmbedding_get_eq.1 hr, ?_, ?_, ?_⟩
  · intro l
    unfold diff_sorted_lists
    rw [diff_sorted_lists_loop_nil_right, List.append_nil]
  · intro l
    unfold diff_sorted_lists
    rw [diff_sorted_lists_loop_nil_left, List.append_nil]
  · intro h hold hnew
    constructor
    · unfold diff_sorted_lists
      rw [diff_sorted_lists_loop_sorted h old new hold hnew]
      exact List.append_nil _
    · unfold diff_sorted_lists
      rw [diff_sorted_lists_loop_sorted h old new hold hnew]
      exact List.append_nil _

/-- C20 at device lists. Strictly sorted: `a`, `c` and `e` are removed and come out as
`e`, `c`, `a`; `d` and `f` are added and come out as `f`, `d`. Sorted with one UDI twice
in the new list: the second device of UDI `a` and `b` are added and come out as `b`, then
that device, the reverse of their order in the new list. -/
theorem diff_sorted_lists_output_order_witness :
    StrictlySorted hal_device_compare
        [⟨"/hal/a", [], []⟩, ⟨"/hal/b", [], []⟩, ⟨"/hal/c", [], []⟩, ⟨"/hal/e", [], []⟩] ∧
    StrictlySorted hal_device_compare
        [⟨"/hal/b", [], []⟩, ⟨"/hal/d", [], []⟩, ⟨"/hal/f", [], []⟩] ∧
    (diff_sorted_lists hal_device_compare
        [⟨"/hal/a", [], []⟩, ⟨"/hal/b", [], []⟩, ⟨"/hal/c", [], []⟩, ⟨"/hal/e", [], []⟩]
        [⟨"/hal/b", [], []⟩, ⟨"/hal/d", [], []⟩, ⟨"/hal/f", [], []⟩]).added =
      [⟨"/hal/f", [], []⟩, ⟨"/hal/d", [], []⟩] ∧
    (diff_sorted_lists hal_device_compare
        [⟨"/hal/a", [], []⟩, ⟨"/hal/b", [], []⟩, ⟨"/hal/c", [], []⟩, ⟨"/hal/e", [], []⟩]
        [⟨"/hal/b", [], []⟩, ⟨"/hal/d", [], []⟩, ⟨"/hal/f", [], []⟩]).removed =
      [⟨"/hal/e", [], []⟩, ⟨"/hal/c", [], []⟩, ⟨"/hal/a", [], []⟩] ∧
    (diff_sorted_lists hal_device_compare [⟨"/hal/a", [], []⟩]
        [⟨"/hal/a", [], []⟩, ⟨"/hal/a", [("info.product", "Disk")], []⟩,
          ⟨"/hal/b", [], []⟩]).added =
      [⟨"/hal/b", [], []⟩, ⟨"/hal/a", [("info.product", "Disk")], []⟩] ∧
    (diff_sorted_lists hal_device_compare [⟨"/hal/a", [], []⟩]
        [⟨"/hal/a", [], []⟩, ⟨"/hal/a", [("info.product", "Disk")], []⟩,
          ⟨"/hal/b", [], []⟩]).added.reverse.Sublist
      [⟨"/hal/a", [], []⟩, ⟨"/hal/a", [("info.product", "Disk")], []⟩,
        ⟨"/hal/b", [], []⟩] :=
  ⟨by decide, by decide,
    ((diff_sorted_lists_output_order hal_device_compare
      [⟨"/hal/a", [], []⟩, ⟨"/hal/b", [], []⟩, ⟨"/hal/c", [], []⟩, ⟨"/hal/e", [], []⟩]
      [⟨"/hal/b", [], []⟩, ⟨"/hal/d", [], []⟩, ⟨"/hal/f", [], []⟩]).2.2.2.2.2.2
      hal_device_compare_total_order (by decide) (by decide)).1.trans (by decide),
    ((diff_sorted_lists_output_order hal_device_compare
      [⟨"/hal/a", [], []⟩, ⟨"/hal/b", [], []⟩, ⟨"/hal/c", [], []⟩, ⟨"/hal/e", [], []⟩]
      [⟨"/hal/b", [], []⟩, ⟨"/hal/d", [], []⟩, ⟨"/hal/f", [], []⟩]).2.2.2.2.2.2
      hal_device_compare_total_order (by decide) (by decide)).2.trans (by decide),
    by decide,
    (diff_sorted_lists_output_order hal_device_compare [⟨"/hal/a", [], []⟩]
      [⟨"/hal/a", [], []⟩, ⟨"/hal/a", [("info.product", "Disk")], []⟩,
        ⟨"/hal/b", [], []⟩]).1⟩


/-! ## Theorems: the proxy volume -/

/-- C19: when the volume's id is set and differs from the id of the update,
`g_proxy_volume_update` returns the volume as it was and adds no idle source (no
shadow-mount update is scheduled); when the volume has no id yet or the ids are equal,
every field is written from the update (an empty `name`, `uuid` or `activation_uri`
stands for NULL, an empty `gicon_data` for no icon, otherwise the icon is what
`g_icon_new_for_string` makes of it) and the shadow-mount update is scheduled, so that
the volume after the call does not depend on the volume before. -/
theorem g_proxy_volume_update_mismatch_discarded
    (g_icon_new_for_string : String → Option GIcon) (volume : GProxyVolume)
    (iter : DBusVolumeStruct) :
    (∀ volume_id, volume.id = some volume_id → volume_id ≠ iter.id →
      g_proxy_volume_update g_icon_new_for_string volume iter = (volume, [])) ∧
    ((volume.id = none ∨ volume.id = some iter.id) →
      g_proxy_volume_update g_icon_new_for_string volume iter =
        ({ id := some iter.id
           name := if iter.name.length = 0 then none else some iter.name
           uuid := if iter.uuid.length = 0 then none else some iter.uuid
           activation_uri :=
             if iter.activation_uri.length = 0 then none else some iter.activation_uri
           icon := if iter.gicon_data.length = 0 then none
             else g_icon_new_for_string iter.gicon_data
           drive_id := some iter.drive_id
           mount_id := some iter.mount_id
           can_mount := iter.can_mount
           should_automount := iter.should_automount
           identifiers := iter.identifiers },
          [IdleSource.update_shadow_mount_in_idle_do])) := by
  constructor
  · intro volume_id hid hne
    have h : strcmp volume_id iter.id ≠ 0 := fun h0 => hne ((strcmp_eq_zero _ _).1 h0)
    simp [g_proxy_volume_update, hid, h]
  · intro h
    rcases h with h | h
    · simp [g_proxy_volume_update, h]
    · have h0 : strcmp iter.id iter.id = 0 := (strcmp_eq_zero _ _).2 rfl
      simp [g_proxy_volume_update, h, h0]

/-- C19 at the sample volume `volume-1`: the update for `volume-2` is discarded, and the
same update applied to a volume without id sets every field. -/
theorem g_proxy_volume_update_mismatch_discarded_witness :
    g_proxy_volume_update (fun s => some ⟨s⟩) sample_proxy_volume sample_volume_struct =
      (sample_proxy_volume, []) ∧
    g_proxy_volume_update (fun s => some ⟨s⟩) { sample_proxy_volume with id := none }
        sample_volume_struct =
      ({ id := some "volume-2", name := none, uuid := some "1234-ABCD",
         activation_uri := none, icon := none, drive_id := some "",
         mount_id := some "mount-7", identifiers := some [], can_mount := false,
         should_automount := true },
        [IdleSource.update_shadow_mount_in_idle_do]) :=
  ⟨(g_proxy_volume_update_mismatch_discarded (fun s => some ⟨s⟩) sample_proxy_volume
      sample_volume_struct).1 "volume-1" rfl (by decide),
    ((g_proxy_volume_update_mismatch_discarded (fun s => some ⟨s⟩)
      { sample_proxy_volume with id := none } sample_volume_struct).2
        (Or.inl rfl)).trans (by decide)⟩


/-! ## Theorems: counting identities in the registries -/

section Counting

variable {E S K : Type} [BEq K]

theorem perm_cons_erase_p_of_find (p : E → Bool) :
    ∀ (l : List E) (x : E), l.find? p = some x → l.Perm (x :: l.eraseP p) := by
  intro l
  induction l with
  | nil => intro x h; simp at h
  | cons a t ih =>
    intro x h
    by_cases hp : p a = true
    · rw [List.find?_cons_of_pos _ hp] at h
      cases h
      rw [List.eraseP_cons_of_pos hp]
    · rw [List.find?_cons_of_neg _ hp] at h
      rw [List.eraseP_cons_of_neg hp]
      exact (List.Perm.cons a (ih x h)).trans (List.Perm.swap x a _)

theorem count_map_cons (key : E → K) (a : E) (l : List E) (k : K) :
    ((a :: l).map key).count k = (l.map key).count k + (if key a == k then 1 else 0) := by
  rw [List.map_cons, List.count_cons]

theorem count_map_eq_zero [LawfulBEq K] (key : E → K) (l : List E) (k : K)
    (h : ∀ e ∈ l, key e ≠ k) : (l.map key).count k = 0 := by
  rw [List.count_eq_zero]
  intro hmem
  rw [List.mem_map] at hmem
  obtain ⟨e, he, hk⟩ := hmem
  exact h e he hk

theorem registry_remove_perm (has : E → S → Bool) :
    ∀ (l : List S) (reg : List E),
      ((registry_remove has l reg).2 ++ (registry_remove has l reg).1).Perm reg := by
  intro l
  induction l with
  | nil => intro reg; simp [registry_remove]
  | cons s l ih =>
    intro reg
    rw [registry_remove_cons]
    cases h : reg.find? (fun e => has e s) with
    | none =>
      rw [erase_p_of_find_none _ _ h]
      simpa using ih reg
    | some e =>
      have h1 := perm_cons_erase_p_of_find _ reg e h
      have h2 := ih (reg.eraseP (fun e => has e s))
      simp only [Option.toList, List.singleton_append, List.cons_append]
      exact (List.Perm.cons e h2).trans h1.symm

theorem registry_remove_count [LawfulBEq K] (has : E → S → Bool) (keyE : E → K) (keyS : S → K)
    (hkey : ∀ e s, has e s = true ↔ keyE e = keyS s) :
    ∀ (l : List S) (reg : List E) (k : K),
      ((registry_remove has l reg).1.map keyE).count k =
        (reg.map keyE).count k - (l.map keyS).count k := by
  intro l
  induction l with
  | nil => intro reg k; simp [registry_remove]
  | cons s l ih =>
    intro reg k
    rw [registry_remove_cons]
    simp only
    rw [ih, count_map_cons]
    cases h : reg.find? (fun e => has e s) with
    | none =>
      rw [erase_p_of_find_none _ _ h]
      rw [List.find?_eq_none] at h
      by_cases hk : keyS s = k
      · have h0 : (reg.map keyE).count k = 0 := by
          apply count_map_eq_zero
          intro e he hek
          exact h e he ((hkey e s).2 (hek.trans hk.symm))
        rw [h0]
        omega
      · rw [if_neg (by simpa using hk)]
        omega
    | some e =>
      have h1 : (reg.map keyE).count k =
          ((e :: reg.eraseP (fun e => has e s)).map keyE).count k :=
        ((perm_cons_erase_p_of_find _ reg e h).map keyE).countP_eq _
      rw [count_map_cons] at h1
      have h2 : keyE e = keyS s := (hkey e s).1 (by simpa using List.find?_some h)
      rw [h2] at h1
      omega

theorem registry_remove_covers [LawfulBEq K] (has : E → S → Bool) (keyE : E → K) (keyS : S → K)
    (hkey : ∀ e s, has e s = true ↔ keyE e = keyS s) (l : List S) (reg : List E)
    (h : ∀ k, (reg.map keyE).count k ≤ (l.map keyS).count k) :
    (registry_remove has l reg).1 = [] ∧ (registry_remove has l reg).2.Perm reg := by
  have h1 : (registry_remove has l reg).1 = [] := by
    rw [List.eq_nil_iff_forall_not_mem]
    intro e he
    have h2 := registry_remove_count has keyE keyS hkey l reg (keyE e)
    have h3 := h (keyE e)
    have h4 : 0 < ((registry_remove has l reg).1.map keyE).count (keyE e) :=
      List.count_pos_iff.2 (List.mem_map_of_mem keyE he)
    omega
  have h2 := registry_remove_perm has l reg
  rw [h1, List.append_nil] at h2
  exact ⟨h1, h2⟩

theorem registry_remove_removed_has (has : E → S → Bool) :
    ∀ (l : List S) (reg : List E) (e : E), e ∈ (registry_remove has l reg).2 →
      ∃ s ∈ l, has e s = true := by
  intro l
  induction l with
  | nil => intro reg e he; simp [registry_remove] at he
  | cons s l ih =>
    intro reg e he
    rw [registry_remove_cons] at he
    simp only [List.mem_append, Option.mem_toList] at he
    rcases he with he | he
    · exact ⟨s, List.mem_cons_self _ _, by simpa using List.find?_some he⟩
    · obtain ⟨s2, hs2, h2⟩ := ih _ e he
      exact ⟨s2, List.mem_cons_of_mem _ hs2, h2⟩

theorem registry_remove_mem (has : E → S → Bool) (l : List S) (reg : List E) (e : E) :
    e ∈ reg ↔ e ∈ (registry_remove has l reg).2 ∨ e ∈ (registry_remove has l reg).1 := by
  rw [← List.mem_append]
  exact ((registry_remove_perm has l reg).mem_iff).symm

theorem registry_add_checked_fst (has : E → S → Bool) (make : S → Option E) :
    ∀ (l : List S) (reg : List E),
      (registry_add_checked has make l reg).1 =
        (registry_add_checked has make l reg).2.reverse ++ reg := by
  intro l
  induction l with
  | nil => intro reg; simp [registry_add_checked]
  | cons s l ih =>
    intro reg
    simp only [registry_add_checked]
    cases reg.find? (fun e => has e s) with
    | some _ => exact ih reg
    | none =>
      cases make s with
      | none => exact ih reg
      | some e =>
        simp only
        rw [ih (e :: reg)]
        simp

theorem registry_add_checked_made (has : E → S → Bool) (make : S → Option E) :
    ∀ (l : List S) (reg : List E) (e : E), e ∈ (registry_add_checked has make l reg).2 →
      ∃ s ∈ l, make s = some e := by
  intro l
  induction l with
  | nil => intro reg e he; simp [registry_add_checked] at he
  | cons s l ih =>
    intro reg e he
    simp only [registry_add_checked] at he
    cases hf : reg.find? (fun e => has e s) with
    | some _ =>
      rw [hf] at he
      obtain ⟨s2, hs2, h2⟩ := ih reg e he
      exact ⟨s2, List.mem_cons_of_mem _ hs2, h2⟩
    | none =>
      rw [hf] at he
      cases hm : make s with
      | none =>
        rw [hm] at he
        obtain ⟨s2, hs2, h2⟩ := ih reg e he
        exact ⟨s2, List.mem_cons_of_mem _ hs2, h2⟩
      | some e2 =>
        rw [hm] at he
        simp only [List.mem_cons] at he
        rcases he with he | he
        · exact ⟨s, List.mem_cons_self _ _, by rw [hm, he]⟩
        · obtain ⟨s2, hs2, h2⟩ := ih _ e he
          exact ⟨s2, List.mem_cons_of_mem _ hs2, h2⟩

theorem registry_add_checked_count (has : E → S → Bool) (make : S → Option E)
    (keyE : E → K) (keyS : S → K) (hmake : ∀ s e, make s = some e → keyE e = keyS s) :
    ∀ (l : List S) (reg : List E) (k : K),
      ((registry_add_checked has make l reg).2.map keyE).count k ≤
        (l.map keyS).count k := by
  intro l
  induction l with
  | nil => intro reg k; simp [registry_add_checked]
  | cons s l ih =>
    intro reg k
    simp only [registry_add_checked]
    rw [count_map_cons]
    cases reg.find? (fun e => has e s) with
    | some _ =>
      have := ih reg k
      simp only
      omega
    | none =>
      cases hm : make s with
      | none =>
        have := ih reg k
        simp only
        omega
      | some e =>
        simp only
        rw [count_map_cons, hmake s e hm]
        have := ih (e :: reg) k
        omega

theorem filter_map_count (make : S → Option E) (keyE : E → K) (keyS : S → K)
    (hmake : ∀ s e, make s = some e → keyE e = keyS s) :
    ∀ (l : List S) (k : K),
      ((l.filterMap make).map keyE).count k ≤ (l.map keyS).count k := by
  intro l
  induction l with
  | nil => intro k; simp
  | cons s l ih =>
    intro k
    rw [count_map_cons]
    cases hm : make s with
    | none =>
      rw [List.filterMap_cons_none hm]
      have := ih k
      omega
    | some e =>
      rw [List.filterMap_cons_some hm, count_map_cons, hmake s e hm]
      have := ih k
      omega

end Counting


section DiffCounting

variable {α K : Type} [BEq K]

theorem diff_sorted_lists_loop_count (compare : α → α → Int) (key : α → K)
    (hkey : ∀ a b, compare a b = 0 → key a = key b) :
    ∀ (l1 l2 : List α) (A0 R0 : List α) (k : K),
      (((diff_sorted_lists_loop compare l1 l2 A0 R0).added.map key).count k +
          (l1.map key).count k + (R0.map key).count k =
        ((diff_sorted_lists_loop compare l1 l2 A0 R0).removed.map key).count k +
          (l2.map key).count k + (A0.map key).count k) ∧
      ((diff_sorted_lists_loop compare l1 l2 A0 R0).removed.map key).count k ≤
        (l1.map key).count k + (R0.map key).count k := by
  apply diff_scan_induction compare
  · intro l2 A0 R0 k
    rw [diff_sorted_lists_loop_nil_left]
    simp only [List.map_append, List.map_reverse, List.count_append, List.count_reverse,
      List.map_nil, List.count_nil]
    omega
  · intro l1 A0 R0 k
    rw [diff_sorted_lists_loop_nil_right]
    simp only [List.map_append, List.map_reverse, List.count_append, List.count_reverse,
      List.map_nil, List.count_nil]
    omega
  · intro a l1 b l2 hab ih A0 R0 k
    rw [diff_sorted_lists_loop_cons_cons, if_pos hab]
    have h := ih A0 (a :: R0) k
    rw [count_map_cons key a R0] at h
    rw [count_map_cons key a l1]
    omega
  · intro a l1 b l2 h1 h2 ih A0 R0 k
    rw [diff_sorted_lists_loop_cons_cons, if_neg h1, if_pos h2]
    have h := ih (b :: A0) R0 k
    rw [count_map_cons key b A0] at h
    rw [count_map_cons key b l2]
    omega
  · intro a l1 b l2 hab ih A0 R0 k
    have h1 : ¬ compare a b < 0 := by omega
    have h2 : ¬ compare a b > 0 := by omega
    rw [diff_sorted_lists_loop_cons_cons, if_neg h1, if_neg h2]
    have h := ih A0 R0 k
    rw [count_map_cons key a l1, count_map_cons key b l2, hkey a b hab]
    omega

/-- Whatever the lists, the diff balances every identity: what is old or added is what is
new or removed, and no more is removed than was old. -/
theorem diff_sorted_lists_count (compare : α → α → Int) (key : α → K)
    (hkey : ∀ a b, compare a b = 0 → key a = key b) (old new : List α) (k : K) :
    ((diff_sorted_lists compare old new).added.map key).count k + (old.map key).count k =
        ((diff_sorted_lists compare old new).removed.map key).count k +
          (new.map key).count k ∧
      ((diff_sorted_lists compare old new).removed.map key).count k ≤
        (old.map key).count k := by
  have h := diff_sorted_lists_loop_count compare key hkey old new [] [] k
  simp only [List.map_nil, List.count_nil, Nat.add_zero] at h
  exact h

/-- A registry counted against the old list stays counted against the new list over a
removal loop followed by an addition loop. -/
theorem counted_after_pass (compare : α → α → Int) (key : α → K)
    (hkey : ∀ a b, compare a b = 0 → key a = key b) (old new : List α) (k : K)
    (reg left made : Nat) (hreg : reg ≤ (old.map key).count k)
    (hleft : left = reg - ((diff_sorted_lists compare old new).removed.map key).count k)
    (hmade : made ≤ ((diff_sorted_lists compare old new).added.map key).count k) :
    made + left ≤ (new.map key).count k := by
  have h := diff_sorted_lists_count compare key hkey old new k
  omega

end DiffCounting

theorem drive_has_device_iff (drive : GHalDrive) (d : HalDevice) :
    drive_has_device drive d = true ↔ drive.udi = d.udi := by
  simp only [drive_has_device, g_hal_drive_has_udi, hal_device_get_udi, beq_iff_eq,
    Option.some.injEq]
  exact eq_comm

theorem volume_has_device_iff (volume : GHalVolume) (d : HalDevice) :
    volume_has_device volume d = true ↔ volume.udi = d.udi := by
  simp only [volume_has_device, g_hal_volume_has_udi, hal_device_get_udi, beq_iff_eq,
    Option.some.injEq]
  exact eq_comm

theorem mount_has_entry_iff (mount : GHalMount) (e : GUnixMountEntry) :
    mount_has_entry mount e = true ↔ mount.mount_path = some e.mount_path := by
  simp [mount_has_entry, g_hal_mount_has_mount_path, g_unix_mount_get_mount_path]

theorem mount_has_device_iff (mount : GHalMount) (d : HalDevice) :
    mount_has_device mount d = true ↔ mount.udi = some d.udi := by
  simp [mount_has_device, g_hal_mount_has_udi, hal_device_get_udi]

theorem hal_device_compare_udi (a b : HalDevice) (h : hal_device_compare a b = 0) :
    a.udi = b.udi :=
  (hal_device_compare_eq_zero a b).1 h

theorem hal_device_compare_some_udi (a b : HalDevice) (h : hal_device_compare a b = 0) :
    some a.udi = some b.udi := by
  rw [hal_device_compare_udi a b h]

theorem unset_volumes_eq_map (vs : List GHalVolume) :
    ∀ ms : List GHalMount, ∃ f : GHalMount → GHalMount,
      unset_volumes vs ms = ms.map f ∧
      (∀ x, (f x).mount_path = x.mount_path ∧ (f x).udi = x.udi ∧
        ∀ u, (f x).volume = some u → x.volume = some u ∧ ∀ v ∈ vs, v.udi ≠ u) := by
  induction vs with
  | nil =>
    intro ms
    exact ⟨id, by simp [unset_volumes], fun x => ⟨rfl, rfl, fun u h => ⟨h, by simp⟩⟩⟩
  | cons v vs ih =>
    intro ms
    obtain ⟨f, hf, hprop⟩ := ih (ms.map (g_hal_mount_unset_volume v.udi))
    refine ⟨f ∘ g_hal_mount_unset_volume v.udi, ?_, ?_⟩
    · have : unset_volumes (v :: vs) ms =
          unset_volumes vs (ms.map (g_hal_mount_unset_volume v.udi)) := rfl
      rw [this, hf, List.map_map]
    · intro x
      obtain ⟨h1, h2, h3⟩ := hprop (g_hal_mount_unset_volume v.udi x)
      have hu : (g_hal_mount_unset_volume v.udi x).mount_path = x.mount_path ∧
          (g_hal_mount_unset_volume v.udi x).udi = x.udi ∧
          ∀ u, (g_hal_mount_unset_volume v.udi x).volume = some u →
            x.volume = some u ∧ v.udi ≠ u := by
        unfold g_hal_mount_unset_volume
        split
        · exact ⟨rfl, rfl, fun u h => by simp at h⟩
        · rename_i hne
          refine ⟨rfl, rfl, fun u h => ⟨h, fun hvu => hne ?_⟩⟩
          rw [h, hvu]
      refine ⟨h1.trans hu.1, h2.trans hu.2.1, fun u h => ?_⟩
      obtain ⟨h4, h5⟩ := h3 u h
      obtain ⟨h6, h7⟩ := hu.2.2 u h4
      refine ⟨h6, fun w hw => ?_⟩
      rcases List.mem_cons.1 hw with rfl | hw
      · exact h7
      · exact h5 w hw

theorem unset_volumes_map_mount_path (vs : List GHalVolume) (ms : List GHalMount) :
    (unset_volumes vs ms).map GHalMount.mount_path = ms.map GHalMount.mount_path := by
  obtain ⟨f, hf, hprop⟩ := unset_volumes_eq_map vs ms
  rw [hf, List.map_map]
  apply List.map_congr_left
  intro x _
  exact (hprop x).1

theorem unset_volumes_map_udi (vs : List GHalVolume) (ms : List GHalMount) :
    (unset_volumes vs ms).map GHalMount.udi = ms.map GHalMount.udi := by
  obtain ⟨f, hf, hprop⟩ := unset_volumes_eq_map vs ms
  rw [hf, List.map_map]
  apply List.map_congr_left
  intro x _
  exact (hprop x).2.1

theorem update_discs_new_mount_kept (c : Collaborators) (hc : IdentityKept c) (d : HalDevice)
    (volume : GHalVolume) (mount : GHalMount)
    (h : update_discs_new_mount c d volume = some mount) :
    mount.udi = some d.udi ∧ ∀ u, mount.volume = some u → volume.udi = u := by
  unfold update_discs_new_mount at h
  split at h
  · exact ⟨hc.disc_mount_udi _ _ _ _ _ _ _ h, fun u hu => hc.disc_mount_volume _ _ _ _ _ _ _ u h hu⟩
  · exact ⟨hc.disc_mount_udi _ _ _ _ _ _ _ h, fun u hu => hc.disc_mount_volume _ _ _ _ _ _ _ u h hu⟩

theorem update_discs_new_pair_some (c : Collaborators) (m : GHalVolumeMonitor) (d : HalDevice)
    (volume : GHalVolume) (mount : GHalMount)
    (h : update_discs_new_pair c m d = some (volume, mount)) :
    ∃ drive, find_drive_by_udi m (hal_device_get_property_string d "block.storage_device") =
        some drive ∧
      c.g_hal_volume_new d (some drive) = some volume ∧
      update_discs_new_mount c d volume = some mount := by
  unfold update_discs_new_pair at h
  cases hf : find_drive_by_udi m (hal_device_get_property_string d "block.storage_device") with
  | none => rw [hf] at h; cases h
  | some drive =>
    rw [hf] at h
    dsimp only at h
    cases hv : c.g_hal_volume_new d (some drive) with
    | none => rw [hv] at h; cases h
    | some v =>
      rw [hv] at h
      dsimp only at h
      cases hm : update_discs_new_mount c d v with
      | none => rw [hm] at h; cases h
      | some mt =>
        rw [hm] at h
        cases h
        exact ⟨drive, rfl, hv, hm⟩


theorem update_drives_counted (c : Collaborators) (hc : IdentityKept c) (src : Snapshot)
    (m : GHalVolumeMonitor) (s : List VolumeMonitorSignal) (h : CountedRegistries m) :
    CountedRegistries (update_drives c src (m, s)).1 := by
  rw [update_drives_eq]
  refine ⟨fun k => ?_, h.volumes, h.mounts, h.disc_volumes, h.disc_mounts⟩
  simp only [update_drives_diff]
  rw [registry_add_checked_fst, List.map_append, List.count_append, List.map_reverse,
    List.count_reverse]
  exact counted_after_pass hal_device_compare HalDevice.udi hal_device_compare_udi _ _ k _ _ _
    (h.drives k)
    (registry_remove_count drive_has_device GHalDrive.udi HalDevice.udi drive_has_device_iff
      _ _ k)
    (registry_add_checked_count drive_has_device _ GHalDrive.udi HalDevice.udi
      (fun d e hd => hc.drive_udi d e hd) _ _ k)

theorem update_volumes_counted (c : Collaborators) (hc : IdentityKept c) (src : Snapshot)
    (m : GHalVolumeMonitor) (s : List VolumeMonitorSignal) (h : CountedRegistries m) :
    CountedRegistries (update_volumes c src (m, s)).1 := by
  rw [update_volumes_eq]
  refine ⟨h.drives, fun k => ?_, fun k => ?_, h.disc_volumes, fun k => ?_⟩
  · simp only [update_volumes_diff]
    rw [registry_add_checked_fst, List.map_append, List.count_append, List.map_reverse,
      List.count_reverse]
    exact counted_after_pass hal_device_compare HalDevice.udi hal_device_compare_udi _ _ k _ _
      _ (h.volumes k)
      (registry_remove_count volume_has_device GHalVolume.udi HalDevice.udi
        volume_has_device_iff _ _ k)
      (registry_add_checked_count volume_has_device _ GHalVolume.udi HalDevice.udi
        (fun d e hd => hc.volume_udi d _ e hd) _ _ k)
  · simp only [unset_volumes_map_mount_path]
    exact h.mounts k
  · simp only [unset_volumes_map_udi]
    exact h.disc_mounts k

theorem update_mounts_counted (c : Collaborators) (hc : IdentityKept c) (src : Snapshot)
    (m : GHalVolumeMonitor) (s : List VolumeMonitorSignal) (h : CountedRegistries m) :
    CountedRegistries (update_mounts c src (m, s)).1 := by
  rw [update_mounts_eq]
  refine ⟨h.drives, h.volumes, fun k => ?_, h.disc_volumes, h.disc_mounts⟩
  simp only [update_mounts_diff]
  rw [List.map_append, List.count_append, List.map_reverse, List.count_reverse]
  exact counted_after_pass c.g_unix_mount_compare (fun (e : GUnixMountEntry) => some e.mount_path)
    (fun a b hab => congrArg some (hc.compare_path a b hab)) _ _ k _ _ _ (h.mounts k)
    (registry_remove_count mount_has_entry GHalMount.mount_path (fun (e : GUnixMountEntry) => some e.mount_path)
      mount_has_entry_iff _ _ k)
    (filter_map_count _ GHalMount.mount_path (fun (e : GUnixMountEntry) => some e.mount_path)
      (fun e mt he => hc.mount_path e _ mt he) _ k)

theorem update_discs_new_pair_fst_udi (c : Collaborators) (hc : IdentityKept c)
    (m : GHalVolumeMonitor) (d : HalDevice) (v : GHalVolume)
    (h : Option.map Prod.fst (update_discs_new_pair c m d) = some v) : v.udi = d.udi := by
  cases hp : update_discs_new_pair c m d with
  | none => rw [hp] at h; cases h
  | some p =>
    rw [hp] at h
    cases h
    obtain ⟨drive, _, hv, _⟩ := update_discs_new_pair_some c m d p.1 p.2 hp
    exact hc.volume_udi d _ _ hv

theorem update_discs_new_pair_snd_udi (c : Collaborators) (hc : IdentityKept c)
    (m : GHalVolumeMonitor) (d : HalDevice) (mt : GHalMount)
    (h : Option.map Prod.snd (update_discs_new_pair c m d) = some mt) :
    mt.udi = some d.udi := by
  cases hp : update_discs_new_pair c m d with
  | none => rw [hp] at h; cases h
  | some p =>
    rw [hp] at h
    cases h
    obtain ⟨drive, _, _, hm⟩ := update_discs_new_pair_some c m d p.1 p.2 hp
    exact (update_discs_new_mount_kept c hc d _ _ hm).1

theorem update_discs_counted (c : Collaborators) (hc : IdentityKept c) (src : Snapshot)
    (m : GHalVolumeMonitor) (s : List VolumeMonitorSignal) (h : CountedRegistries m) :
    CountedRegistries (update_discs c src (m, s)).1 := by
  rw [update_discs_eq]
  refine ⟨h.drives, h.volumes, fun k => ?_, fun k => ?_, fun k => ?_⟩
  · simp only [unset_volumes_map_mount_path]
    exact h.mounts k
  · simp only [update_discs_diff]
    rw [List.map_append, List.count_append, List.map_reverse, List.count_reverse,
      List.map_filterMap]
    exact counted_after_pass hal_device_compare HalDevice.udi hal_device_compare_udi _ _ k _ _
      _ (h.disc_volumes k)
      (registry_remove_count volume_has_device GHalVolume.udi HalDevice.udi
        volume_has_device_iff _ _ k)
      (filter_map_count _ GHalVolume.udi HalDevice.udi
        (update_discs_new_pair_fst_udi c hc m) _ k)
  · simp only [update_discs_diff]
    rw [List.map_append, List.count_append, List.map_reverse, List.count_reverse,
      List.map_filterMap, unset_volumes_map_udi]
    exact counted_after_pass hal_device_compare (fun (d : HalDevice) => some d.udi)
      hal_device_compare_some_udi _ _ k _ _ _ (h.disc_mounts k)
      (registry_remove_count mount_has_device GHalMount.udi (fun (d : HalDevice) => some d.udi)
        mount_has_device_iff _ _ k)
      (filter_map_count _ GHalMount.udi (fun (d : HalDevice) => some d.udi)
        (update_discs_new_pair_snd_udi c hc m) _ k)

theorem counted_init : CountedRegistries g_hal_volume_monitor_init :=
  ⟨fun _ => Nat.le_refl _, fun _ => Nat.le_refl _, fun _ => Nat.le_refl _,
    fun _ => Nat.le_refl _, fun _ => Nat.le_refl _⟩

/-- Every reachable monitor has counted registries. -/
theorem reachable_counted (m : GHalVolumeMonitor) (h : Reachable m) : CountedRegistries m := by
  induction h with
  | init => exact counted_init
  | drives c src m s hc _ ih => exact update_drives_counted c hc src m s ih
  | volumes c src m s hc _ ih => exact update_volumes_counted c hc src m s ih
  | mounts c src m s hc _ ih => exact update_mounts_counted c hc src m s ih
  | discs c src m s hc _ ih => exact update_discs_counted c hc src m s ih


theorem unset_volumes_nil (vs : List GHalVolume) : unset_volumes vs [] = [] := by
  obtain ⟨f, hf, _⟩ := unset_volumes_eq_map vs []
  rw [hf]
  rfl

theorem update_discs_removed_signals_perm :
    ∀ (l : List HalDevice) (mounts : List GHalMount) (volumes : List GHalVolume),
      (update_discs_removed_signals l mounts volumes).Perm
        ((registry_remove mount_has_device l mounts).2.map
            (fun x => VolumeMonitorSignal.mount_removed (g_hal_mount_unmounted x)) ++
          (registry_remove volume_has_device l volumes).2.map
            VolumeMonitorSignal.volume_removed) := by
  intro l
  induction l with
  | nil => intro mounts volumes; simp [update_discs_removed_signals, registry_remove]
  | cons d l ih =>
    intro mounts volumes
    have ih2 := ih (mounts.eraseP (fun m => mount_has_device m d))
      (volumes.eraseP (fun v => volume_has_device v d))
    rw [registry_remove_cons, registry_remove_cons]
    simp only [update_discs_removed_signals, List.map_append]
    refine ((List.Perm.append_left _ ih2).trans ?_)
    simp only [List.append_assoc]
    refine List.Perm.append_left _ ?_
    simp only [← List.append_assoc]
    exact List.Perm.append_right _ List.perm_append_comm

theorem diff_sorted_lists_nil_right {α : Type} (compare : α → α → Int) (l : List α) :
    diff_sorted_lists compare l [] = ⟨[], l.reverse⟩ := by
  unfold diff_sorted_lists
  rw [diff_sorted_lists_loop_nil_right, List.append_nil]

theorem identity_kept_sample : IdentityKept sample_collaborators where
  drive_udi := fun d drive h => by cases h; rfl
  volume_udi := fun d drive volume h => by cases h; rfl
  mount_path := fun e volume mount h => by cases h; rfl
  mount_volume := fun e volume mount u h hu => by
    cases h
    cases volume with
    | none => cases hu
    | some v => exact ⟨v, rfl, by cases hu; rfl⟩
  disc_mount_udi := fun d uri name icon_name b volume mount h => by cases h; rfl
  disc_mount_volume := fun d uri name icon_name b volume mount u h hu => by
    cases h
    cases hu
    rfl
  compare_path := fun a b h => (strcmp_eq_zero _ _).1 h

theorem reachable_force_update (c : Collaborators) (hc : IdentityKept c) (src : Snapshot)
    (m : GHalVolumeMonitor) (h : Reachable m) :
    Reachable (g_hal_volume_monitor_force_update c src m).1 :=
  Reachable.discs c src _ _ hc (Reachable.mounts c src _ _ hc
    (Reachable.volumes c src _ _ hc (Reachable.drives c src m [] hc h)))

/-- C15: in every reachable monitor state, when the source of a pass returns the empty
list, the pass leaves the registry of its class empty (the discs pass both `disc_volumes`
and `disc_mounts`) and the stored last snapshot empty, and the signals it emits are just
one removal signal for each entity that was live in the registry (`drive_disconnected`,
`volume_removed`, `mount_removed` with the Mount marked unmounted), so no addition
signal. -/
theorem empty_fetch_removes_everything (m : GHalVolumeMonitor) (hm : Reachable m)
    (c : Collaborators) (src : Snapshot) (s : List VolumeMonitorSignal) :
    (src.hal_pool_find_by_capability "storage" = [] →
      (update_drives c src (m, s)).1.drives = [] ∧
      (update_drives c src (m, s)).1.last_drive_devices = [] ∧
      ∃ removed : List GHalDrive, removed.Perm m.drives ∧
        (update_drives c src (m, s)).2 =
          s ++ removed.map VolumeMonitorSignal.drive_disconnected) ∧
    (src.hal_pool_find_by_capability "volume" = [] →
      (update_volumes c src (m, s)).1.volumes = [] ∧
      (update_volumes c src (m, s)).1.last_volume_devices = [] ∧
      ∃ removed : List GHalVolume, removed.Perm m.volumes ∧
        (update_volumes c src (m, s)).2 =
          s ++ removed.map VolumeMonitorSignal.volume_removed) ∧
    (src.g_unix_mounts_get = [] →
      (update_mounts c src (m, s)).1.mounts = [] ∧
      (update_mounts c src (m, s)).1.last_mounts = [] ∧
      ∃ removed : List GHalMount, removed.Perm m.mounts ∧
        (update_mounts c src (m, s)).2 =
          s ++ removed.map
            (fun x => VolumeMonitorSignal.mount_removed (g_hal_mount_unmounted x))) ∧
    (src.hal_pool_find_by_capability "volume.disc" = [] →
      (update_discs c src (m, s)).1.disc_volumes = [] ∧
      (update_discs c src (m, s)).1.disc_mounts = [] ∧
      (update_discs c src (m, s)).1.last_optical_disc_devices = [] ∧
      ∃ signals : List VolumeMonitorSignal,
        signals.Perm
          (m.disc_mounts.map
              (fun x => VolumeMonitorSignal.mount_removed (g_hal_mount_unmounted x)) ++
            m.disc_volumes.map VolumeMonitorSignal.volume_removed) ∧
        (update_discs c src (m, s)).2 = s ++ signals) := by
  have hcount := reachable_counted m hm
  refine ⟨fun hsrc => ?_, fun hsrc => ?_, fun hsrc => ?_, fun hsrc => ?_⟩
  · have hnew : g_list_sort (src.hal_pool_find_by_capability "storage") hal_device_compare =
        [] := by rw [hsrc]; rfl
    have hdiff : update_drives_diff src m = ⟨[], m.last_drive_devices.reverse⟩ := by
      unfold update_drives_diff
      rw [hnew, diff_sorted_lists_nil_right]
    obtain ⟨h1, h2⟩ := registry_remove_covers drive_has_device GHalDrive.udi HalDevice.udi
      drive_has_device_iff m.last_drive_devices.reverse m.drives
      (fun k => by rw [List.map_reverse, List.count_reverse]; exact hcount.drives k)
    rw [update_drives_eq, hdiff, hnew]
    simp only [registry_add_checked, List.map_nil, List.append_nil]
    exact ⟨h1, trivial, _, h2, rfl⟩
  · have hnew : update_volumes_new_volume_devices c src = [] := by
      unfold update_volumes_new_volume_devices
      rw [hsrc]
      rfl
    have hdiff : update_volumes_diff c src m = ⟨[], m.last_volume_devices.reverse⟩ := by
      unfold update_volumes_diff
      rw [hnew, diff_sorted_lists_nil_right]
    obtain ⟨h1, h2⟩ := registry_remove_covers volume_has_device GHalVolume.udi HalDevice.udi
      volume_has_device_iff m.last_volume_devices.reverse m.volumes
      (fun k => by rw [List.map_reverse, List.count_reverse]; exact hcount.volumes k)
    rw [update_volumes_eq, hdiff, hnew]
    simp only [registry_add_checked, List.map_nil, List.append_nil]
    exact ⟨h1, trivial, _, h2, rfl⟩
  · have hnew : g_list_sort src.g_unix_mounts_get c.g_unix_mount_compare = [] := by
      rw [hsrc]; rfl
    have hdiff : update_mounts_diff c src m = ⟨[], m.last_mounts.reverse⟩ := by
      unfold update_mounts_diff
      rw [hnew, diff_sorted_lists_nil_right]
    obtain ⟨h1, h2⟩ := registry_remove_covers mount_has_entry GHalMount.mount_path
      (fun (e : GUnixMountEntry) => some e.mount_path)
      mount_has_entry_iff m.last_mounts.reverse m.mounts
      (fun k => by rw [List.map_reverse, List.count_reverse]; exact hcount.mounts k)
    rw [update_mounts_eq, hdiff, hnew]
    simp only [List.filterMap_nil, List.reverse_nil, List.nil_append, List.map_nil,
      List.append_nil]
    exact ⟨h1, trivial, _, h2, rfl⟩
  · have hnew : update_discs_new_optical_disc_devices src = [] := by
      unfold update_discs_new_optical_disc_devices
      rw [hsrc]
      rfl
    have hdiff : update_discs_diff src m = ⟨[], m.last_optical_disc_devices.reverse⟩ := by
      unfold update_discs_diff
      rw [hnew, diff_sorted_lists_nil_right]
    obtain ⟨h1, h2⟩ := registry_remove_covers volume_has_device GHalVolume.udi HalDevice.udi
      volume_has_device_iff m.last_optical_disc_devices.reverse m.disc_volumes
      (fun k => by rw [List.map_reverse, List.count_reverse]; exact hcount.disc_volumes k)
    obtain ⟨h3, h4⟩ := registry_remove_covers mount_has_device GHalMount.udi
      (fun (d : HalDevice) => some d.udi)
      mount_has_device_iff m.last_optical_disc_devices.reverse m.disc_mounts
      (fun k => by rw [List.map_reverse, List.count_reverse]; exact hcount.disc_mounts k)
    rw [update_discs_eq, hdiff, hnew]
    simp only [List.filterMap_nil, List.reverse_nil, List.nil_append, List.map_nil,
      List.append_nil, List.flatMap_nil, h1, h3, unset_volumes_nil]
    refine ⟨trivial, trivial, trivial, _, ?_, rfl⟩
    exact (update_discs_removed_signals_perm _ _ _).trans
      (List.Perm.append (h4.map _) (h2.map _))

/-- C15 at the monitor a full update against the sample snapshot leaves: a drives pass
against the empty snapshot leaves no Drive and no last drive snapshot. -/
theorem empty_fetch_removes_everything_witness :
    (update_drives sample_collaborators sample_empty_snapshot
        ((g_hal_volume_monitor_force_update sample_collaborators sample_snapshot
          g_hal_volume_monitor_init).1, [])).1.drives = [] ∧
    (update_drives sample_collaborators sample_empty_snapshot
        ((g_hal_volume_monitor_force_update sample_collaborators sample_snapshot
          g_hal_volume_monitor_init).1, [])).1.last_drive_devices = [] :=
  ⟨((empty_fetch_removes_everything _
      (reachable_force_update sample_collaborators identity_kept_sample sample_snapshot _
        Reachable.init)
      sample_collaborators sample_empty_snapshot []).1 rfl).1,
    ((empty_fetch_removes_everything _
      (reachable_force_update sample_collaborators identity_kept_sample sample_snapshot _
        Reachable.init)
      sample_collaborators sample_empty_snapshot []).1 rfl).2.1⟩


/-! ## Theorems: the ownership invariant -/

theorem mem_unset_volumes (vs : List GHalVolume) (ms : List GHalMount) (mount : GHalMount)
    (hm : mount ∈ unset_volumes vs ms) (u : String) (hu : mount.volume = some u) :
    ∃ x ∈ ms, x.volume = some u ∧ ∀ v ∈ vs, v.udi ≠ u := by
  obtain ⟨f, hf, hprop⟩ := unset_volumes_eq_map vs ms
  rw [hf, List.mem_map] at hm
  obtain ⟨x, hx, rfl⟩ := hm
  exact ⟨x, hx, (hprop x).2.2 u hu⟩

/-- A Volume that was live and whose key is not among the removed ones is left. -/
theorem registry_remove_keeps (l : List HalDevice) (reg : List GHalVolume) (v : GHalVolume)
    (hv : v ∈ reg)
    (hne : ∀ w ∈ (registry_remove volume_has_device l reg).2, w.udi ≠ v.udi) :
    v ∈ (registry_remove volume_has_device l reg).1 := by
  rcases (registry_remove_mem volume_has_device l reg v).1 hv with h | h
  · exact absurd rfl (hne v h)
  · exact h

theorem update_drives_owned (c : Collaborators) (src : Snapshot) (m : GHalVolumeMonitor)
    (s : List VolumeMonitorSignal) (h : OwnershipInvariant m) :
    OwnershipInvariant (update_drives c src (m, s)).1 := by
  rw [update_drives_eq]
  exact h

theorem update_volumes_owned (c : Collaborators) (src : Snapshot) (m : GHalVolumeMonitor)
    (s : List VolumeMonitorSignal) (h : OwnershipInvariant m) :
    OwnershipInvariant (update_volumes c src (m, s)).1 := by
  rw [update_volumes_eq]
  intro mount hmount u hu
  simp only [List.mem_append] at hmount ⊢
  have key : ∀ ms, ms = m.mounts ∨ ms = m.disc_mounts →
      mount ∈ unset_volumes (registry_remove volume_has_device
        (update_volumes_diff c src m).removed m.volumes).2 ms →
      ∃ v, (v ∈ (registry_add_checked volume_has_device (update_volumes_new_volume c m)
          (update_volumes_diff c src m).added
          (registry_remove volume_has_device (update_volumes_diff c src m).removed
            m.volumes).1).1 ∨ v ∈ m.disc_volumes) ∧ v.udi = u := by
    intro ms hms hin
    obtain ⟨x, hx, hxu, hne⟩ := mem_unset_volumes _ _ _ hin u hu
    have hx2 : x ∈ m.mounts ++ m.disc_mounts := by
      rw [List.mem_append]
      rcases hms with rfl | rfl
      · exact Or.inl hx
      · exact Or.inr hx
    obtain ⟨v, hv, hvu⟩ := h x hx2 u hxu
    rw [List.mem_append] at hv
    rcases hv with hv | hv
    · refine ⟨v, Or.inl ?_, hvu⟩
      rw [registry_add_checked_fst, List.mem_append]
      exact Or.inr (registry_remove_keeps _ _ v hv (fun w hw => by rw [hvu]; exact hne w hw))
    · exact ⟨v, Or.inr hv, hvu⟩
  rcases hmount with hin | hin
  · exact key _ (Or.inl rfl) hin
  · exact key _ (Or.inr rfl) hin

theorem update_mounts_owned (c : Collaborators) (hc : IdentityKept c) (src : Snapshot)
    (m : GHalVolumeMonitor) (s : List VolumeMonitorSignal) (h : OwnershipInvariant m) :
    OwnershipInvariant (update_mounts c src (m, s)).1 := by
  rw [update_mounts_eq]
  intro mount hmount u hu
  simp only [List.mem_append, List.mem_reverse, List.mem_filterMap] at hmount ⊢
  rcases hmount with (⟨e, _, he⟩ | hin) | hin
  · obtain ⟨v, hv, hvu⟩ := hc.mount_volume e _ mount u he hu
    exact ⟨v, Or.inl (List.mem_of_find?_eq_some hv), hvu⟩
  · have hx : mount ∈ m.mounts ++ m.disc_mounts :=
      List.mem_append.2 (Or.inl ((registry_remove_mem mount_has_entry _ _ mount).2
        (Or.inr hin)))
    obtain ⟨v, hv, hvu⟩ := h mount hx u hu
    exact ⟨v, List.mem_append.1 hv, hvu⟩
  · obtain ⟨v, hv, hvu⟩ := h mount (List.mem_append.2 (Or.inr hin)) u hu
    exact ⟨v, List.mem_append.1 hv, hvu⟩

theorem update_discs_owned (c : Collaborators) (hc : IdentityKept c) (src : Snapshot)
    (m : GHalVolumeMonitor) (s : List VolumeMonitorSignal) (h : OwnershipInvariant m) :
    OwnershipInvariant (update_discs c src (m, s)).1 := by
  rw [update_discs_eq]
  intro mount hmount u hu
  simp only [List.mem_append, List.mem_reverse, List.mem_map] at hmount ⊢
  have key : ∀ x, x ∈ m.mounts ++ m.disc_mounts → x.volume = some u →
      (∀ v ∈ (registry_remove volume_has_device (update_discs_diff src m).removed
        m.disc_volumes).2, v.udi ≠ u) →
      ∃ v, (v ∈ m.volumes ∨ (∃ p ∈ (update_discs_diff src m).added.filterMap
          (update_discs_new_pair c m), p.1 = v) ∨
        v ∈ (registry_remove volume_has_device (update_discs_diff src m).removed
          m.disc_volumes).1) ∧ v.udi = u := by
    intro x hx hxu hne
    obtain ⟨v, hv, hvu⟩ := h x hx u hxu
    rw [List.mem_append] at hv
    rcases hv with hv | hv
    · exact ⟨v, Or.inl hv, hvu⟩
    · exact ⟨v, Or.inr (Or.inr (registry_remove_keeps _ _ v hv
        (fun w hw => by rw [hvu]; exact hne w hw))), hvu⟩
  rcases hmount with hin | ⟨p, hp, rfl⟩ | hin
  · obtain ⟨x, hx, hxu, hne⟩ := mem_unset_volumes _ _ _ hin u hu
    exact key x (List.mem_append.2 (Or.inl hx)) hxu hne
  · refine ⟨p.1, Or.inr (Or.inl ⟨p, hp, rfl⟩), ?_⟩
    rw [List.mem_filterMap] at hp
    obtain ⟨d, _, hd⟩ := hp
    obtain ⟨drive, _, _, hmt⟩ := update_discs_new_pair_some c m d p.1 p.2 hd
    exact (update_discs_new_mount_kept c hc d _ _ hmt).2 u hu
  · obtain ⟨x, hx, hxu, hne⟩ := mem_unset_volumes _ _ _ hin u hu
    exact key x (List.mem_append.2 (Or.inr ((registry_remove_mem mount_has_device _ _ x).2
      (Or.inr hx)))) hxu hne

theorem reachable_owned (m : GHalVolumeMonitor) (h : Reachable m) : OwnershipInvariant m := by
  induction h with
  | init => intro mount hmount; simp [g_hal_volume_monitor_init] at hmount
  | drives c src m s _ _ ih => exact update_drives_owned c src m s ih
  | volumes c src m s _ _ ih => exact update_volumes_owned c src m s ih
  | mounts c src m s hc _ ih => exact update_mounts_owned c hc src m s ih
  | discs c src m s hc _ ih => exact update_discs_owned c hc src m s ih

theorem reachable_force_updates (updates : List (Collaborators × Snapshot))
    (hc : ∀ x ∈ updates, IdentityKept x.1) :
    ∀ m, Reachable m → Reachable (force_updates updates m) := by
  induction updates with
  | nil => intro m hm; exact hm
  | cons x l ih =>
    intro m hm
    exact ih (fun y hy => hc y (List.mem_cons_of_mem _ hy)) _
      (reachable_force_update x.1 (hc x (List.mem_cons_self _ _)) x.2 m hm)

/-- C18: after any sequence of full updates from the initial monitor, and after every
single pass of one, every live Mount (in `mounts` or `disc_mounts`) that is associated
with a Volume is associated with the key of a Volume live in `volumes` or
`disc_volumes`. The constructors are taken to keep identities (`IdentityKept`). -/
theorem mounts_refer_to_live_volumes :
    (∀ m, Reachable m → OwnershipInvariant m) ∧
    (∀ updates : List (Collaborators × Snapshot), (∀ x ∈ updates, IdentityKept x.1) →
      OwnershipInvariant (force_updates updates g_hal_volume_monitor_init)) :=
  ⟨reachable_owned, fun updates hc =>
    reachable_owned _ (reachable_force_updates updates hc _ Reachable.init)⟩

/-- C18 at two full updates: the first finds a drive, its volume and the volume's mount,
the second finds the volume gone and the mount still there; the Mount is left with no
Volume. -/
theorem mounts_refer_to_live_volumes_witness :
    OwnershipInvariant (force_updates [(sample_collaborators, sample_mounted_snapshot),
      (sample_collaborators, sample_unplugged_snapshot)] g_hal_volume_monitor_init) ∧
    (force_updates [(sample_collaborators, sample_mounted_snapshot)]
      g_hal_volume_monitor_init).mounts = [⟨some "/media/disk", none, some "/hal/vol2"⟩] ∧
    (force_updates [(sample_collaborators, sample_mounted_snapshot),
      (sample_collaborators, sample_unplugged_snapshot)] g_hal_volume_monitor_init).mounts =
      [⟨some "/media/disk", none, none⟩] :=
  ⟨mounts_refer_to_live_volumes.2 _ (fun x hx => by
      simp only [List.mem_cons, List.mem_singleton, List.not_mem_nil, or_false] at hx
      rcases hx with rfl | rfl <;> exact identity_kept_sample),
    by decide, by decide⟩


/-! ## Theorems: the discs pass, one disc at a time -/

theorem hal_device_udi_ne_of_lt (a b : HalDevice) (h : hal_device_compare a b < 0) :
    a.udi ≠ b.udi := by
  intro he
  have := (hal_device_compare_eq_zero a b).2 he
  omega

/-- Between strictly sorted device lists the diff's lists hold every UDI at most once, and
no UDI is both added and removed. -/
theorem diff_sorted_lists_udi_distinct (old new : List HalDevice)
    (hold : StrictlySorted hal_device_compare old)
    (hnew : StrictlySorted hal_device_compare new) :
    (diff_sorted_lists hal_device_compare old new).added.Pairwise
        (fun a b => a.udi ≠ b.udi) ∧
    (diff_sorted_lists hal_device_compare old new).removed.Pairwise
        (fun a b => a.udi ≠ b.udi) ∧
    ∀ a ∈ (diff_sorted_lists hal_device_compare old new).added,
      ∀ r ∈ (diff_sorted_lists hal_device_compare old new).removed, a.udi ≠ r.udi := by
  unfold diff_sorted_lists
  rw [diff_sorted_lists_loop_sorted hal_device_compare_total_order old new hold hnew]
  simp only [List.append_nil]
  refine ⟨?_, ?_, ?_⟩
  · rw [List.pairwise_reverse]
    exact ((List.Pairwise.sublist (List.filter_sublist _) hnew).imp
      (fun {a b} h => (hal_device_udi_ne_of_lt a b h).symm))
  · rw [List.pairwise_reverse]
    exact ((List.Pairwise.sublist (List.filter_sublist _) hold).imp
      (fun {a b} h => (hal_device_udi_ne_of_lt a b h).symm))
  · intro a ha r hr hudi
    simp only [List.mem_reverse, List.mem_filter, List.all_eq_true, bne_iff_ne, ne_eq] at ha hr
    exact ha.2 r hr.1 ((hal_device_compare_eq_zero r a).2 hudi.symm)

theorem split_of_mem_pairwise {α K : Type} (key : α → K) (l : List α)
    (hp : l.Pairwise (fun a b => key a ≠ key b)) (d : α) (hd : d ∈ l) :
    ∃ l1 l2, l = l1 ++ d :: l2 ∧ (∀ x ∈ l1, key x ≠ key d) ∧ (∀ x ∈ l2, key x ≠ key d) := by
  obtain ⟨l1, l2, rfl⟩ := List.append_of_mem hd
  rw [List.pairwise_append] at hp
  obtain ⟨_, h2, h3⟩ := hp
  rw [List.pairwise_cons] at h2
  exact ⟨l1, l2, rfl, fun x hx => h3 x hx d (List.mem_cons_self _ _),
    fun x hx => (h2.1 x hx).symm⟩

theorem find_erase_p_other {E : Type} (p q : E → Bool)
    (h : ∀ e, p e = true → q e = false) :
    ∀ l : List E, (l.eraseP p).find? q = l.find? q := by
  intro l
  induction l with
  | nil => rfl
  | cons a t ih =>
    by_cases hp : p a = true
    · rw [List.eraseP_cons_of_pos hp, List.find?_cons_of_neg _ (by rw [h a hp]; simp)]
    · rw [List.eraseP_cons_of_neg hp]
      by_cases hq : q a = true
      · rw [List.find?_cons_of_pos _ hq, List.find?_cons_of_pos _ hq]
      · rw [List.find?_cons_of_neg _ hq, List.find?_cons_of_neg _ hq, ih]

theorem registry_remove_find_other {E S : Type} (has : E → S → Bool) (q : E → Bool) :
    ∀ (l : List S) (reg : List E), (∀ r ∈ l, ∀ e, has e r = true → q e = false) →
      (registry_remove has l reg).1.find? q = reg.find? q := by
  intro l
  induction l with
  | nil => intro reg _; rfl
  | cons r l ih =>
    intro reg h
    rw [registry_remove_cons]
    simp only
    rw [ih _ (fun r2 hr2 => h r2 (List.mem_cons_of_mem _ hr2))]
    exact find_erase_p_other _ q (h r (List.mem_cons_self _ _)) reg

theorem update_discs_removed_signals_cons (d : HalDevice) (l : List HalDevice)
    (mounts : List GHalMount) (volumes : List GHalVolume) :
    update_discs_removed_signals (d :: l) mounts volumes =
      ((mounts.find? (fun m => mount_has_device m d)).toList.map
          (fun m => VolumeMonitorSignal.mount_removed (g_hal_mount_unmounted m))) ++
        ((volumes.find? (fun v => volume_has_device v d)).toList.map
          VolumeMonitorSignal.volume_removed) ++
        update_discs_removed_signals l (mounts.eraseP (fun m => mount_has_device m d))
          (volumes.eraseP (fun v => volume_has_device v d)) :=
  rfl

theorem update_discs_removed_signals_append :
    ∀ (l1 l2 : List HalDevice) (mounts : List GHalMount) (volumes : List GHalVolume),
      update_discs_removed_signals (l1 ++ l2) mounts volumes =
        update_discs_removed_signals l1 mounts volumes ++
          update_discs_removed_signals l2 (registry_remove mount_has_device l1 mounts).1
            (registry_remove volume_has_device l1 volumes).1 := by
  intro l1
  induction l1 with
  | nil => intro l2 mounts volumes; simp [update_discs_removed_signals, registry_remove]
  | cons d l1 ih =>
    intro l2 mounts volumes
    rw [registry_remove_cons, registry_remove_cons, List.cons_append,
      update_discs_removed_signals_cons, update_discs_removed_signals_cons, ih]
    simp only [List.append_assoc]

theorem update_discs_removed_signals_udi :
    ∀ (l : List HalDevice) (mounts : List GHalMount) (volumes : List GHalVolume),
      ∀ x ∈ update_discs_removed_signals l mounts volumes, ∃ r ∈ l, x.udi = some r.udi := by
  intro l
  induction l with
  | nil => intro mounts volumes x hx; simp [update_discs_removed_signals] at hx
  | cons d l ih =>
    intro mounts volumes x hx
    simp only [update_discs_removed_signals, List.mem_append, List.mem_map,
      Option.mem_toList] at hx
    rcases hx with (⟨mt, hmt, rfl⟩ | ⟨v, hv, rfl⟩) | hx
    · refine ⟨d, List.mem_cons_self _ _, ?_⟩
      have := (mount_has_device_iff mt d).1 (by simpa using List.find?_some hmt)
      simpa [VolumeMonitorSignal.udi, g_hal_mount_unmounted] using this
    · refine ⟨d, List.mem_cons_self _ _, ?_⟩
      have := (volume_has_device_iff v d).1 (by simpa using List.find?_some hv)
      simpa [VolumeMonitorSignal.udi] using this
    · obtain ⟨r, hr, hx2⟩ := ih _ _ x hx
      exact ⟨r, List.mem_cons_of_mem _ hr, hx2⟩

theorem find_reverse_split {E : Type} (p : E → Bool) (l1 l2 rest : List E) (x : E)
    (h2 : ∀ y ∈ l2, p y = false) (hx : p x = true) :
    ((l1 ++ x :: l2).reverse ++ rest).find? p = some x := by
  rw [List.reverse_append, List.reverse_cons, List.append_assoc, List.append_assoc,
    List.find?_append]
  have h : l2.reverse.find? p = none := by
    rw [List.find?_eq_none]
    intro y hy
    rw [h2 y (List.mem_reverse.1 hy)]
    simp
  rw [h]
  simp [List.find?_cons_of_pos _ hx]

theorem find_none_of_forall {E : Type} (p : E → Bool) (l : List E)
    (h : ∀ y ∈ l, p y = false) : l.find? p = none := by
  rw [List.find?_eq_none]
  intro y hy
  rw [h y hy]
  simp


theorem volume_has_device_false (v : GHalVolume) (d : HalDevice) (h : v.udi ≠ d.udi) :
    volume_has_device v d = false := by
  rw [Bool.eq_false_iff]
  exact fun ht => h ((volume_has_device_iff v d).1 ht)

theorem mount_has_device_false (mt : GHalMount) (d : HalDevice) (h : mt.udi ≠ some d.udi) :
    mount_has_device mt d = false := by
  rw [Bool.eq_false_iff]
  exact fun ht => h ((mount_has_device_iff mt d).1 ht)

/-- The pair constructed for an added disc has the disc's identity. -/
theorem update_discs_new_pair_udi (c : Collaborators) (hc : IdentityKept c)
    (m : GHalVolumeMonitor) (A : List HalDevice) :
    ∀ p ∈ A.filterMap (update_discs_new_pair c m),
      ∃ a ∈ A, p.1.udi = a.udi ∧ p.2.udi = some a.udi := by
  intro p hp
  rw [List.mem_filterMap] at hp
  obtain ⟨a, ha, hpa⟩ := hp
  exact ⟨a, ha, update_discs_new_pair_fst_udi c hc m a p.1 (by rw [hpa]; rfl),
    update_discs_new_pair_snd_udi c hc m a p.2 (by rw [hpa]; rfl)⟩

theorem update_discs_added_signals_udi (c : Collaborators) (hc : IdentityKept c)
    (m : GHalVolumeMonitor) (A : List HalDevice) (k : String) (hA : ∀ a ∈ A, a.udi ≠ k) :
    ∀ x ∈ (A.filterMap (update_discs_new_pair c m)).flatMap
        (fun p => [VolumeMonitorSignal.volume_added p.1, VolumeMonitorSignal.mount_added p.2]),
      x.udi ≠ some k := by
  intro x hx
  rw [List.mem_flatMap] at hx
  obtain ⟨p, hp, hxp⟩ := hx
  obtain ⟨a, ha, h1, h2⟩ := update_discs_new_pair_udi c hc m A p hp
  simp only [List.mem_cons, List.mem_singleton, List.not_mem_nil, or_false] at hxp
  rcases hxp with rfl | rfl
  · simp only [VolumeMonitorSignal.udi, h1, ne_eq, Option.some.injEq]
    exact hA a ha
  · simp only [VolumeMonitorSignal.udi, h2, ne_eq, Option.some.injEq]
    exact hA a ha

theorem update_discs_removed_signals_udi_ne (l : List HalDevice) (mounts : List GHalMount)
    (volumes : List GHalVolume) (k : String) (hl : ∀ r ∈ l, r.udi ≠ k) :
    ∀ x ∈ update_discs_removed_signals l mounts volumes, x.udi ≠ some k := by
  intro x hx
  obtain ⟨r, hr, hxr⟩ := update_discs_removed_signals_udi l mounts volumes x hx
  rw [hxr, ne_eq, Option.some.injEq]
  exact hl r hr

/-- The addition half of the disc pairing. -/
theorem disc_pair_added (c : Collaborators) (hc : IdentityKept c) (src : Snapshot)
    (m : GHalVolumeMonitor) (s : List VolumeMonitorSignal) (d : HalDevice)
    (hold : StrictlySorted hal_device_compare m.last_optical_disc_devices)
    (hnew : StrictlySorted hal_device_compare (update_discs_new_optical_disc_devices src))
    (volume : GHalVolume) (mount : GHalMount)
    (hd : d ∈ (update_discs_diff src m).added)
    (hpair : update_discs_new_pair c m d = some (volume, mount)) :
    ∃ pre post : List VolumeMonitorSignal,
      (update_discs c src (m, s)).2 =
        s ++ pre ++ [VolumeMonitorSignal.volume_added volume,
          VolumeMonitorSignal.mount_added mount] ++ post ∧
      (∀ x ∈ pre ++ post, x.udi ≠ some d.udi) ∧
      find_disc_volume_by_udi (update_discs c src (m, s)).1 (some (hal_device_get_udi d)) =
        some volume ∧
      find_disc_mount_by_udi (update_discs c src (m, s)).1 (some (hal_device_get_udi d)) =
        some mount := by
  have hdist := diff_sorted_lists_udi_distinct _ _ hold hnew
  have hA : (update_discs_diff src m).added.Pairwise (fun a b => a.udi ≠ b.udi) := hdist.1
  have hAR : ∀ a ∈ (update_discs_diff src m).added,
      ∀ r ∈ (update_discs_diff src m).removed, a.udi ≠ r.udi := hdist.2.2
  obtain ⟨A1, A2, hsplit, h1, h2⟩ := split_of_mem_pairwise HalDevice.udi _ hA d hd
  have hvu : volume.udi = d.udi :=
    update_discs_new_pair_fst_udi c hc m d volume (by rw [hpair]; rfl)
  have hmu : mount.udi = some d.udi :=
    update_discs_new_pair_snd_udi c hc m d mount (by rw [hpair]; rfl)
  have hP : (update_discs_diff src m).added.filterMap (update_discs_new_pair c m) =
      A1.filterMap (update_discs_new_pair c m) ++
        (volume, mount) :: A2.filterMap (update_discs_new_pair c m) := by
    rw [hsplit, List.filterMap_append, List.filterMap_cons_some hpair]
  rw [update_discs_eq, hP]
  refine ⟨update_discs_removed_signals (update_discs_diff src m).removed m.disc_mounts
      m.disc_volumes ++ (A1.filterMap (update_discs_new_pair c m)).flatMap
        (fun p => [VolumeMonitorSignal.volume_added p.1, VolumeMonitorSignal.mount_added p.2]),
    (A2.filterMap (update_discs_new_pair c m)).flatMap
        (fun p => [VolumeMonitorSignal.volume_added p.1, VolumeMonitorSignal.mount_added p.2]),
    ?_, ?_, ?_, ?_⟩
  · simp only [List.flatMap_append, List.flatMap_cons, List.append_assoc, List.cons_append,
      List.nil_append]
  · intro x hx
    simp only [List.mem_append] at hx
    rcases hx with (hx | hx) | hx
    · exact update_discs_removed_signals_udi_ne _ _ _ d.udi
        (fun r hr => (hAR d hd r hr).symm) x hx
    · exact update_discs_added_signals_udi c hc m A1 d.udi h1 x hx
    · exact update_discs_added_signals_udi c hc m A2 d.udi h2 x hx
  · show List.find? (fun v => volume_has_device v d) _ = some volume
    simp only [List.map_append, List.map_cons]
    apply find_reverse_split
    · intro y hy
      rw [List.mem_map] at hy
      obtain ⟨p, hp, rfl⟩ := hy
      obtain ⟨a, ha, hpa, _⟩ := update_discs_new_pair_udi c hc m A2 p hp
      exact volume_has_device_false _ _ (by rw [hpa]; exact h2 a ha)
    · exact (volume_has_device_iff volume d).2 hvu
  · show List.find? (fun mt => mount_has_device mt d) _ = some mount
    simp only [List.map_append, List.map_cons]
    apply find_reverse_split
    · intro y hy
      rw [List.mem_map] at hy
      obtain ⟨p, hp, rfl⟩ := hy
      obtain ⟨a, ha, _, hpa⟩ := update_discs_new_pair_udi c hc m A2 p hp
      exact mount_has_device_false _ _
        (by rw [hpa, ne_eq, Option.some.injEq]; exact h2 a ha)
    · exact (mount_has_device_iff mount d).2 hmu

theorem count_le_one_of_nodup {K : Type} [BEq K] [LawfulBEq K] (l : List K)
    (h : l.Nodup) (k : K) : l.count k ≤ 1 := by
  induction l with
  | nil => simp
  | cons a t ih =>
    obtain ⟨h1, h2⟩ := List.nodup_cons.1 h
    rw [List.count_cons]
    by_cases hak : (a == k) = true
    · have hk : a = k := eq_of_beq hak
      have h0 : t.count k = 0 := List.count_eq_zero.2 (by rw [← hk]; exact h1)
      rw [if_pos hak, h0]
    · rw [if_neg hak]
      exact ih h2

theorem count_le_one_of_strictly_sorted (l : List HalDevice)
    (h : StrictlySorted hal_device_compare l) (k : String) :
    (l.map HalDevice.udi).count k ≤ 1 := by
  apply count_le_one_of_nodup
  unfold List.Nodup
  rw [List.pairwise_map]
  exact h.imp (fun {a b} hab => hal_device_udi_ne_of_lt a b hab)

theorem count_some_le_one_of_strictly_sorted (l : List HalDevice)
    (h : StrictlySorted hal_device_compare l) (k : Option String) :
    (l.map (fun d => some d.udi)).count k ≤ 1 := by
  apply count_le_one_of_nodup
  unfold List.Nodup
  rw [List.pairwise_map]
  exact h.imp (fun {a b} hab he => hal_device_udi_ne_of_lt a b hab (Option.some.inj he))

/-- The removal half of the disc pairing. -/
theorem disc_pair_removed (c : Collaborators) (hc : IdentityKept c) (src : Snapshot)
    (m : GHalVolumeMonitor) (hm : CountedRegistries m) (s : List VolumeMonitorSignal)
    (d : HalDevice)
    (hold : StrictlySorted hal_device_compare m.last_optical_disc_devices)
    (hnew : StrictlySorted hal_device_compare (update_discs_new_optical_disc_devices src))
    (volume : GHalVolume) (mount : GHalMount)
    (hd : d ∈ (update_discs_diff src m).removed)
    (hv : find_disc_volume_by_udi m (some (hal_device_get_udi d)) = some volume)
    (hmt : find_disc_mount_by_udi m (some (hal_device_get_udi d)) = some mount) :
    ∃ pre post : List VolumeMonitorSignal,
      (update_discs c src (m, s)).2 =
        s ++ pre ++ [VolumeMonitorSignal.mount_removed (g_hal_mount_unmounted mount),
          VolumeMonitorSignal.volume_removed volume] ++ post ∧
      (∀ x ∈ pre ++ post, x.udi ≠ some d.udi) ∧
      find_disc_volume_by_udi (update_discs c src (m, s)).1 (some (hal_device_get_udi d)) =
        none ∧
      find_disc_mount_by_udi (update_discs c src (m, s)).1 (some (hal_device_get_udi d)) =
        none := by
  have hdist := diff_sorted_lists_udi_distinct _ _ hold hnew
  have hR : (update_discs_diff src m).removed.Pairwise (fun a b => a.udi ≠ b.udi) :=
    hdist.2.1
  have hAR : ∀ a ∈ (update_discs_diff src m).added,
      ∀ r ∈ (update_discs_diff src m).removed, a.udi ≠ r.udi := hdist.2.2
  obtain ⟨R1, R2, hsplit, h1, h2⟩ := split_of_mem_pairwise HalDevice.udi _ hR d hd
  have hv1 : (registry_remove volume_has_device R1 m.disc_volumes).1.find?
      (fun v => volume_has_device v d) = some volume := by
    rw [registry_remove_find_other volume_has_device (fun v => volume_has_device v d) R1 _
      (fun r hr e he => volume_has_device_false e d
        (by rw [(volume_has_device_iff e r).1 he]; exact h1 r hr))]
    exact hv
  have hm1 : (registry_remove mount_has_device R1 m.disc_mounts).1.find?
      (fun mt => mount_has_device mt d) = some mount := by
    rw [registry_remove_find_other mount_has_device (fun mt => mount_has_device mt d) R1 _
      (fun r hr e he => mount_has_device_false e d
        (by rw [(mount_has_device_iff e r).1 he, ne_eq, Option.some.injEq]; exact h1 r hr))]
    exact hmt
  have hsig : update_discs_removed_signals (update_discs_diff src m).removed m.disc_mounts
      m.disc_volumes =
      update_discs_removed_signals R1 m.disc_mounts m.disc_volumes ++
        ([VolumeMonitorSignal.mount_removed (g_hal_mount_unmounted mount),
            VolumeMonitorSignal.volume_removed volume] ++
          update_discs_removed_signals R2
            ((registry_remove mount_has_device R1 m.disc_mounts).1.eraseP
              (fun mt => mount_has_device mt d))
            ((registry_remove volume_has_device R1 m.disc_volumes).1.eraseP
              (fun v => volume_has_device v d))) := by
    rw [hsplit, update_discs_removed_signals_append, update_discs_removed_signals_cons,
      hv1, hm1]
    rfl
  have hcv : ∀ y ∈ (registry_remove volume_has_device (update_discs_diff src m).removed
      m.disc_volumes).1, y.udi ≠ d.udi := by
    intro y hy hyd
    have h3 := registry_remove_count volume_has_device GHalVolume.udi HalDevice.udi
      volume_has_device_iff (update_discs_diff src m).removed m.disc_volumes d.udi
    have h4 := hm.disc_volumes d.udi
    have h5 := count_le_one_of_strictly_sorted _ hold d.udi
    have h6 : 0 < ((update_discs_diff src m).removed.map HalDevice.udi).count d.udi :=
      List.count_pos_iff.2 (List.mem_map_of_mem _ hd)
    have h7 : 0 < ((registry_remove volume_has_device (update_discs_diff src m).removed
        m.disc_volumes).1.map GHalVolume.udi).count d.udi :=
      List.count_pos_iff.2 (by rw [← hyd]; exact List.mem_map_of_mem _ hy)
    omega
  have hcm : ∀ y ∈ (registry_remove mount_has_device (update_discs_diff src m).removed
      m.disc_mounts).1, y.udi ≠ some d.udi := by
    intro y hy hyd
    have h3 := registry_remove_count mount_has_device GHalMount.udi
      (fun (d : HalDevice) => some d.udi)
      mount_has_device_iff (update_discs_diff src m).removed m.disc_mounts (some d.udi)
    have h4 := hm.disc_mounts (some d.udi)
    have h5 := count_some_le_one_of_strictly_sorted _ hold (some d.udi)
    have h6 : 0 < ((update_discs_diff src m).removed.map
        (fun (d : HalDevice) => some d.udi)).count (some d.udi) :=
      List.count_pos_iff.2 (List.mem_map_of_mem _ hd)
    have h7 : 0 < ((registry_remove mount_has_device (update_discs_diff src m).removed
        m.disc_mounts).1.map GHalMount.udi).count (some d.udi) :=
      List.count_pos_iff.2 (by rw [← hyd]; exact List.mem_map_of_mem _ hy)
    omega
  rw [update_discs_eq, hsig]
  refine ⟨update_discs_removed_signals R1 m.disc_mounts m.disc_volumes,
    update_discs_removed_signals R2
        ((registry_remove mount_has_device R1 m.disc_mounts).1.eraseP
          (fun mt => mount_has_device mt d))
        ((registry_remove volume_has_device R1 m.disc_volumes).1.eraseP
          (fun v => volume_has_device v d)) ++
      ((update_discs_diff src m).added.filterMap (update_discs_new_pair c m)).flatMap
        (fun p => [VolumeMonitorSignal.volume_added p.1, VolumeMonitorSignal.mount_added p.2]),
    ?_, ?_, ?_, ?_⟩
  · simp only [List.append_assoc, List.cons_append, List.nil_append]
  · intro x hx
    simp only [List.mem_append] at hx
    rcases hx with hx | hx | hx
    · exact update_discs_removed_signals_udi_ne _ _ _ d.udi h1 x hx
    · exact update_discs_removed_signals_udi_ne _ _ _ d.udi h2 x hx
    · exact update_discs_added_signals_udi c hc m _ d.udi
        (fun a ha => hAR a ha d hd) x hx
  · show List.find? (fun v => volume_has_device v d) _ = none
    apply find_none_of_forall
    intro y hy
    simp only [List.mem_append, List.mem_reverse, List.mem_map] at hy
    rcases hy with ⟨p, hp, rfl⟩ | hy
    · obtain ⟨a, ha, hpa, _⟩ := update_discs_new_pair_udi c hc m _ p hp
      exact volume_has_device_false _ _ (by rw [hpa]; exact hAR a ha d hd)
    · exact volume_has_device_false _ _ (hcv y hy)
  · show List.find? (fun mt => mount_has_device mt d) _ = none
    apply find_none_of_forall
    intro y hy
    simp only [List.mem_append, List.mem_reverse, List.mem_map] at hy
    rcases hy with ⟨p, hp, rfl⟩ | hy
    · obtain ⟨a, ha, _, hpa⟩ := update_discs_new_pair_udi c hc m _ p hp
      exact mount_has_device_false _ _
        (by rw [hpa, ne_eq, Option.some.injEq]; exact hAR a ha d hd)
    · obtain ⟨f, hf, hprop⟩ := unset_volumes_eq_map
        (registry_remove volume_has_device (update_discs_diff src m).removed
          m.disc_volumes).2
        (registry_remove mount_has_device (update_discs_diff src m).removed m.disc_mounts).1
      rw [hf, List.mem_map] at hy
      obtain ⟨x, hx, rfl⟩ := hy
      exact mount_has_device_false _ _ (by rw [(hprop x).2.1]; exact hcm x hx)


theorem update_discs_new_pair_of (c : Collaborators) (m : GHalVolumeMonitor) (d : HalDevice)
    (drive : GHalDrive) (volume : GHalVolume) (mount : GHalMount)
    (h1 : find_drive_by_udi m (hal_device_get_property_string d "block.storage_device") =
      some drive)
    (h2 : c.g_hal_volume_new d (some drive) = some volume)
    (h3 : update_discs_new_mount c d volume = some mount) :
    update_discs_new_pair c m d = some (volume, mount) := by
  unfold update_discs_new_pair
  rw [h1]
  dsimp only
  rw [h2]
  dsimp only
  rw [h3]

/-- C16: in a reachable monitor, with no two disc devices of one UDI in the last and in
the new snapshot, and constructors that keep identities. (1) For a newly added disc device
`d` whose parent Drive is live and for which the Volume and the Mount are constructed (for
a blank disc the Mount of root `burn:///`), `update_discs` emits `volume_added` for the
Volume immediately followed by `mount_added` for the Mount, emits no other signal for
`d`'s UDI, and leaves the two as the disc volume and the disc mount found for that UDI.
(2) For a removed disc device `d` whose disc volume and disc mount are live,
`update_discs` emits `mount_removed` for the Mount (marked unmounted) immediately followed
by `volume_removed` for the Volume, emits no other signal for `d`'s UDI, and leaves no
disc volume and no disc mount of that UDI. (3) So when the discs pass after the one of
(1) finds `d` gone, it emits just that `mount_removed` and `volume_removed` for the two
entities of (1) and unregisters both. -/
theorem disc_pairing_atomic (c : Collaborators) (hc : IdentityKept c) (src : Snapshot)
    (m : GHalVolumeMonitor) (hm : Reachable m) (s : List VolumeMonitorSignal) (d : HalDevice)
    (hold : StrictlySorted hal_device_compare m.last_optical_disc_devices)
    (hnew : StrictlySorted hal_device_compare (update_discs_new_optical_disc_devices src)) :
    (∀ volume, hal_device_get_property_bool d "volume.disc.is_blank" = true →
      update_discs_new_mount c d volume =
        c.g_hal_mount_new_for_hal_device d "burn:///" none none true volume) ∧
    (∀ drive volume mount,
      d ∈ (update_discs_diff src m).added →
      find_drive_by_udi m (hal_device_get_property_string d "block.storage_device") =
        some drive →
      c.g_hal_volume_new d (some drive) = some volume →
      update_discs_new_mount c d volume = some mount →
      ∃ pre post : List VolumeMonitorSignal,
        (update_discs c src (m, s)).2 =
          s ++ pre ++ [VolumeMonitorSignal.volume_added volume,
            VolumeMonitorSignal.mount_added mount] ++ post ∧
        (∀ x ∈ pre ++ post, x.udi ≠ some d.udi) ∧
        find_disc_volume_by_udi (update_discs c src (m, s)).1 (some (hal_device_get_udi d)) =
          some volume ∧
        find_disc_mount_by_udi (update_discs c src (m, s)).1 (some (hal_device_get_udi d)) =
          some mount) ∧
    (∀ volume mount,
      d ∈ (update_discs_diff src m).removed →
      find_disc_volume_by_udi m (some (hal_device_get_udi d)) = some volume →
      find_disc_mount_by_udi m (some (hal_device_get_udi d)) = some mount →
      ∃ pre post : List VolumeMonitorSignal,
        (update_discs c src (m, s)).2 =
          s ++ pre ++ [VolumeMonitorSignal.mount_removed (g_hal_mount_unmounted mount),
            VolumeMonitorSignal.volume_removed volume] ++ post ∧
        (∀ x ∈ pre ++ post, x.udi ≠ some d.udi) ∧
        find_disc_volume_by_udi (update_discs c src (m, s)).1 (some (hal_device_get_udi d)) =
          none ∧
        find_disc_mount_by_udi (update_discs c src (m, s)).1 (some (hal_device_get_udi d)) =
          none) ∧
    (∀ drive volume mount (c2 : Collaborators) (src2 : Snapshot)
        (s2 : List VolumeMonitorSignal),
      d ∈ (update_discs_diff src m).added →
      find_drive_by_udi m (hal_device_get_property_string d "block.storage_device") =
        some drive →
      c.g_hal_volume_new d (some drive) = some volume →
      update_discs_new_mount c d volume = some mount →
      IdentityKept c2 →
      StrictlySorted hal_device_compare (update_discs_new_optical_disc_devices src2) →
      d ∈ (update_discs_diff src2 (update_discs c src (m, s)).1).removed →
      ∃ pre post : List VolumeMonitorSignal,
        (update_discs c2 src2 ((update_discs c src (m, s)).1, s2)).2 =
          s2 ++ pre ++ [VolumeMonitorSignal.mount_removed (g_hal_mount_unmounted mount),
            VolumeMonitorSignal.volume_removed volume] ++ post ∧
        (∀ x ∈ pre ++ post, x.udi ≠ some d.udi) ∧
        find_disc_volume_by_udi (update_discs c2 src2 ((update_discs c src (m, s)).1, s2)).1
          (some (hal_device_get_udi d)) = none ∧
        find_disc_mount_by_udi (update_discs c2 src2 ((update_discs c src (m, s)).1, s2)).1
          (some (hal_device_get_udi d)) = none) := by
  refine ⟨fun volume hb => ?_, fun drive volume mount hd h1 h2 h3 => ?_,
    fun volume mount hd hv hmt => ?_,
    fun drive volume mount c2 src2 s2 hd h1 h2 h3 hc2 hnew2 hd2 => ?_⟩
  · unfold update_discs_new_mount
    rw [if_pos hb]
  · exact disc_pair_added c hc src m s d hold hnew volume mount hd
      (update_discs_new_pair_of c m d drive volume mount h1 h2 h3)
  · exact disc_pair_removed c hc src m (reachable_counted m hm) s d hold hnew volume mount
      hd hv hmt
  · obtain ⟨_, _, _, _, h5, h6⟩ := disc_pair_added c hc src m s d hold hnew volume mount hd
      (update_discs_new_pair_of c m d drive volume mount h1 h2 h3)
    exact disc_pair_removed c2 hc2 src2 _
      (update_discs_counted c hc src m s (reachable_counted m hm)) s2 d
      (by rw [(update_discs_last c src (m, s)).1]; exact hnew) hnew2 volume mount hd2 h5 h6

/-- C16 at the sample drive: the discs pass that finds the blank disc registers its Volume
and its Mount, and the discs pass against the empty snapshot after it unregisters both. -/
theorem disc_pairing_atomic_witness :
    find_disc_volume_by_udi
        (update_discs sample_collaborators sample_disc_snapshot
          ((update_drives sample_collaborators sample_disc_snapshot
            (g_hal_volume_monitor_init, [])).1, [])).1 (some "/hal/disc0") =
      some ⟨"/hal/disc0", none⟩ ∧
    find_disc_mount_by_udi
        (update_discs sample_collaborators sample_disc_snapshot
          ((update_drives sample_collaborators sample_disc_snapshot
            (g_hal_volume_monitor_init, [])).1, [])).1 (some "/hal/disc0") =
      some ⟨none, some "/hal/disc0", some "/hal/disc0"⟩ ∧
    find_disc_volume_by_udi
        (update_discs sample_collaborators sample_empty_snapshot
          ((update_discs sample_collaborators sample_disc_snapshot
            ((update_drives sample_collaborators sample_disc_snapshot
              (g_hal_volume_monitor_init, [])).1, [])).1, [])).1 (some "/hal/disc0") =
      none := by
  have h := disc_pairing_atomic sample_collaborators identity_kept_sample
    sample_disc_snapshot
    (update_drives sample_collaborators sample_disc_snapshot (g_hal_volume_monitor_init, [])).1
    (Reachable.drives _ _ _ _ identity_kept_sample Reachable.init) [] sample_blank_disc
    (by decide) (by decide)
  obtain ⟨_, _, _, _, h3, h4⟩ := h.2.1 ⟨"/hal/drive0"⟩ ⟨"/hal/disc0", none⟩
    ⟨none, some "/hal/disc0", some "/hal/disc0"⟩ (by decide) (by decide) (by decide)
    (by decide)
  obtain ⟨_, _, _, _, h5, _⟩ := h.2.2.2 ⟨"/hal/drive0"⟩ ⟨"/hal/disc0", none⟩
    ⟨none, some "/hal/disc0", some "/hal/disc0"⟩ sample_collaborators sample_empty_snapshot []
    (by decide) (by decide) (by decide) (by decide) identity_kept_sample (by decide)
    (by decide)
  exact ⟨h3, h4, h5⟩


/-! ## Theorems: identity in the diff, the ignore rule, the length balance -/

theorem diff_sorted_lists_loop_forall2 {α : Type} (compare : α → α → Int) :
    ∀ l1 l2 : List α, List.Forall₂ (fun a b => compare a b = 0) l1 l2 →
      ∀ added removed,
        diff_sorted_lists_loop compare l1 l2 added removed = ⟨added, removed⟩ := by
  intro l1 l2 h
  induction h with
  | nil => intro added removed; rfl
  | cons hab _ ih =>
    intro added removed
    rw [diff_sorted_lists_loop_cons_cons, hab]
    simpa using ih added removed

theorem forall2_compare_of_udi :
    ∀ A B : List HalDevice, A.map HalDevice.udi = B.map HalDevice.udi →
      List.Forall₂ (fun a b => hal_device_compare a b = 0) A B := by
  intro A
  induction A with
  | nil =>
    intro B h
    cases B with
    | nil => exact List.Forall₂.nil
    | cons b B => simp at h
  | cons a A ih =>
    intro B h
    cases B with
    | nil => simp at h
    | cons b B =>
      simp only [List.map_cons, List.cons.injEq] at h
      exact List.Forall₂.cons ((hal_device_compare_eq_zero a b).2 h.1) (ih B h.2)

/-- C21: when the UDIs of the devices of `A`, in order, are the UDIs of the devices of
`B`, `diff_sorted_lists` under `hal_device_compare` returns empty `added` and empty
`removed`, whatever the properties of the devices (for this the lists need not even be
sorted); and between strictly sorted lists a device whose UDI occurs in both lists is in
neither output. -/
theorem diff_identity_sole_criterion (A B : List HalDevice) :
    (A.map HalDevice.udi = B.map HalDevice.udi →
      diff_sorted_lists hal_device_compare A B = ⟨[], []⟩) ∧
    (StrictlySorted hal_device_compare A → StrictlySorted hal_device_compare B →
      ∀ x : HalDevice, (∃ a ∈ A, a.udi = x.udi) → (∃ b ∈ B, b.udi = x.udi) →
        x ∉ (diff_sorted_lists hal_device_compare A B).added ∧
        x ∉ (diff_sorted_lists hal_device_compare A B).removed) := by
  constructor
  · intro h
    exact diff_sorted_lists_loop_forall2 hal_device_compare A B (forall2_compare_of_udi A B h)
      [] []
  · intro hA hB x ⟨a, ha, hax⟩ ⟨b, hb, hbx⟩
    unfold diff_sorted_lists
    rw [diff_sorted_lists_loop_sorted hal_device_compare_total_order A B hA hB]
    simp only [List.append_nil, List.mem_reverse, List.mem_filter, List.all_eq_true,
      bne_iff_ne, ne_eq, not_and]
    constructor
    · intro _ h
      exact h a ha ((hal_device_compare_eq_zero a x).2 hax)
    · intro _ h
      exact h b hb ((hal_device_compare_eq_zero x b).2 hbx.symm)

/-- C21 at two snapshots of the same two devices whose properties all differ. -/
theorem diff_identity_sole_criterion_witness :
    diff_sorted_lists hal_device_compare
        [⟨"/hal/a", [("info.product", "Disk")], []⟩, ⟨"/hal/b", [], []⟩]
        [⟨"/hal/a", [("info.product", "Stick")], [("volume.ignore", true)]⟩,
          ⟨"/hal/b", [("volume.fsusage", "filesystem")], []⟩] = ⟨[], []⟩ :=
  (diff_identity_sole_criterion
    [⟨"/hal/a", [("info.product", "Disk")], []⟩, ⟨"/hal/b", [], []⟩]
    [⟨"/hal/a", [("info.product", "Stick")], [("volume.ignore", true)]⟩,
      ⟨"/hal/b", [("volume.fsusage", "filesystem")], []⟩]).1 rfl

/-- C22: a device without the `volume.fsusage` property is not ignored, whatever its
`volume.ignore`, `volume.is_mounted` and `volume.mount_point` properties and whatever
mount paths are system-internal. -/
theorem should_volume_be_ignored_fails_open
    (g_unix_is_mount_path_system_internal : Option String → Bool) (d : HalDevice)
    (h : hal_device_get_property_string d "volume.fsusage" = none) :
    _should_volume_be_ignored g_unix_is_mount_path_system_internal d = false := by
  simp [_should_volume_be_ignored, h]

/-- C22 at a device with `volume.ignore` and `volume.is_mounted` set and a system-internal
mount point. -/
theorem should_volume_be_ignored_fails_open_witness :
    _should_volume_be_ignored (fun _ => true)
      ⟨"/hal/vol3", [("volume.mount_point", "/proc")],
        [("volume.ignore", true), ("volume.is_mounted", true)]⟩ = false :=
  should_volume_be_ignored_fails_open (fun _ => true)
    ⟨"/hal/vol3", [("volume.mount_point", "/proc")],
      [("volume.ignore", true), ("volume.is_mounted", true)]⟩ rfl

/-- C23: for a device whose `volume.fsusage` property is present, `_should_volume_be_ignored`
returns true exactly when `volume.ignore` is true, or the usage is not `filesystem`, or
`volume.is_mounted` is true and the mount point is system-internal; so a device of usage
`filesystem` with no ignore flag that is not mounted is kept. -/
theorem should_volume_be_ignored_rule
    (g_unix_is_mount_path_system_internal : Option String → Bool) (d : HalDevice)
    (fsusage : String)
    (h : hal_device_get_property_string d "volume.fsusage" = some fsusage) :
    (_should_volume_be_ignored g_unix_is_mount_path_system_internal d = true ↔
      (hal_device_get_property_bool d "volume.ignore" = true ∨
        fsusage ≠ "filesystem" ∨
        (hal_device_get_property_bool d "volume.is_mounted" = true ∧
          g_unix_is_mount_path_system_internal
            (hal_device_get_property_string d "volume.mount_point") = true))) ∧
    (fsusage = "filesystem" → hal_device_get_property_bool d "volume.ignore" = false →
      hal_device_get_property_bool d "volume.is_mounted" = false →
      _should_volume_be_ignored g_unix_is_mount_path_system_internal d = false) := by
  have hrule : _should_volume_be_ignored g_unix_is_mount_path_system_internal d = true ↔
      (hal_device_get_property_bool d "volume.ignore" = true ∨
        fsusage ≠ "filesystem" ∨
        (hal_device_get_property_bool d "volume.is_mounted" = true ∧
          g_unix_is_mount_path_system_internal
            (hal_device_get_property_string d "volume.mount_point") = true)) := by
    have hs : strcmp fsusage "filesystem" ≠ 0 ↔ fsusage ≠ "filesystem" :=
      not_congr (strcmp_eq_zero _ _)
    unfold _should_volume_be_ignored
    simp only [h]
    by_cases hi : hal_device_get_property_bool d "volume.ignore" = true
    · simp [hi]
    · by_cases hf : fsusage = "filesystem"
      · subst hf
        have h0 : strcmp "filesystem" "filesystem" = 0 := (strcmp_eq_zero _ _).2 rfl
        by_cases hm : hal_device_get_property_bool d "volume.is_mounted" = true
        · simp [hi, h0, hm]
        · simp [hi, h0, hm]
      · have h1 : strcmp fsusage "filesystem" ≠ 0 := hs.2 hf
        simp [hi, hf, h1]
  refine ⟨hrule, fun hf hi hm => ?_⟩
  rw [Bool.eq_false_iff]
  intro ht
  rcases hrule.1 ht with h1 | h1 | h1
  · rw [hi] at h1; cases h1
  · exact h1 hf
  · rw [hm] at h1; cases h1.1

/-- C23 at a mounted `filesystem` volume: ignored when its mount point is system-internal,
kept otherwise. -/
theorem should_volume_be_ignored_rule_witness :
    _should_volume_be_ignored (fun p => p == some "/proc")
      ⟨"/hal/vol4", [("volume.fsusage", "filesystem"), ("volume.mount_point", "/proc")],
        [("volume.is_mounted", true)]⟩ = true ∧
    _should_volume_be_ignored (fun p => p == some "/proc")
      ⟨"/hal/vol5", [("volume.fsusage", "filesystem")], []⟩ = false :=
  ⟨(should_volume_be_ignored_rule (fun p => p == some "/proc")
      ⟨"/hal/vol4", [("volume.fsusage", "filesystem"), ("volume.mount_point", "/proc")],
        [("volume.is_mounted", true)]⟩ "filesystem" rfl).1.2 (Or.inr (Or.inr ⟨rfl, rfl⟩)),
    (should_volume_be_ignored_rule (fun p => p == some "/proc")
      ⟨"/hal/vol5", [("volume.fsusage", "filesystem")], []⟩ "filesystem" rfl).2
      rfl rfl rfl⟩

theorem diff_sorted_lists_loop_length {α : Type} (compare : α → α → Int) :
    ∀ (l1 l2 A0 R0 : List α),
      l1.length + (diff_sorted_lists_loop compare l1 l2 A0 R0).added.length + R0.length =
          l2.length + (diff_sorted_lists_loop compare l1 l2 A0 R0).removed.length +
            A0.length ∧
        (diff_sorted_lists_loop compare l1 l2 A0 R0).removed.length ≤
          l1.length + R0.length ∧
        (diff_sorted_lists_loop compare l1 l2 A0 R0).added.length ≤
          l2.length + A0.length := by
  apply diff_scan_induction compare
  · intro l2 A0 R0
    rw [diff_sorted_lists_loop_nil_left]
    simp only [List.length_append, List.length_reverse, List.length_nil]
    omega
  · intro l1 A0 R0
    rw [diff_sorted_lists_loop_nil_right]
    simp only [List.length_append, List.length_reverse, List.length_nil]
    omega
  · intro a l1 b l2 hab ih A0 R0
    rw [diff_sorted_lists_loop_cons_cons, if_pos hab]
    have h := ih A0 (a :: R0)
    simp only [List.length_cons] at h ⊢
    omega
  · intro a l1 b l2 h1 h2 ih A0 R0
    rw [diff_sorted_lists_loop_cons_cons, if_neg h1, if_pos h2]
    have h := ih (b :: A0) R0
    simp only [List.length_cons] at h ⊢
    omega
  · intro a l1 b l2 hab ih A0 R0
    have h1 : ¬ compare a b < 0 := by omega
    have h2 : ¬ compare a b > 0 := by omega
    rw [diff_sorted_lists_loop_cons_cons, if_neg h1, if_neg h2]
    have h := ih A0 R0
    simp only [List.length_cons] at h ⊢
    omega

/-- C26: for every comparator and every two lists, sorted or not, `diff_sorted_lists`
(a total function: every scan step consumes an element of one of the lists) returns
outputs with `len A - len removed = len B - len added`, no more removed than `A` is long
and no more added than `B` is long, every element of `removed` an element of `A` and
every element of `added` an element of `B`. -/
theorem diff_sorted_lists_length_balance {α : Type} (compare : α → α → Int)
    (A B : List α) :
    ((A.length : Int) - (diff_sorted_lists compare A B).removed.length =
      (B.length : Int) - (diff_sorted_lists compare A B).added.length) ∧
    (diff_sorted_lists compare A B).removed.length ≤ A.length ∧
    (diff_sorted_lists compare A B).added.length ≤ B.length ∧
    A.length - (diff_sorted_lists compare A B).removed.length =
      B.length - (diff_sorted_lists compare A B).added.length ∧
    (∀ x ∈ (diff_sorted_lists compare A B).removed, x ∈ A) ∧
    (∀ x ∈ (diff_sorted_lists compare A B).added, x ∈ B) := by
  have h := diff_sorted_lists_loop_length compare A B [] []
  have hs := diff_sorted_lists_loop_subset compare A B [] []
  simp only [List.length_nil] at h
  unfold diff_sorted_lists
  refine ⟨by omega, by omega, by omega, by omega, ?_, ?_⟩
  · intro x hx
    rcases hs.2 x hx with h1 | h1
    · exact h1
    · cases h1
  · intro x hx
    rcases hs.1 x hx with h1 | h1
    · exact h1
    · cases h1


/-! ## Theorems: registry keys and the last snapshot -/

theorem udi_kept_of_identity_kept (c : Collaborators) (hc : IdentityKept c) : UdiKept c :=
  ⟨hc.drive_udi, hc.volume_udi, hc.disc_mount_udi⟩

theorem reachable_by_of_reachable (m : GHalVolumeMonitor) (h : Reachable m) :
    ReachableBy UdiKept m := by
  induction h with
  | init => exact ReachableBy.init
  | drives c src m s hc _ ih =>
    exact ReachableBy.drives c src m s (udi_kept_of_identity_kept c hc) ih
  | volumes c src m s hc _ ih =>
    exact ReachableBy.volumes c src m s (udi_kept_of_identity_kept c hc) ih
  | mounts c src m s hc _ ih =>
    exact ReachableBy.mounts c src m s (udi_kept_of_identity_kept c hc) ih
  | discs c src m s hc _ ih =>
    exact ReachableBy.discs c src m s (udi_kept_of_identity_kept c hc) ih

theorem update_discs_new_pair_fst_udi_kept (c : Collaborators) (hc : UdiKept c)
    (m : GHalVolumeMonitor) (d : HalDevice) (v : GHalVolume)
    (h : Option.map Prod.fst (update_discs_new_pair c m d) = some v) : v.udi = d.udi := by
  cases hp : update_discs_new_pair c m d with
  | none => rw [hp] at h; cases h
  | some p =>
    rw [hp] at h
    cases h
    obtain ⟨drive, _, hv, _⟩ := update_discs_new_pair_some c m d p.1 p.2 hp
    exact hc.volume_udi d _ _ hv

theorem update_discs_new_pair_snd_udi_kept (c : Collaborators) (hc : UdiKept c)
    (m : GHalVolumeMonitor) (d : HalDevice) (mt : GHalMount)
    (h : Option.map Prod.snd (update_discs_new_pair c m d) = some mt) :
    mt.udi = some d.udi := by
  cases hp : update_discs_new_pair c m d with
  | none => rw [hp] at h; cases h
  | some p =>
    rw [hp] at h
    cases h
    obtain ⟨drive, _, _, hm⟩ := update_discs_new_pair_some c m d p.1 p.2 hp
    unfold update_discs_new_mount at hm
    split at hm
    · exact hc.disc_mount_udi _ _ _ _ _ _ _ hm
    · exact hc.disc_mount_udi _ _ _ _ _ _ _ hm

theorem update_drives_counted_udis (c : Collaborators) (hc : UdiKept c) (src : Snapshot)
    (m : GHalVolumeMonitor) (s : List VolumeMonitorSignal) (h : CountedUdis m) :
    CountedUdis (update_drives c src (m, s)).1 := by
  rw [update_drives_eq]
  refine ⟨fun k => ?_, h.volumes, h.disc_volumes, h.disc_mounts⟩
  simp only [update_drives_diff]
  rw [registry_add_checked_fst, List.map_append, List.count_append, List.map_reverse,
    List.count_reverse]
  exact counted_after_pass hal_device_compare HalDevice.udi hal_device_compare_udi _ _ k _ _ _
    (h.drives k)
    (registry_remove_count drive_has_device GHalDrive.udi HalDevice.udi drive_has_device_iff
      _ _ k)
    (registry_add_checked_count drive_has_device _ GHalDrive.udi HalDevice.udi
      (fun d e hd => hc.drive_udi d e hd) _ _ k)

theorem update_volumes_counted_udis (c : Collaborators) (hc : UdiKept c) (src : Snapshot)
    (m : GHalVolumeMonitor) (s : List VolumeMonitorSignal) (h : CountedUdis m) :
    CountedUdis (update_volumes c src (m, s)).1 := by
  rw [update_volumes_eq]
  refine ⟨h.drives, fun k => ?_, h.disc_volumes, fun k => ?_⟩
  · simp only [update_volumes_diff]
    rw [registry_add_checked_fst, List.map_append, List.count_append, List.map_reverse,
      List.count_reverse]
    exact counted_after_pass hal_device_compare HalDevice.udi hal_device_compare_udi _ _ k _ _
      _ (h.volumes k)
      (registry_remove_count volume_has_device GHalVolume.udi HalDevice.udi
        volume_has_device_iff _ _ k)
      (registry_add_checked_count volume_has_device _ GHalVolume.udi HalDevice.udi
        (fun d e hd => hc.volume_udi d _ e hd) _ _ k)
  · simp only [unset_volumes_map_udi]
    exact h.disc_mounts k

theorem update_mounts_counted_udis (c : Collaborators) (src : Snapshot)
    (m : GHalVolumeMonitor) (s : List VolumeMonitorSignal) (h : CountedUdis m) :
    CountedUdis (update_mounts c src (m, s)).1 := by
  rw [update_mounts_eq]
  exact ⟨h.drives, h.volumes, h.disc_volumes, h.disc_mounts⟩

theorem update_discs_counted_udis (c : Collaborators) (hc : UdiKept c) (src : Snapshot)
    (m : GHalVolumeMonitor) (s : List VolumeMonitorSignal) (h : CountedUdis m) :
    CountedUdis (update_discs c src (m, s)).1 := by
  rw [update_discs_eq]
  refine ⟨h.drives, h.volumes, fun k => ?_, fun k => ?_⟩
  · simp only [update_discs_diff]
    rw [List.map_append, List.count_append, List.map_reverse, List.count_reverse,
      List.map_filterMap]
    exact counted_after_pass hal_device_compare HalDevice.udi hal_device_compare_udi _ _ k _ _
      _ (h.disc_volumes k)
      (registry_remove_count volume_has_device GHalVolume.udi HalDevice.udi
        volume_has_device_iff _ _ k)
      (filter_map_count _ GHalVolume.udi HalDevice.udi
        (update_discs_new_pair_fst_udi_kept c hc m) _ k)
  · simp only [update_discs_diff]
    rw [List.map_append, List.count_append, List.map_reverse, List.count_reverse,
      List.map_filterMap, unset_volumes_map_udi]
    exact counted_after_pass hal_device_compare (fun (d : HalDevice) => some d.udi)
      hal_device_compare_some_udi _ _ k _ _ _ (h.disc_mounts k)
      (registry_remove_count mount_has_device GHalMount.udi
        (fun (d : HalDevice) => some d.udi) mount_has_device_iff _ _ k)
      (filter_map_count _ GHalMount.udi (fun (d : HalDevice) => some d.udi)
        (update_discs_new_pair_snd_udi_kept c hc m) _ k)

theorem reachable_by_counted_udis (m : GHalVolumeMonitor) (h : ReachableBy UdiKept m) :
    CountedUdis m := by
  induction h with
  | init =>
    exact ⟨fun _ => Nat.le_refl _, fun _ => Nat.le_refl _, fun _ => Nat.le_refl _,
      fun _ => Nat.le_refl _⟩
  | drives c src m s hc _ ih => exact update_drives_counted_udis c hc src m s ih
  | volumes c src m s hc _ ih => exact update_volumes_counted_udis c hc src m s ih
  | mounts c src m s _ _ ih => exact update_mounts_counted_udis c src m s ih
  | discs c src m s hc _ ih => exact update_discs_counted_udis c hc src m s ih

/-- An identity counted in the registry is an identity of the snapshot. -/
theorem key_in_snapshot_of_counted {E S K : Type} [BEq K] [LawfulBEq K] (keyE : E → K)
    (keyS : S → K) (reg : List E) (last : List S)
    (h : ∀ k, (reg.map keyE).count k ≤ (last.map keyS).count k) :
    ∀ e ∈ reg, ∃ s ∈ last, keyS s = keyE e := by
  intro e he
  have h1 : 0 < (reg.map keyE).count (keyE e) :=
    List.count_pos_iff.2 (List.mem_map_of_mem keyE he)
  have h2 : 0 < (last.map keyS).count (keyE e) := Nat.lt_of_lt_of_le h1 (h (keyE e))
  obtain ⟨s, hs, hk⟩ := List.mem_map.1 (List.count_pos_iff.1 h2)
  exact ⟨s, hs, hk⟩

/-- C27: in every state reachable from the initial monitor by update passes whose
constructors give an entity the UDI of the device it was built from, every live Drive has
the UDI of a device of `last_drive_devices`, every live Volume the UDI of a device of
`last_volume_devices`, and every live disc Volume and disc Mount the UDI of a device of
`last_optical_disc_devices`. -/
theorem registry_keys_in_last_snapshot (m : GHalVolumeMonitor)
    (h : ReachableBy UdiKept m) :
    (∀ drive ∈ m.drives, ∃ d ∈ m.last_drive_devices, hal_device_get_udi d = drive.udi) ∧
    (∀ volume ∈ m.volumes, ∃ d ∈ m.last_volume_devices,
      hal_device_get_udi d = volume.udi) ∧
    (∀ volume ∈ m.disc_volumes, ∃ d ∈ m.last_optical_disc_devices,
      hal_device_get_udi d = volume.udi) ∧
    (∀ mount ∈ m.disc_mounts, ∃ d ∈ m.last_optical_disc_devices,
      some (hal_device_get_udi d) = mount.udi) := by
  have hc := reachable_by_counted_udis m h
  exact ⟨key_in_snapshot_of_counted GHalDrive.udi HalDevice.udi _ _ hc.drives,
    key_in_snapshot_of_counted GHalVolume.udi HalDevice.udi _ _ hc.volumes,
    key_in_snapshot_of_counted GHalVolume.udi HalDevice.udi _ _ hc.disc_volumes,
    key_in_snapshot_of_counted GHalMount.udi (fun (d : HalDevice) => some d.udi) _ _
      hc.disc_mounts⟩

theorem udi_kept_sample : UdiKept sample_collaborators :=
  udi_kept_of_identity_kept _ identity_kept_sample

/-- C27 at the monitor after a drives pass and a discs pass against the sample drive with
the blank disc in it. -/
theorem registry_keys_in_last_snapshot_witness :
    (∀ drive ∈ (update_discs sample_collaborators sample_disc_snapshot
        ((update_drives sample_collaborators sample_disc_snapshot
          (g_hal_volume_monitor_init, [])).1, [])).1.drives,
      ∃ d ∈ (update_discs sample_collaborators sample_disc_snapshot
        ((update_drives sample_collaborators sample_disc_snapshot
          (g_hal_volume_monitor_init, [])).1, [])).1.last_drive_devices,
        hal_device_get_udi d = drive.udi) ∧
    (update_discs sample_collaborators sample_disc_snapshot
        ((update_drives sample_collaborators sample_disc_snapshot
          (g_hal_volume_monitor_init, [])).1, [])).1.drives = [⟨"/hal/drive0"⟩] ∧
    (update_discs sample_collaborators sample_disc_snapshot
        ((update_drives sample_collaborators sample_disc_snapshot
          (g_hal_volume_monitor_init, [])).1, [])).1.disc_volumes =
      [⟨"/hal/disc0", none⟩] :=
  ⟨(registry_keys_in_last_snapshot _
      (ReachableBy.discs _ _ _ _ udi_kept_sample
        (ReachableBy.drives _ _ _ _ udi_kept_sample ReachableBy.init))).1,
    by decide, by decide⟩


/-! ## Theorems: the cancelled flag, the delay and the unsigned window -/

theorem emit_event_other_kind (m : GFileMonitorPrivate) (file : GFile)
    (other_file : Option GFile) (kind : GFileMonitorEvent) (now : Nat)
    (hk : kind ≠ GFileMonitorEvent.CHANGED) :
    g_file_monitor_emit_event m file other_file kind now =
      ({ m with
          last_sent_change_file := none
          last_sent_change_time := 0
          send_delayed_change_timeout := none
          virtual_changes_done_timeout := none
          virtual_changes_done_file :=
            if m.virtual_changes_done_timeout.isSome then none
            else m.virtual_changes_done_file },
        (if m.send_delayed_change_timeout.isSome then
            [(⟨m.last_sent_change_file, none, .CHANGED⟩ : ChangedSignal)] else []) ++
          (if kind ≠ .CHANGES_DONE_HINT ∧ m.virtual_changes_done_timeout.isSome then
            [(⟨m.virtual_changes_done_file, none, .CHANGES_DONE_HINT⟩ : ChangedSignal)]
            else []) ++
          [⟨some file, other_file, kind⟩]) := by
  unfold g_file_monitor_emit_event
  rw [if_pos hk]
  unfold send_delayed_change_now cancel_virtual_changes_done send_virtual_changes_done_now
    update_last_sent_change
  by_cases hh : kind = GFileMonitorEvent.CHANGES_DONE_HINT <;>
    cases hd : m.send_delayed_change_timeout <;>
    cases hq : m.virtual_changes_done_timeout <;>
    simp [hh, hd, hq]

/-- C30: `g_file_monitor_emit_event` run on a state with the `cancelled` flag set to any
value emits what it emits on the state itself and leaves the same state but for the flag,
for every event kind; `g_file_monitor_cancel` leaves the monitor with the flag set (so
`g_file_monitor_is_cancelled` returns TRUE) and nothing else changed, in particular both
timeouts as they were; on a monitor not yet cancelled it invokes the class's `cancel` and
returns its result, on a cancelled monitor (so on every later call) it returns TRUE
without invoking it. -/
theorem cancelled_does_not_gate_emission (m : GFileMonitorPrivate) (b : Bool) (file : GFile)
    (other_file : Option GFile) (kind : GFileMonitorEvent) (now : Nat)
    (class_cancel : GFileMonitorPrivate → Bool) :
    g_file_monitor_emit_event { m with cancelled := b } file other_file kind now =
      ({ (g_file_monitor_emit_event m file other_file kind now).1 with cancelled := b },
        (g_file_monitor_emit_event m file other_file kind now).2) ∧
    (g_file_monitor_cancel class_cancel m).monitor = { m with cancelled := true } ∧
    g_file_monitor_is_cancelled (g_file_monitor_cancel class_cancel m).monitor = true ∧
    (g_file_monitor_cancel class_cancel m).monitor.send_delayed_change_timeout =
      m.send_delayed_change_timeout ∧
    (g_file_monitor_cancel class_cancel m).monitor.virtual_changes_done_timeout =
      m.virtual_changes_done_timeout ∧
    g_file_monitor_cancel class_cancel { m with cancelled := false } =
      ⟨{ m with cancelled := true }, class_cancel { m with cancelled := true }, true⟩ ∧
    g_file_monitor_cancel class_cancel { m with cancelled := true } =
      ⟨{ m with cancelled := true }, true, false⟩ ∧
    g_file_monitor_cancel class_cancel (g_file_monitor_cancel class_cancel m).monitor =
      ⟨(g_file_monitor_cancel class_cancel m).monitor, true, false⟩ := by
  have hmon : (g_file_monitor_cancel class_cancel m).monitor = { m with cancelled := true } := by
    unfold g_file_monitor_cancel
    cases hc : m.cancelled
    · simp
    · simp only [if_true]
      cases m
      simp only at hc
      simp [hc]
  refine ⟨?_, hmon, by rw [hmon]; rfl, by rw [hmon], by rw [hmon], by simp [g_file_monitor_cancel],
    by simp [g_file_monitor_cancel], by rw [hmon]; simp [g_file_monitor_cancel]⟩
  by_cases hk : kind = GFileMonitorEvent.CHANGED
  · subst hk
    by_cases hlim : m.last_sent_change_file = none ∨
        ¬ time_difference m.last_sent_change_time now < to_guint32 m.rate_limit_msec
    · rw [emit_changed_now m file other_file now hlim,
        emit_changed_now { m with cancelled := b } file other_file now hlim]
    · have h1 : m.last_sent_change_file ≠ none := fun h => hlim (Or.inl h)
      have h2 : time_difference m.last_sent_change_time now <
          to_guint32 m.rate_limit_msec := by
        by_contra h
        exact hlim (Or.inr h)
      obtain ⟨f, hf⟩ := Option.ne_none_iff_exists'.1 h1
      rw [emit_changed_limited m file other_file now f hf h2,
        emit_changed_limited { m with cancelled := b } file other_file now f hf h2]
  · rw [emit_event_other_kind m file other_file kind now hk,
      emit_event_other_kind { m with cancelled := b } file other_file kind now hk]

/-- C28: with a window `W`, `1 ≤ W ≤ 2^31 - 1`, whenever a call of
`g_file_monitor_emit_event` arms the delayed-change timeout (unarmed before the call,
armed after it), the event is `changed`, a last-sent file is recorded, the time since the
last sent change is below `W`, and the delay passed is `W - since_last`, computed without
wrap-around, with `1 ≤ delay ≤ W`; `since_last` is 0, and the delay `W`, when the clock
value is below the recorded time. -/
theorem delayed_change_delay_bound (m : GFileMonitorPrivate) (W : Int) (file : GFile)
    (other_file : Option GFile) (kind : GFileMonitorEvent) (now : Nat) (tm : Timeout)
    (hW1 : 1 ≤ W) (hW2 : W ≤ 2147483647) (hm : m.rate_limit_msec = W)
    (hnone : m.send_delayed_change_timeout = none)
    (harm : (g_file_monitor_emit_event m file other_file kind
      now).1.send_delayed_change_timeout = some tm) :
    kind = GFileMonitorEvent.CHANGED ∧
    m.last_sent_change_file ≠ none ∧
    (time_difference m.last_sent_change_time now : Int) < W ∧
    tm.armed_at = now ∧
    (tm.interval : Int) = W - time_difference m.last_sent_change_time now ∧
    tm.interval = (to_guint32 W + 4294967296 -
      time_difference m.last_sent_change_time now) % 4294967296 ∧
    tm.interval = to_guint32 W - time_difference m.last_sent_change_time now ∧
    1 ≤ tm.interval ∧ (tm.interval : Int) ≤ W ∧
    (now < m.last_sent_change_time →
      time_difference m.last_sent_change_time now = 0 ∧ (tm.interval : Int) = W) := by
  have hk : kind = GFileMonitorEvent.CHANGED := by
    by_contra hk
    rw [emit_event_other_kind m file other_file kind now hk] at harm
    cases harm
  subst hk
  have hlim : ¬ (m.last_sent_change_file = none ∨
      ¬ time_difference m.last_sent_change_time now < to_guint32 m.rate_limit_msec) := by
    intro hlim
    rw [emit_changed_now m file other_file now hlim] at harm
    cases harm
  have h1 : m.last_sent_change_file ≠ none := fun h => hlim (Or.inl h)
  have h2 : time_difference m.last_sent_change_time now < to_guint32 m.rate_limit_msec := by
    by_contra h
    exact hlim (Or.inr h)
  obtain ⟨f, hf⟩ := Option.ne_none_iff_exists'.1 h1
  rw [emit_changed_limited m file other_file now f hf h2, hnone] at harm
  simp only [Option.getD_none, Option.some.injEq] at harm
  have hw : to_guint32 W = W.toNat := to_guint32_of_nonneg W (by omega) (by omega)
  rw [hm, hw] at h2
  rw [hm, hw] at harm
  have hwrap := delay_no_wrap W.toNat (time_difference m.last_sent_change_time now) h2
    (by omega)
  rw [hwrap] at harm
  have hint : tm.interval = W.toNat - time_difference m.last_sent_change_time now := by
    rw [← harm]
  have harmed : tm.armed_at = now := by rw [← harm]
  refine ⟨rfl, h1, by omega, harmed, by omega, by rw [hw, hwrap]; exact hint,
    by rw [hw]; exact hint, by omega, by omega, fun hlt => ?_⟩
  have h0 : time_difference m.last_sent_change_time now = 0 := by
    unfold time_difference
    rw [if_pos hlt]
  exact ⟨h0, by omega⟩

/-- C28 at the default window 800: a change 100 msecs after the recorded one arms the
timeout with the delay 700. -/
theorem delayed_change_delay_bound_witness :
    (g_file_monitor_emit_event
      { g_file_monitor_init with last_sent_change_file := some sample_file } sample_file
      none .CHANGED 100).1.send_delayed_change_timeout = some ⟨100, 700⟩ ∧
    ((⟨100, 700⟩ : Timeout).interval : Int) = 800 - time_difference 0 100 ∧
    1 ≤ (⟨100, 700⟩ : Timeout).interval := by
  have hlim : time_difference 0 100 < to_guint32 800 := by decide
  have hdelay : (to_guint32 800 + 4294967296 - time_difference 0 100) % 4294967296 =
      700 := by decide
  have harm : (g_file_monitor_emit_event
      { g_file_monitor_init with last_sent_change_file := some sample_file } sample_file
      none .CHANGED 100).1.send_delayed_change_timeout = some ⟨100, 700⟩ := by
    rw [emit_changed_limited _ sample_file none 100 sample_file rfl hlim]
    show some (⟨100, (to_guint32 800 + 4294967296 - time_difference 0 100) %
      4294967296⟩ : Timeout) = some ⟨100, 700⟩
    rw [hdelay]
  have h := delayed_change_delay_bound
    { g_file_monitor_init with last_sent_change_file := some sample_file } 800 sample_file
    none .CHANGED 100 ⟨100, 700⟩ (by decide) (by decide) rfl rfl harm
  exact ⟨harm, h.2.2.2.2.1, h.2.2.2.2.2.2.2.1⟩

/-- C29: `g_file_monitor_set_rate_limit` stores any `int` as it is. With a negative window
`W` and a recorded last-sent file, a `changed` event with `since_last < 2^32 + W` is not
emitted by the call; the delayed-change timeout, if it was unarmed, is armed with the
delay `(W - since_last) mod 2^32` (an armed one is left as it is). With the window 0 every
`changed` event is emitted by the call. -/
theorem negative_rate_limit_is_unsigned (m : GFileMonitorPrivate) (W : Int) (file : GFile)
    (other_file : Option GFile) (now : Nat) :
    (∀ limit_msecs : Int, g_file_monitor_set_rate_limit m limit_msecs =
      { m with rate_limit_msec := limit_msecs }) ∧
    (∀ f, -2147483648 ≤ W → W < 0 → m.rate_limit_msec = W →
      m.last_sent_change_file = some f →
      (time_difference m.last_sent_change_time now : Int) < 4294967296 + W →
      (g_file_monitor_emit_event m file other_file .CHANGED now).2 = [] ∧
      (g_file_monitor_emit_event m file other_file .CHANGED
        now).1.send_delayed_change_timeout =
        some (m.send_delayed_change_timeout.getD
          ⟨now, ((W - time_difference m.last_sent_change_time now) % 4294967296).toNat⟩) ∧
      0 < ((W - time_difference m.last_sent_change_time now) % 4294967296).toNat) ∧
    (m.rate_limit_msec = 0 →
      (g_file_monitor_emit_event m file other_file .CHANGED now).2 =
        [⟨some file, other_file, .CHANGED⟩]) := by
  refine ⟨fun _ => rfl, fun f hW1 hW2 hm hf hs => ?_, fun h0 => ?_⟩
  · have hw : to_guint32 W = (4294967296 + W).toNat := by
      unfold to_guint32
      congr 1
      omega
    have h2 : time_difference m.last_sent_change_time now < to_guint32 m.rate_limit_msec := by
      rw [hm, hw]
      omega
    rw [emit_changed_limited m file other_file now f hf h2]
    have hd : (to_guint32 m.rate_limit_msec + 4294967296 -
        time_difference m.last_sent_change_time now) % 4294967296 =
        ((W - time_difference m.last_sent_change_time now) % 4294967296).toNat := by
      rw [hm, hw]
      omega
    refine ⟨rfl, ?_, by omega⟩
    simp only [hd]
  · have hlim : m.last_sent_change_file = none ∨
        ¬ time_difference m.last_sent_change_time now < to_guint32 m.rate_limit_msec := by
      right
      rw [h0]
      have hz : to_guint32 0 = 0 := by decide
      rw [hz]
      omega
    rw [emit_changed_now m file other_file now hlim]

/-- C29 at the window -1: a change 5 msecs after the recorded one is held back and the
timeout is armed with the delay 2^32 - 6. -/
theorem negative_rate_limit_is_unsigned_witness :
    (g_file_monitor_emit_event
      { g_file_monitor_set_rate_limit g_file_monitor_init (-1) with
        last_sent_change_file := some sample_file, last_sent_change_time := 10 }
      sample_file none .CHANGED 15).2 = [] :=
  ((negative_rate_limit_is_unsigned
    { g_file_monitor_set_rate_limit g_file_monitor_init (-1) with
      last_sent_change_file := some sample_file, last_sent_change_time := 10 }
    (-1) sample_file none 15).2.1 sample_file (by decide) (by decide) rfl rfl
    (by
      have h : time_difference 10 15 = 5 := by decide
      show ((time_difference 10 15 : Nat) : Int) < 4294967296 + -1
      rw [h]
      omega)).1


/-! ## Theorems: the burst inside one window and the quiescence re-arm -/

theorem feed_changed_at_cons (F : GFile) (m : GFileMonitorPrivate) (t : Nat)
    (ts : List Nat) :
    feed_changed_at F m (t :: ts) =
      ((feed_changed_at F (g_file_monitor_emit_event (run_idle m t).1 F none .CHANGED t).1
          ts).1,
        (run_idle m t).2 ++
          stamp t (g_file_monitor_emit_event (run_idle m t).1 F none .CHANGED t).2 ++
          (feed_changed_at F (g_file_monitor_emit_event (run_idle m t).1 F none .CHANGED t).1
            ts).2) := by
  simp [feed_changed_at]

/-- While the delayed-change timeout is unarmed or not yet due, the idle main loop leaves
the rate limiter as it is and emits no `changed` event. -/
theorem run_idle_before_delayed (m : GFileMonitorPrivate) (t : Nat)
    (h : ∀ d, m.send_delayed_change_timeout = some d → t < d.due) :
    (run_idle m t).1.send_delayed_change_timeout = m.send_delayed_change_timeout ∧
    (run_idle m t).1.rate_limit_msec = m.rate_limit_msec ∧
    (run_idle m t).1.last_sent_change_file = m.last_sent_change_file ∧
    (run_idle m t).1.last_sent_change_time = m.last_sent_change_time ∧
    (run_idle m t).2.filter (fun e => e.signal.event_type == .CHANGED) = [] := by
  cases hd : m.send_delayed_change_timeout with
  | none =>
    cases hq : m.virtual_changes_done_timeout with
    | none => simp [run_idle, idle_schedule, next_timeout, hd, hq, run_actions]
    | some q =>
      by_cases h1 : q.due ≤ t
      · simp [run_idle, idle_schedule, next_timeout, hd, hq, h1, run_actions, Action.run,
          virtual_changes_done_timeout, send_virtual_changes_done_now, stamp, Action.time]
      · simp [run_idle, idle_schedule, next_timeout, hd, hq, h1, run_actions]
  | some d =>
    have hdue : ¬ d.due ≤ t := by
      have := h d hd
      omega
    cases hq : m.virtual_changes_done_timeout with
    | none => simp [run_idle, idle_schedule, next_timeout, hd, hq, hdue, run_actions]
    | some q =>
      by_cases h1 : d.due ≤ q.due
      · simp [run_idle, idle_schedule, next_timeout, hd, hq, hdue, h1, run_actions]
      · by_cases h2 : q.due ≤ t
        · simp [run_idle, idle_schedule, next_timeout, hd, hq, hdue, h1, h2, run_actions,
            Action.run, virtual_changes_done_timeout, send_virtual_changes_done_now, stamp,
            Action.time]
        · simp [run_idle, idle_schedule, next_timeout, hd, hq, hdue, h1, h2, run_actions]

/-- The idle main loop run from a state with the delayed-change timeout armed, up to a
clock value at or after its due time: exactly one `changed` event, for the last-sent
file, at the due time. -/
theorem run_idle_delayed_fires (m : GFileMonitorPrivate) (d : Timeout) (F : GFile)
    (hd : m.send_delayed_change_timeout = some d)
    (hF : m.last_sent_change_file = some F) (T : Nat) (hT : d.due ≤ T) :
    (run_idle m T).2.filter (fun e => e.signal.event_type == .CHANGED) =
      [⟨d.due, ⟨some F, none, .CHANGED⟩⟩] := by
  cases hq : m.virtual_changes_done_timeout with
  | none =>
    simp [run_idle, idle_schedule, next_timeout, hd, hq, hF, hT, Action.run, run_actions,
      stamp, Action.time, delayed_changed_event_timeout, send_delayed_change_now]
  | some q =>
    by_cases h1 : d.due ≤ q.due
    · by_cases h2 : q.due ≤ T
      · simp [run_idle, idle_schedule, next_timeout, hd, hq, hF, hT, h1, h2, Action.run,
          run_actions, virtual_changes_done_timeout, send_virtual_changes_done_now, stamp,
          Action.time, delayed_changed_event_timeout, send_delayed_change_now]
      · simp [run_idle, idle_schedule, next_timeout, hd, hq, hF, hT, h1, h2, Action.run,
          run_actions, virtual_changes_done_timeout, send_virtual_changes_done_now, stamp,
          Action.time, delayed_changed_event_timeout, send_delayed_change_now]
    · have h2 : q.due ≤ T := by omega
      simp [run_idle, idle_schedule, next_timeout, hd, hq, hF, hT, h1, h2, Action.run,
        run_actions, virtual_changes_done_timeout, send_virtual_changes_done_now, stamp,
        Action.time, delayed_changed_event_timeout, send_delayed_change_now]

theorem to_guint32_nat (W : Nat) (hW : W < 4294967296) : to_guint32 (W : Int) = W := by
  rw [to_guint32_of_nonneg (W : Int) (by omega) (by omega)]
  exact Int.toNat_ofNat W

/-- One rate-limited `Changed(F)` feed of a burst: nothing is emitted, and the
delayed-change timeout is armed for the end of the window, as it was if it was armed. -/
theorem burst_feed (F : GFile) (W t0 : Nat) (hW : W < 4294967296)
    (m : GFileMonitorPrivate) (t : Nat)
    (hw : m.rate_limit_msec = W) (hf : m.last_sent_change_file = some F)
    (ht0 : m.last_sent_change_time = t0)
    (hd : ∀ d, m.send_delayed_change_timeout = some d → d.due = t0 + W)
    (h1 : t0 ≤ t) (h2 : t < t0 + W) :
    (g_file_monitor_emit_event m F none .CHANGED t).2 = [] ∧
    (g_file_monitor_emit_event m F none .CHANGED t).1.rate_limit_msec = W ∧
    (g_file_monitor_emit_event m F none .CHANGED t).1.last_sent_change_file = some F ∧
    (g_file_monitor_emit_event m F none .CHANGED t).1.last_sent_change_time = t0 ∧
    (∃ d, (g_file_monitor_emit_event m F none .CHANGED t).1.send_delayed_change_timeout =
      some d ∧ d.due = t0 + W ∧
      (m.send_delayed_change_timeout.isSome = true →
        m.send_delayed_change_timeout = some d)) := by
  have hdiff : time_difference m.last_sent_change_time t = t - t0 := by
    unfold time_difference
    rw [ht0, if_neg (by omega)]
  have hlim : time_difference m.last_sent_change_time t < to_guint32 m.rate_limit_msec := by
    rw [hdiff, hw, to_guint32_nat W hW]
    omega
  rw [emit_changed_limited m F none t F hf hlim]
  refine ⟨rfl, hw, hf, ht0, ?_⟩
  cases hd0 : m.send_delayed_change_timeout with
  | some d0 => exact ⟨d0, rfl, hd d0 hd0, fun _ => rfl⟩
  | none =>
    refine ⟨_, rfl, ?_, fun h => by cases h⟩
    rw [hdiff, hw, to_guint32_nat W hW, delay_no_wrap W (t - t0) (by omega) hW]
    simp only [Option.getD_none, Timeout.due]
    omega

theorem filter_stamp_nil (t : Nat) (p : Emission → Bool) : (stamp t []).filter p = [] := rfl

/-- The feeds of a burst: nothing `changed` is emitted, and after at least one feed the
delayed-change timeout is armed for the end of the window. -/
theorem burst_feeds (F : GFile) (W t0 : Nat) (hW : W < 4294967296) :
    ∀ (times : List Nat) (m : GFileMonitorPrivate),
      m.rate_limit_msec = W → m.last_sent_change_file = some F →
      m.last_sent_change_time = t0 →
      (∀ d, m.send_delayed_change_timeout = some d → d.due = t0 + W) →
      (∀ t ∈ times, t0 ≤ t ∧ t < t0 + W) →
      (feed_changed_at F m times).1.rate_limit_msec = W ∧
      (feed_changed_at F m times).1.last_sent_change_file = some F ∧
      (feed_changed_at F m times).1.last_sent_change_time = t0 ∧
      (∀ d, (feed_changed_at F m times).1.send_delayed_change_timeout = some d →
        d.due = t0 + W) ∧
      (times ≠ [] →
        (feed_changed_at F m times).1.send_delayed_change_timeout.isSome = true) ∧
      (m.send_delayed_change_timeout.isSome = true →
        (feed_changed_at F m times).1.send_delayed_change_timeout =
          m.send_delayed_change_timeout) ∧
      (feed_changed_at F m times).2.filter (fun e => e.signal.event_type == .CHANGED) =
        [] := by
  intro times
  induction times with
  | nil =>
    intro m hw hf ht0 hd _
    exact ⟨hw, hf, ht0, hd, fun h => absurd rfl h, fun _ => rfl, rfl⟩
  | cons t ts ih =>
    intro m hw hf ht0 hd ht
    obtain ⟨ht1, ht2⟩ := ht t (List.mem_cons_self _ _)
    obtain ⟨i1, i2, i3, i4, i5⟩ := run_idle_before_delayed m t (fun d hd0 => by
      rw [hd d hd0]
      exact ht2)
    obtain ⟨e1, e2, e3, e4, d1, e5, e6, e7⟩ := burst_feed F W t0 hW (run_idle m t).1 t
      (by rw [i2, hw]) (by rw [i3, hf]) (by rw [i4, ht0])
      (fun d hd0 => hd d (by rw [← i1]; exact hd0)) ht1 ht2
    obtain ⟨r1, r2, r3, r4, _, r6, r7⟩ :=
      ih (g_file_monitor_emit_event (run_idle m t).1 F none .CHANGED t).1 e2 e3 e4
        (fun d hd0 => by
          rw [e5] at hd0
          cases hd0
          exact e6)
        (fun t1 ht1 => ht t1 (List.mem_cons_of_mem _ ht1))
    have r6b := r6 (by rw [e5]; rfl)
    rw [feed_changed_at_cons]
    refine ⟨r1, r2, r3, r4, fun _ => ?_, fun hsome => ?_, ?_⟩
    · show (feed_changed_at F _ ts).1.send_delayed_change_timeout.isSome = true
      rw [r6b, e5]
      rfl
    · show (feed_changed_at F _ ts).1.send_delayed_change_timeout = _
      rw [r6b, e5, ← e7 (by rw [i1]; exact hsome), i1]
    · show ((run_idle m t).2 ++ stamp t _ ++ (feed_changed_at F _ ts).2).filter _ = []
      rw [List.filter_append, List.filter_append, i5, e1, r7]
      rfl

/-- C24: a `changed` event that is rate-limited while the delayed-change timeout is armed
emits nothing and leaves the timeout as it is, with its due time, and the last-sent
record too; and for a burst of `Changed(F)` feeds inside the window `W` after a
`changed(F)` sent at `t0` (at least one feed, each at a time from `t0` to before
`t0 + W`), once the main loop has idled to `t0 + W` or later, exactly one `changed` event
has been emitted since the burst began: `changed(F)`, at `t0 + W`. -/
theorem first_writer_wins (m : GFileMonitorPrivate) (F : GFile) :
    (∀ (other_file : Option GFile) (now : Nat) (f : GFile) (tm : Timeout),
      m.last_sent_change_file = some f →
      time_difference m.last_sent_change_time now < to_guint32 m.rate_limit_msec →
      m.send_delayed_change_timeout = some tm →
      (g_file_monitor_emit_event m F other_file .CHANGED now).2 = [] ∧
      (g_file_monitor_emit_event m F other_file .CHANGED now).1.send_delayed_change_timeout =
        some tm ∧
      (g_file_monitor_emit_event m F other_file .CHANGED now).1.last_sent_change_file =
        some f ∧
      (g_file_monitor_emit_event m F other_file .CHANGED now).1.last_sent_change_time =
        m.last_sent_change_time) ∧
    (∀ (W t0 : Nat) (times : List Nat) (T : Nat),
      0 < W → W < 4294967296 → m.rate_limit_msec = W →
      m.last_sent_change_file = some F → m.last_sent_change_time = t0 →
      m.send_delayed_change_timeout = none →
      times ≠ [] → (∀ t ∈ times, t0 ≤ t ∧ t < t0 + W) → t0 + W ≤ T →
      ((feed_changed_at F m times).2 ++ (run_idle (feed_changed_at F m times).1 T).2).filter
          (fun e => e.signal.event_type == .CHANGED) =
        [⟨t0 + W, ⟨some F, none, .CHANGED⟩⟩]) := by
  constructor
  · intro other_file now f tm hf hlim htm
    rw [emit_changed_limited m F other_file now f hf hlim, htm]
    exact ⟨rfl, rfl, hf, rfl⟩
  · intro W t0 times T _ hW hw hf ht0 hnone hne ht hT
    obtain ⟨_, r2, _, r4, r5, _, r7⟩ := burst_feeds F W t0 hW times m hw hf ht0
      (fun d hd => by rw [hnone] at hd; cases hd) ht
    obtain ⟨d, hd⟩ := Option.isSome_iff_exists.1 (r5 hne)
    have hdue := r4 d hd
    rw [List.filter_append, r7, List.nil_append,
      run_idle_delayed_fires _ d F hd r2 T (by rw [hdue]; exact hT), hdue]

/-- C24 at the default window: after `changed(F)` sent at 0, `Changed(F)` fed at 100, 300
and 700 yields one `changed(F)`, at 800. -/
theorem first_writer_wins_witness :
    ((feed_changed_at sample_file
        { g_file_monitor_init with last_sent_change_file := some sample_file }
        [100, 300, 700]).2 ++
      (run_idle (feed_changed_at sample_file
        { g_file_monitor_init with last_sent_change_file := some sample_file }
        [100, 300, 700]).1 5000).2).filter
        (fun e => e.signal.event_type == .CHANGED) =
      [⟨0 + 800, ⟨some sample_file, none, .CHANGED⟩⟩] :=
  (first_writer_wins { g_file_monitor_init with last_sent_change_file := some sample_file }
    sample_file).2 800 0 [100, 300, 700] 5000 (by decide) (by decide) rfl rfl rfl rfl
    (by decide) (by decide) (by decide)

end Gvfs
